import Mathlib

/-!
Verification of the sim workflow export-service runtime
(apps/sim/app/api/workflows/[id]/export-service/templates/).

This file gives a shallow embedding of the runtime in Lean 4 and proves or
refutes the frozen claims about it.  The embedding follows the Python source:

* JSON-like runtime values are the inductive type Value; Python dicts are
  modelled as insertion-ordered association lists with string keys (Python
  dicts preserve insertion order; non-string dict keys do not occur in the
  data model of the spec and are outside the model).
* Python floats are outside the model; numbers are modelled as integers.
* Python str.lower / str.strip are modelled on ASCII (pyLower, pyStrip).
* Exceptions are modelled with Except String, carrying str(e).
* Wall-clock timestamps are modelled by a monotone natural-number clock
  threaded through the execution context; ISO-8601 rendering is order
  preserving, so comparisons of timestamps become comparisons of clock
  values.
* asyncio.sleep calls are recorded in a trace rather than performed.
-/

namespace Sim

/-- Runtime values: the JSON-like data manipulated by the workflow engine.
Python dict objects become ordered association lists with string keys. -/
inductive Value where
  | null : Value
  | bool : Bool → Value
  | int : Int → Value
  | str : String → Value
  | list : List Value → Value
  | obj : List (String × Value) → Value
deriving Inhabited

/-- Python truthiness (bool(v)): None, False, 0, empty string, empty list and
empty dict are falsy, everything else truthy. -/
def pyTruthy : Value → Bool
  | .null => false
  | .bool b => b
  | .int n => n != 0
  | .str s => s.length != 0
  | .list l => !l.isEmpty
  | .obj l => !l.isEmpty

/-- dict.get(k): first binding of k, if any (association lists keep unique
keys under the setKv update below, so first match is the binding). -/
def lookupKv : List (String × Value) → String → Option Value
  | [], _ => Option.none
  | (k, v) :: rest, key => if k = key then Option.some v else lookupKv rest key

/-- dict.get(k) with Python result None when the key is absent. -/
def getKvD (d : List (String × Value)) (k : String) : Value :=
  (lookupKv d k).getD .null

/-- dict[k] = v: overwrite in place when the key exists (keeping its
position, as Python dicts do), otherwise append. -/
def setKv : List (String × Value) → String → Value → List (String × Value)
  | [], key, v => [(key, v)]
  | (k, w) :: rest, key, v =>
      if k = key then (k, v) :: rest else (k, w) :: setKv rest key v

/-- Python `a or b`: a when truthy, else b. -/
def pyOrV (a b : Value) : Value := if pyTruthy a then a else b

/-- Numeric view shared by int and bool (isinstance(True, int) holds in
Python, and True == 1). -/
def numView : Value → Option Int
  | .int n => Option.some n
  | .bool b => Option.some (if b then 1 else 0)
  | _ => Option.none

mutual

/-- Python equality (==) on runtime values: numbers and booleans compare
numerically, strings as strings, lists elementwise; dicts are compared as
ordered association lists (the model keeps dicts in insertion order
throughout, so this is pointwise equality of the model representation);
values of different kinds are unequal (Python == never raises here). -/
def pyEq : Value → Value → Bool
  | .null, .null => true
  | .str a, .str b => a == b
  | .list a, .list b => pyEqList a b
  | .obj a, .obj b => pyEqObj a b
  | a, b =>
      match numView a, numView b with
      | Option.some x, Option.some y => x == y
      | _, _ => false

def pyEqList : List Value → List Value → Bool
  | [], [] => true
  | a :: as', b :: bs' => pyEq a b && pyEqList as' bs'
  | _, _ => false

def pyEqObj : List (String × Value) → List (String × Value) → Bool
  | [], [] => true
  | (k, v) :: as', (k2, v2) :: bs' => k == k2 && pyEq v v2 && pyEqObj as' bs'
  | _, _ => false

end

/-- One hexadecimal digit, lowercase, as json.dumps renders escapes. -/
def hexDigit (n : Nat) : Char :=
  if n < 10 then Char.ofNat (48 + n) else Char.ofNat (87 + n)

/-- Four-digit lowercase hex, for json.dumps \u escapes. -/
def hex4 (n : Nat) : String :=
  String.mk [hexDigit (n / 4096 % 16), hexDigit (n / 256 % 16),
             hexDigit (n / 16 % 16), hexDigit (n % 16)]

/-- Escape one character the way json.dumps (ensure_ascii=True) does. -/
def jsonEscapeChar (c : Char) : String :=
  if c = Char.ofNat 34 then "\\\""
  else if c = Char.ofNat 92 then "\\\\"
  else if c = Char.ofNat 10 then "\\n"
  else if c = Char.ofNat 13 then "\\r"
  else if c = Char.ofNat 9 then "\\t"
  else if c.toNat = 8 then "\\b"
  else if c.toNat = 12 then "\\f"
  else if c.toNat < 32 then "\\u" ++ hex4 c.toNat
  else if c.toNat < 128 then String.singleton c
  else if c.toNat < 65536 then "\\u" ++ hex4 c.toNat
  else
    let v := c.toNat - 65536
    "\\u" ++ hex4 (55296 + v / 1024) ++ "\\u" ++ hex4 (56320 + v % 1024)

/-- json.dumps rendering of a string (quoted, escaped). -/
def jsonQuote (s : String) : String :=
  "\"" ++ String.join (s.data.map jsonEscapeChar) ++ "\""

mutual

/-- json.dumps with default separators: null/true/false, decimal integers,
quoted strings, [a, b] lists and \x7b"k": v\x7d objects. -/
def jsonDumps : Value → String
  | .null => "null"
  | .bool true => "true"
  | .bool false => "false"
  | .int n => toString n
  | .str s => jsonQuote s
  | .list l => "[" ++ jsonDumpsList l ++ "]"
  | .obj l => "\x7b" ++ jsonDumpsObj l ++ "\x7d"

def jsonDumpsList : List Value → String
  | [] => ""
  | [v] => jsonDumps v
  | v :: rest => jsonDumps v ++ ", " ++ jsonDumpsList rest

def jsonDumpsObj : List (String × Value) → String
  | [] => ""
  | [(k, v)] => jsonQuote k ++ ": " ++ jsonDumps v
  | (k, v) :: rest => jsonQuote k ++ ": " ++ jsonDumps v ++ ", " ++ jsonDumpsObj rest

end

/-- Length of dropWhile is at most the original length. -/
theorem dropWhile_length_le (p : Char → Bool) (l : List Char) :
    (l.dropWhile p).length ≤ l.length := by
  induction l with
  | nil => simp [List.dropWhile]
  | cons c rest ih =>
      simp only [List.dropWhile]
      cases p c <;> simp <;> omega

/-! ## Reference resolver (resolver.py) -/

/-- Python str.lower combined with replacing spaces by underscores:
name.lower().replace(' ', '_'), the normalisation applied to block names. -/
def normalizeName (s : String) : String :=
  String.mk (s.data.map (fun c => if c = ' ' then '_' else c.toLower))

/-- The single-quote character (written by code to avoid escaping). -/
def qChar : Char := Char.ofNat 39

/-- Whitespace for str.strip (ASCII whitespace; Python also strips some
unicode spaces, which are outside the model). -/
def isSpace (c : Char) : Bool := c.isWhitespace

/-- Python str.strip(): drop whitespace from both ends. -/
def pyStrip (cs : List Char) : List Char :=
  ((cs.dropWhile isSpace).reverse.dropWhile isSpace).reverse

/-- First character of a reference name: [a-zA-Z_]. -/
def isNameStart (c : Char) : Bool := c.isAlpha || c = '_'

/-- Later characters of a reference name: [a-zA-Z0-9_]. -/
def isNameChar (c : Char) : Bool := isNameStart c || c.isDigit

/-- A quote character for bracket segments: double or single quote. -/
def isQuote (c : Char) : Bool := c = Char.ofNat 34 || c = qChar

/-- Matcher for the segment part of REFERENCE_PATTERN: zero or more
segments, each either .NAME or a bracket segment [ quote KEY quote ] with
KEY a nonempty run of non-quote characters (the regex class excludes both
quote kinds and the closing quote may be either kind).  Returns the
consumed characters and the remainder.  The regex is deterministic here
because name characters, the segment openers and the terminator are
pairwise disjoint, so greedy matching agrees with backtracking.
Fuel-driven for kernel reducibility; every segment consumes at least two
characters, so fuel at least the input length always suffices (callers
pass exactly that). -/
def matchSegs : Nat → List Char → List Char × List Char
  | 0, cs => ([], cs)
  | fuel + 1, cs =>
      match cs with
      | '.' :: c :: rest =>
          if isNameStart c then
            match matchSegs fuel (rest.dropWhile isNameChar) with
            | (seg, rem) => ('.' :: c :: (rest.takeWhile isNameChar ++ seg), rem)
          else ([], '.' :: c :: rest)
      | '[' :: q :: rest =>
          if isQuote q then
            if (rest.takeWhile (fun c => !(isQuote c))).isEmpty then ([], '[' :: q :: rest)
            else
              match rest.dropWhile (fun c => !(isQuote c)) with
              | q2 :: rbr :: r2 =>
                  if rbr = ']' then
                    match matchSegs fuel r2 with
                    | (seg, rem) =>
                        ('[' :: q :: (rest.takeWhile (fun c => !(isQuote c)) ++ q2 :: ']' :: seg),
                         rem)
                  else ([], '[' :: q :: rest)
              | _ => ([], '[' :: q :: rest)
          else ([], '[' :: q :: rest)
      | _ => ([], cs)

/-- Match REFERENCE_PATTERN immediately after the opening angle bracket:
NAME(SEGMENT)* followed by the closing angle bracket.  Returns the path text
(the regex capture group) and the remaining characters. -/
def matchRefAfterLt (cs : List Char) : Option (String × List Char) :=
  match cs with
  | c :: rest =>
      if isNameStart c then
        match matchSegs (rest.dropWhile isNameChar).length (rest.dropWhile isNameChar) with
        | (seg, rem) =>
            match rem with
            | '>' :: rem2 =>
                Option.some (String.mk (c :: (rest.takeWhile isNameChar ++ seg)), rem2)
            | _ => Option.none
      else Option.none
  | [] => Option.none

/-- Parse a reference path such as a bracket-and-dot mixture into parts,
following _parse_path in resolver.py character by character.  Fuel-driven
for kernel reducibility; every step consumes at least one character, so
fuel at least the input length suffices. -/
def parsePathAux : Nat → List Char → List Char → List String → List String
  | 0, _, cur, parts => if cur.isEmpty then parts else parts ++ [String.mk cur]
  | fuel + 1, cs, cur, parts =>
      match cs with
      | [] => if cur.isEmpty then parts else parts ++ [String.mk cur]
      | c :: rest =>
          if c = '.' then
            parsePathAux fuel rest [] (if cur.isEmpty then parts else parts ++ [String.mk cur])
          else if c = '[' then
            let parts1 := if cur.isEmpty then parts else parts ++ [String.mk cur]
            match rest with
            | q :: rest2 =>
                if isQuote q then
                  parsePathAux fuel
                    (match (rest2.dropWhile (fun x => x ≠ q)).tail with
                     | ']' :: t => t
                     | other => other)
                    [] (parts1 ++ [String.mk (rest2.takeWhile (fun x => x ≠ q))])
                else parsePathAux fuel (q :: rest2) [] parts1
            | [] => parts1
          else parsePathAux fuel rest (cur ++ [c]) parts

/-- _parse_path from resolver.py. -/
def parsePath (path : String) : List String := parsePathAux path.data.length path.data [] []

/-- The execution context (executor.py ExecutionContext), together with a
model clock for datetime.now and a trace of asyncio.sleep calls. -/
structure LoopState where
  iteration : Int := 0
  items : List Value := []
  currentItem : Value := .null
  maxIterations : Int := 1000
  loopType : Value := .str "for"
  condition : Value := .null
  iterationOutputs : List (List (String × Value)) := []
deriving Inhabited

/-- One entry of ctx.logs; startedAt and endedAt are model-clock readings
standing for the ISO-8601 UTC timestamps (the rendering is monotone, so
timestamp comparisons become comparisons of clock values). -/
structure LogRecord where
  blockId : String
  blockName : String
  blockType : String
  startedAt : Nat
  success : Bool
  output : Value
  endedAt : Nat
deriving Inhabited

structure Ctx where
  inputs : List (String × Value)
  blockOutputs : List (String × Value) := []
  workflowVariables : List (String × Value) := []
  logs : List LogRecord := []
  loopStates : List (String × LoopState) := []
  currentLoopId : Option String := Option.none
  clock : Nat := 0
  sleeps : List ℚ := []
deriving Inhabited

/-- Decimal value of a digit string (int(part) for part.isdigit()). -/
def digitsToNat (cs : List Char) : Nat :=
  cs.foldl (fun a c => a * 10 + (c.toNat - 48)) 0

/-- Navigate the remaining path parts from a root value (the loop at the
end of _lookup_reference): dict segments select keys, digit segments on
lists index with bounds check, anything else gives None; traversal through
None gives None. -/
def walkPath : Value → List String → Value
  | cur, [] => cur
  | .null, _ :: _ => .null
  | .obj d, p :: rest => walkPath (getKvD d p) rest
  | .list l, p :: rest =>
      if p.length != 0 && p.data.all Char.isDigit then
        walkPath (l.getD (digitsToNat p.data) .null) rest
      else .null
  | _, _ :: _ => .null

/-- _lookup_reference: the first part selects the root (start, variable or
a block output by normalised name with raw-name fallback through the
Python or operator), the rest of the parts are walked. -/
def lookupReference (path : String) (ctx : Ctx) : Value :=
  match parsePath path with
  | [] => .null
  | p0 :: rest =>
      if p0 = "start" then walkPath (.obj ctx.inputs) rest
      else if p0 = "variable" then walkPath (.obj ctx.workflowVariables) rest
      else
        walkPath
          (pyOrV (getKvD ctx.blockOutputs (normalizeName p0))
                 (getKvD ctx.blockOutputs p0)) rest

/-- Stringification of an embedded reference value (replace_ref in
_resolve_string): None renders null, booleans render True and False, dicts
and lists render as JSON, numbers render as decimal text, strings pass
through (their natural str() form). -/
def embedStr : Value → String
  | .null => "null"
  | .bool true => "True"
  | .bool false => "False"
  | .obj l => jsonDumps (.obj l)
  | .list l => jsonDumps (.list l)
  | .int n => toString n
  | .str s => s

/-- REFERENCE_PATTERN.sub(replace_ref, value): scan left to right, replace
each match by its stringified lookup, keep everything else.  Fuel-driven
for kernel reducibility; every step consumes at least one character. -/
def subRefs (ctx : Ctx) : Nat → List Char → String
  | 0, _ => ""
  | fuel + 1, cs =>
      match cs with
      | [] => ""
      | c :: rest =>
          if c = '<' then
            match matchRefAfterLt rest with
            | Option.some (path, rem) =>
                embedStr (lookupReference path ctx) ++ subRefs ctx fuel rem
            | Option.none => String.singleton c ++ subRefs ctx fuel rest
          else String.singleton c ++ subRefs ctx fuel rest

/-- REFERENCE_PATTERN.fullmatch: the entire character list is one
reference; returns the captured path. -/
def matchFull (cs : List Char) : Option String :=
  match cs with
  | '<' :: rest =>
      match matchRefAfterLt rest with
      | Option.some (path, []) => Option.some path
      | _ => Option.none
  | _ => Option.none

/-- _resolve_string: if the stripped string is exactly one reference,
return the looked-up value raw; otherwise substitute every embedded
reference by its stringified value. -/
def resolveString (s : String) (ctx : Ctx) : Value :=
  match matchFull (pyStrip s.data) with
  | Option.some path => lookupReference path ctx
  | Option.none => .str (subRefs ctx s.data.length s.data)

mutual

/-- ReferenceResolver.resolve: strings are resolved, dicts and lists are
resolved recursively, other values pass through unchanged. -/
def resolveValue (ctx : Ctx) : Value → Value
  | .str s => resolveString s ctx
  | .obj l => .obj (resolveObjList ctx l)
  | .list l => .list (resolveList ctx l)
  | v => v

def resolveObjList (ctx : Ctx) : List (String × Value) → List (String × Value)
  | [] => []
  | (k, v) :: rest => (k, resolveValue ctx v) :: resolveObjList ctx rest

def resolveList (ctx : Ctx) : List Value → List Value
  | [] => []
  | v :: rest => resolveValue ctx v :: resolveList ctx rest

end

/-! ## Safe expression evaluation

The Python sources evaluate restricted expressions by parsing them with
ast.parse and interpreting a closed set of node kinds.  The embedding uses
the inductive type PExpr for the accepted abstract syntax, interprets it
with the same case analysis as the sources, and models ast.parse by a
recursive-descent reading of the restricted grammar (literals, names,
comparisons, boolean operators, additive arithmetic, unary minus, calls,
list displays, subscripts and attributes).  Strings outside this grammar
are parse errors, matching the callers, which treat any exception from
parsing or evaluation uniformly. -/

inductive CmpOp where
  | eq | ne | lt | le | gt | ge | isIn | notIn
deriving DecidableEq, Inhabited

inductive PExpr where
  | const (v : Value)
  | name (id : String)
  | compare (left : PExpr) (rest : List (CmpOp × PExpr))
  | boolAnd (args : List PExpr)
  | boolOr (args : List PExpr)
  | notE (e : PExpr)
  | usub (e : PExpr)
  | add (a b : PExpr)
  | sub (a b : PExpr)
  | call (fn : PExpr) (args : List PExpr)
  | listD (elts : List PExpr)
  | dictD (entries : List (PExpr × PExpr))
  | subsc (v : PExpr) (idx : PExpr)
  | attr (v : PExpr) (a : String)
deriving Inhabited

/-- Python ordering between runtime values: numbers (and booleans) compare
numerically, strings lexicographically; other mixtures raise TypeError.
(List orderings are modelled as type errors; the conditions in scope never
order lists.) -/
def pyLtB (a b : Value) : Except String Bool :=
  match numView a, numView b with
  | Option.some x, Option.some y => .ok (decide (x < y))
  | _, _ =>
      match a, b with
      | .str s, .str t => .ok (decide (s < t))
      | _, _ => .error "TypeError: unorderable types"

/-- Python membership a in b. -/
def pyIn (a b : Value) : Except String Bool :=
  match b with
  | .list l => .ok (l.any (fun x => pyEq a x))
  | .obj l => .ok (l.any (fun kv => pyEq a (.str kv.1)))
  | .str sb =>
      match a with
      | .str sa => .ok (decide (sa.data <:+: sb.data))
      | _ => .error "TypeError: in requires string as left operand"
  | _ => .error "TypeError: argument is not iterable"

/-- One comparison operator application, as the ops tables do. -/
def pyCompareOp : CmpOp → Value → Value → Except String Bool
  | .eq, a, b => .ok (pyEq a b)
  | .ne, a, b => .ok (!pyEq a b)
  | .lt, a, b => pyLtB a b
  | .gt, a, b => pyLtB b a
  | .le, a, b => do
      let l ← pyLtB a b
      .ok (l || pyEq a b)
  | .ge, a, b => do
      let l ← pyLtB b a
      .ok (l || pyEq a b)
  | .isIn, a, b => pyIn a b
  | .notIn, a, b => do
      let r ← pyIn a b
      .ok (!r)

/-- Python a + b on runtime values. -/
def pyAdd (a b : Value) : Except String Value :=
  match numView a, numView b with
  | Option.some x, Option.some y => .ok (.int (x + y))
  | _, _ =>
      match a, b with
      | .str s, .str t => .ok (.str (s ++ t))
      | .list s, .list t => .ok (.list (s ++ t))
      | _, _ => .error "TypeError: unsupported operand types for +"

/-- Python a - b on runtime values. -/
def pySub (a b : Value) : Except String Value :=
  match numView a, numView b with
  | Option.some x, Option.some y => .ok (.int (x - y))
  | _, _ => .error "TypeError: unsupported operand types for -"

/-- Python unary minus. -/
def pyNeg (a : Value) : Except String Value :=
  match numView a with
  | Option.some x => .ok (.int (-x))
  | _ => .error "TypeError: bad operand type for unary -"

/-- Python len(). -/
def pyLen : Value → Except String Value
  | .str s => .ok (.int s.length)
  | .list l => .ok (.int l.length)
  | .obj l => .ok (.int l.length)
  | _ => .error "TypeError: object has no len"

/-- Python repr() of a string: single-quoted with escapes (the model always
uses single quotes). -/
def pyReprStrChar (c : Char) : String :=
  if c = Char.ofNat 92 then "\\\\"
  else if c = qChar then "\\" ++ String.singleton qChar
  else if c = Char.ofNat 10 then "\\n"
  else if c = Char.ofNat 13 then "\\r"
  else if c = Char.ofNat 9 then "\\t"
  else if c.toNat < 32 then "\\x" ++ String.mk [hexDigit (c.toNat / 16), hexDigit (c.toNat % 16)]
  else String.singleton c

mutual

/-- Python repr() of a runtime value. -/
def pyRepr : Value → String
  | .null => "None"
  | .bool true => "True"
  | .bool false => "False"
  | .int n => toString n
  | .str s =>
      String.singleton qChar ++ String.join (s.data.map pyReprStrChar) ++ String.singleton qChar
  | .list l => "[" ++ pyReprList l ++ "]"
  | .obj l => "\x7b" ++ pyReprObj l ++ "\x7d"

def pyReprList : List Value → String
  | [] => ""
  | [v] => pyRepr v
  | v :: rest => pyRepr v ++ ", " ++ pyReprList rest

def pyReprObj : List (String × Value) → String
  | [] => ""
  | [(k, v)] => pyRepr (.str k) ++ ": " ++ pyRepr v
  | (k, v) :: rest => pyRepr (.str k) ++ ": " ++ pyRepr v ++ ", " ++ pyReprObj rest

end

/-- Python str() of a runtime value. -/
def pyStr : Value → String
  | .null => "None"
  | .bool true => "True"
  | .bool false => "False"
  | .int n => toString n
  | .str s => s
  | .list l => pyRepr (.list l)
  | .obj l => pyRepr (.obj l)

/-- Python int() of a runtime value (string parsing with optional sign). -/
def pyIntFn : Value → Except String Value
  | .bool b => .ok (.int (if b then 1 else 0))
  | .int n => .ok (.int n)
  | .str s =>
      let cs := pyStrip s.data
      let (sign, digits) :=
        match cs with
        | '-' :: rest => ((-1 : Int), rest)
        | '+' :: rest => ((1 : Int), rest)
        | rest => ((1 : Int), rest)
      if digits.length != 0 && digits.all Char.isDigit then
        .ok (.int (sign * (digitsToNat digits : Int)))
      else .error "ValueError: invalid literal for int()"
  | _ => .error "TypeError: int() argument must be a string or a number"

mutual

/-- safe_eval_node from executor._safe_eval_condition: literals; the names
True, False, None only; chained comparisons over eq ne lt le gt ge;
and/or via all/any; not and unary minus; plus and minus; len() with one
argument; list displays.  Everything else raises. -/
def evalExecNode : PExpr → Except String Value
  | .const v => .ok v
  | .name id =>
      if id = "True" then .ok (.bool true)
      else if id = "False" then .ok (.bool false)
      else if id = "None" then .ok .null
      else .error ("Unsafe name: " ++ id)
  | .compare left rest => do
      let l ← evalExecNode left
      let b ← evalExecCmps l rest
      .ok (.bool b)
  | .boolAnd args => do
      let vs ← evalExecList args
      .ok (.bool (vs.all pyTruthy))
  | .boolOr args => do
      let vs ← evalExecList args
      .ok (.bool (vs.any pyTruthy))
  | .notE e => do
      let v ← evalExecNode e
      .ok (.bool (!pyTruthy v))
  | .usub e => do
      let v ← evalExecNode e
      pyNeg v
  | .add a b => do
      let x ← evalExecNode a
      let y ← evalExecNode b
      pyAdd x y
  | .sub a b => do
      let x ← evalExecNode a
      let y ← evalExecNode b
      pySub x y
  | .call fn args =>
      match fn, args with
      | .name "len", [a] => do
          let v ← evalExecNode a
          pyLen v
      | _, _ => .error "Unsafe function call"
  | .listD elts => do
      let vs ← evalExecList elts
      .ok (.list vs)
  | .dictD _ => .error "Unsafe node type: Dict"
  | .subsc _ _ => .error "Unsafe node type: Subscript"
  | .attr _ _ => .error "Unsafe node type: Attribute"

/-- The chained-comparison loop: compare pairwise, short-circuit on the
first failing link.  In-style operators are not in the executor ops table,
so they raise Unsafe operator here. -/
def evalExecCmps : Value → List (CmpOp × PExpr) → Except String Bool
  | _, [] => .ok true
  | left, (op, comp) :: rest => do
      if op = .isIn || op = .notIn then
        .error "Unsafe operator"
      else do
        let right ← evalExecNode comp
        let b ← pyCompareOp op left right
        if b then evalExecCmps right rest else .ok false

def evalExecList : List PExpr → Except String (List Value)
  | [] => .ok []
  | e :: rest => do
      let v ← evalExecNode e
      let vs ← evalExecList rest
      .ok (v :: vs)

end

/-- Index of a list or tuple by a Python int (bool included), with bounds
check as in the condition-handler Subscript case. -/
def pyIndex (l : List Value) (key : Value) : Value :=
  match numView key with
  | Option.some k => if 0 ≤ k ∧ k < l.length then l.getD k.toNat .null else .null
  | Option.none => .null

mutual

/-- safe_eval_node from ConditionBlockHandler._safe_eval_with_context:
like the executor evaluator but names resolve through the variable context,
subscripts and attributes are allowed, in and not-in are allowed, and the
call whitelist is len, str, int, bool with one argument. -/
def evalCtxNode (env : List (String × Value)) : PExpr → Except String Value
  | .const v => .ok v
  | .name id =>
      if id = "True" then .ok (.bool true)
      else if id = "False" then .ok (.bool false)
      else if id = "None" then .ok .null
      else
        match lookupKv env id with
        | Option.some v => .ok v
        | Option.none => .error ("Unknown variable: " ++ id)
  | .compare left rest => do
      let l ← evalCtxNode env left
      let b ← evalCtxCmps env l rest
      .ok (.bool b)
  | .boolAnd args => do
      let vs ← evalCtxList env args
      .ok (.bool (vs.all pyTruthy))
  | .boolOr args => do
      let vs ← evalCtxList env args
      .ok (.bool (vs.any pyTruthy))
  | .notE e => do
      let v ← evalCtxNode env e
      .ok (.bool (!pyTruthy v))
  | .usub e => do
      let v ← evalCtxNode env e
      pyNeg v
  | .add a b => do
      let x ← evalCtxNode env a
      let y ← evalCtxNode env b
      pyAdd x y
  | .sub a b => do
      let x ← evalCtxNode env a
      let y ← evalCtxNode env b
      pySub x y
  | .subsc v idx => do
      let value ← evalCtxNode env v
      let key ← evalCtxNode env idx
      match value with
      | .obj d =>
          match key with
          | .str k => .ok (getKvD d k)
          | _ => .ok .null
      | .list l => .ok (pyIndex l key)
      | _ => .ok .null
  | .attr v a => do
      let value ← evalCtxNode env v
      match value with
      | .obj d => .ok (getKvD d a)
      | _ => .ok .null
  | .call fn args =>
      match fn, args with
      | .name f, [a] =>
          if f = "len" then do
            let v ← evalCtxNode env a
            pyLen v
          else if f = "str" then do
            let v ← evalCtxNode env a
            .ok (.str (pyStr v))
          else if f = "int" then do
            let v ← evalCtxNode env a
            pyIntFn v
          else if f = "bool" then do
            let v ← evalCtxNode env a
            .ok (.bool (pyTruthy v))
          else .error "Unsafe function call"
      | _, _ => .error "Unsafe function call"
  | .listD elts => do
      let vs ← evalCtxList env elts
      .ok (.list vs)
  | .dictD entries => do
      let kvs ← evalCtxPairs env entries
      .ok (.obj kvs)

def evalCtxCmps (env : List (String × Value)) :
    Value → List (CmpOp × PExpr) → Except String Bool
  | _, [] => .ok true
  | left, (op, comp) :: rest => do
      let right ← evalCtxNode env comp
      let b ← pyCompareOp op left right
      if b then evalCtxCmps env right rest else .ok false

def evalCtxList (env : List (String × Value)) : List PExpr → Except String (List Value)
  | [] => .ok []
  | e :: rest => do
      let v ← evalCtxNode env e
      let vs ← evalCtxList env rest
      .ok (v :: vs)

/-- Dict displays: the model requires keys that evaluate to strings (the
data model has string dict keys only). -/
def evalCtxPairs (env : List (String × Value)) :
    List (PExpr × PExpr) → Except String (List (String × Value))
  | [] => .ok []
  | (k, v) :: rest => do
      let kv ← evalCtxNode env k
      match kv with
      | .str ks => do
          let vv ← evalCtxNode env v
          let kvs ← evalCtxPairs env rest
          .ok ((ks, vv) :: kvs)
      | _ => .error "unsupported dict key"

end

/-! ### Tokenizer and reader for the restricted expression grammar -/

inductive Tok where
  | int (n : Nat)
  | str (s : String)
  | ident (s : String)
  | op (s : String)
deriving DecidableEq, Inhabited

/-- Tokenize an expression string.  Fuel-driven (fuel at least the length
of the input always suffices because every step consumes a character). -/
def tokenizeAux (fuel : Nat) (cs : List Char) (acc : List Tok) : Except String (List Tok) :=
  match fuel with
  | 0 => .error "SyntaxError: tokenizer fuel exhausted"
  | fuel + 1 =>
      match cs with
      | [] => .ok acc.reverse
      | c :: rest =>
          if isSpace c then tokenizeAux fuel rest acc
          else if c.isDigit then
            tokenizeAux fuel (rest.dropWhile Char.isDigit)
              (.int (digitsToNat (c :: rest.takeWhile Char.isDigit)) :: acc)
          else if isNameStart c then
            tokenizeAux fuel (rest.dropWhile isNameChar)
              (.ident (String.mk (c :: rest.takeWhile isNameChar)) :: acc)
          else if isQuote c then
            let body := rest.takeWhile (fun x => x ≠ c)
            let r := rest.dropWhile (fun x => x ≠ c)
            match r with
            | _ :: r2 => tokenizeAux fuel r2 (.str (String.mk body) :: acc)
            | [] => .error "SyntaxError: unterminated string literal"
          else if c = '=' then
            match rest with
            | '=' :: r2 => tokenizeAux fuel r2 (.op "==" :: acc)
            | _ => .error "SyntaxError: invalid token ="
          else if c = '!' then
            match rest with
            | '=' :: r2 => tokenizeAux fuel r2 (.op "!=" :: acc)
            | _ => .error "SyntaxError: invalid token !"
          else if c = '<' then
            match rest with
            | '=' :: r2 => tokenizeAux fuel r2 (.op "<=" :: acc)
            | _ => tokenizeAux fuel rest (.op "<" :: acc)
          else if c = '>' then
            match rest with
            | '=' :: r2 => tokenizeAux fuel r2 (.op ">=" :: acc)
            | _ => tokenizeAux fuel rest (.op ">" :: acc)
          else if c = '+' then tokenizeAux fuel rest (.op "+" :: acc)
          else if c = '-' then tokenizeAux fuel rest (.op "-" :: acc)
          else if c = '(' then tokenizeAux fuel rest (.op "(" :: acc)
          else if c = ')' then tokenizeAux fuel rest (.op ")" :: acc)
          else if c = '[' then tokenizeAux fuel rest (.op "[" :: acc)
          else if c = ']' then tokenizeAux fuel rest (.op "]" :: acc)
          else if c = ',' then tokenizeAux fuel rest (.op "," :: acc)
          else if c = '.' then tokenizeAux fuel rest (.op "." :: acc)
          else .error ("SyntaxError: invalid character " ++ String.singleton c)

def tokenize (s : String) : Except String (List Tok) :=
  tokenizeAux (s.length + 1) s.data []

mutual

/-- Reader for the restricted grammar, mirroring what ast.parse yields on
the expressions the evaluators accept.  Precedence: or, and, not,
comparison chains, additive, unary minus, postfix (call, subscript,
attribute), atoms.  Fuel-driven recursive descent. -/
def readOr (fuel : Nat) (ts : List Tok) : Except String (PExpr × List Tok) :=
  match fuel with
  | 0 => .error "SyntaxError: reader fuel exhausted"
  | fuel + 1 => do
      let (first, r) ← readAnd fuel ts
      let (rest, r2) ← readOrTail fuel r
      match rest with
      | [] => .ok (first, r2)
      | _ => .ok (.boolOr (first :: rest), r2)

def readOrTail (fuel : Nat) (ts : List Tok) : Except String (List PExpr × List Tok) :=
  match fuel with
  | 0 => .error "SyntaxError: reader fuel exhausted"
  | fuel + 1 =>
      match ts with
      | .ident "or" :: r => do
          let (e, r2) ← readAnd fuel r
          let (rest, r3) ← readOrTail fuel r2
          .ok (e :: rest, r3)
      | _ => .ok ([], ts)

def readAnd (fuel : Nat) (ts : List Tok) : Except String (PExpr × List Tok) :=
  match fuel with
  | 0 => .error "SyntaxError: reader fuel exhausted"
  | fuel + 1 => do
      let (first, r) ← readNot fuel ts
      let (rest, r2) ← readAndTail fuel r
      match rest with
      | [] => .ok (first, r2)
      | _ => .ok (.boolAnd (first :: rest), r2)

def readAndTail (fuel : Nat) (ts : List Tok) : Except String (List PExpr × List Tok) :=
  match fuel with
  | 0 => .error "SyntaxError: reader fuel exhausted"
  | fuel + 1 =>
      match ts with
      | .ident "and" :: r => do
          let (e, r2) ← readNot fuel r
          let (rest, r3) ← readAndTail fuel r2
          .ok (e :: rest, r3)
      | _ => .ok ([], ts)

def readNot (fuel : Nat) (ts : List Tok) : Except String (PExpr × List Tok) :=
  match fuel with
  | 0 => .error "SyntaxError: reader fuel exhausted"
  | fuel + 1 =>
      match ts with
      | .ident "not" :: r => do
          let (e, r2) ← readNot fuel r
          .ok (.notE e, r2)
      | _ => readCmp fuel ts

def readCmp (fuel : Nat) (ts : List Tok) : Except String (PExpr × List Tok) :=
  match fuel with
  | 0 => .error "SyntaxError: reader fuel exhausted"
  | fuel + 1 => do
      let (first, r) ← readArith fuel ts
      let (rest, r2) ← readCmpTail fuel r
      match rest with
      | [] => .ok (first, r2)
      | _ => .ok (.compare first rest, r2)

def readCmpTail (fuel : Nat) (ts : List Tok) :
    Except String (List (CmpOp × PExpr) × List Tok) :=
  match fuel with
  | 0 => .error "SyntaxError: reader fuel exhausted"
  | fuel + 1 =>
      let step (op : CmpOp) (r : List Tok) :
          Except String (List (CmpOp × PExpr) × List Tok) := do
        let (e, r2) ← readArith fuel r
        let (rest, r3) ← readCmpTail fuel r2
        .ok ((op, e) :: rest, r3)
      match ts with
      | .op "==" :: r => step .eq r
      | .op "!=" :: r => step .ne r
      | .op "<=" :: r => step .le r
      | .op ">=" :: r => step .ge r
      | .op "<" :: r => step .lt r
      | .op ">" :: r => step .gt r
      | .ident "in" :: r => step .isIn r
      | .ident "not" :: .ident "in" :: r => step .notIn r
      | _ => .ok ([], ts)

def readArith (fuel : Nat) (ts : List Tok) : Except String (PExpr × List Tok) :=
  match fuel with
  | 0 => .error "SyntaxError: reader fuel exhausted"
  | fuel + 1 => do
      let (first, r) ← readUnary fuel ts
      readArithTail fuel first r

def readArithTail (fuel : Nat) (acc : PExpr) (ts : List Tok) :
    Except String (PExpr × List Tok) :=
  match fuel with
  | 0 => .error "SyntaxError: reader fuel exhausted"
  | fuel + 1 =>
      match ts with
      | .op "+" :: r => do
          let (e, r2) ← readUnary fuel r
          readArithTail fuel (.add acc e) r2
      | .op "-" :: r => do
          let (e, r2) ← readUnary fuel r
          readArithTail fuel (.sub acc e) r2
      | _ => .ok (acc, ts)

def readUnary (fuel : Nat) (ts : List Tok) : Except String (PExpr × List Tok) :=
  match fuel with
  | 0 => .error "SyntaxError: reader fuel exhausted"
  | fuel + 1 =>
      match ts with
      | .op "-" :: r => do
          let (e, r2) ← readUnary fuel r
          .ok (.usub e, r2)
      | _ => readPostfix fuel ts

def readPostfix (fuel : Nat) (ts : List Tok) : Except String (PExpr × List Tok) :=
  match fuel with
  | 0 => .error "SyntaxError: reader fuel exhausted"
  | fuel + 1 => do
      let (a, r) ← readAtom fuel ts
      readTrailers fuel a r

def readTrailers (fuel : Nat) (acc : PExpr) (ts : List Tok) :
    Except String (PExpr × List Tok) :=
  match fuel with
  | 0 => .error "SyntaxError: reader fuel exhausted"
  | fuel + 1 =>
      match ts with
      | .op "." :: .ident a :: r => readTrailers fuel (.attr acc a) r
      | .op "[" :: r => do
          let (idx, r2) ← readOr fuel r
          match r2 with
          | .op "]" :: r3 => readTrailers fuel (.subsc acc idx) r3
          | _ => .error "SyntaxError: expected closing bracket"
      | .op "(" :: r => do
          let (args, r2) ← readArgs fuel r
          readTrailers fuel (.call acc args) r2
      | _ => .ok (acc, ts)

def readArgs (fuel : Nat) (ts : List Tok) : Except String (List PExpr × List Tok) :=
  match fuel with
  | 0 => .error "SyntaxError: reader fuel exhausted"
  | fuel + 1 =>
      match ts with
      | .op ")" :: r => .ok ([], r)
      | _ => do
          let (e, r) ← readOr fuel ts
          match r with
          | .op "," :: r2 => do
              let (rest, r3) ← readArgs fuel r2
              .ok (e :: rest, r3)
          | .op ")" :: r2 => .ok ([e], r2)
          | _ => .error "SyntaxError: expected comma or closing paren"

def readAtom (fuel : Nat) (ts : List Tok) : Except String (PExpr × List Tok) :=
  match fuel with
  | 0 => .error "SyntaxError: reader fuel exhausted"
  | fuel + 1 =>
      match ts with
      | .int n :: r => .ok (.const (.int n), r)
      | .str s :: r => .ok (.const (.str s), r)
      | .ident id :: r => .ok (.name id, r)
      | .op "(" :: r => do
          let (e, r2) ← readOr fuel r
          match r2 with
          | .op ")" :: r3 => .ok (e, r3)
          | _ => .error "SyntaxError: expected closing paren"
      | .op "[" :: r => do
          let (elts, r2) ← readListElems fuel r
          .ok (.listD elts, r2)
      | _ => .error "SyntaxError: invalid syntax"

def readListElems (fuel : Nat) (ts : List Tok) : Except String (List PExpr × List Tok) :=
  match fuel with
  | 0 => .error "SyntaxError: reader fuel exhausted"
  | fuel + 1 =>
      match ts with
      | .op "]" :: r => .ok ([], r)
      | _ => do
          let (e, r) ← readOr fuel ts
          match r with
          | .op "," :: r2 => do
              let (rest, r3) ← readListElems fuel r2
              .ok (e :: rest, r3)
          | .op "]" :: r2 => .ok ([e], r2)
          | _ => .error "SyntaxError: expected comma or closing bracket"

end

/-- Model of ast.parse(expr, mode eval) for the restricted grammar: the
whole token stream must be one expression. -/
def parseExprT (s : String) : Except String PExpr := do
  let ts ← tokenize s
  match ts with
  | [] => .error "SyntaxError: unexpected end of input"
  | _ =>
      let (e, rem) ← readOr ((ts.length + 1) * 16) ts
      match rem with
      | [] => .ok e
      | _ => .error "SyntaxError: trailing tokens"

/-! ## Condition evaluation wrappers -/

/-- Python str.replace: replace every non-overlapping occurrence of pat,
scanning left to right.  (The empty pattern never occurs in the callers
and is treated as no match.)  Fuel-driven for kernel reducibility. -/
def pyReplaceL : Nat → List Char → List Char → List Char → List Char
  | 0, cs, _, _ => cs
  | fuel + 1, cs, pat, repl =>
      match cs with
      | [] => []
      | c :: rest =>
          if pat ≠ [] ∧ pat <+: (c :: rest) then
            repl ++ pyReplaceL fuel ((c :: rest).drop pat.length) pat repl
          else c :: pyReplaceL fuel rest pat repl

def pyReplace (s pat repl : String) : String :=
  String.mk (pyReplaceL s.data.length s.data pat.data repl.data)

/-- bool(safe_eval_node(ast.parse(expr))) wrapped with the surrounding
try/except of _safe_eval_condition: parse or evaluation failure gives
False; a non-string argument to ast.parse raises and also gives False. -/
def safeEvalCondition (v : Value) : Bool :=
  match v with
  | .str s =>
      match (do evalExecNode (← parseExprT s) : Except String Value) with
      | .ok val => pyTruthy val
      | .error _ => false
  | _ => false

/-- WorkflowExecutor._evaluate_condition: empty (falsy) condition falls
back to iteration < max_iterations; a string condition gets the loop
variables substituted textually, is reference-resolved and evaluated by
_safe_eval_condition; a non-string truthy condition raises AttributeError
at .replace, which the outer except turns into the same fallback.
substLoopVars is the textual loop-variable substitution performed first. -/
def substLoopVars (s : String) (st : LoopState) : String :=
  let s1 := pyReplace s "<loop.index>" (toString st.iteration)
  let s2 := pyReplace s1 "<loop.iteration>" (toString st.iteration)
  match st.currentItem with
  | .null => s2
  | .obj d => pyReplace s2 "<loop.item>" (jsonDumps (.obj d))
  | .list l => pyReplace s2 "<loop.item>" (jsonDumps (.list l))
  | item => pyReplace s2 "<loop.item>" (pyRepr item)

def evaluateLoopCondition (condition : Value) (st : LoopState) (ctx : Ctx) : Bool :=
  if !pyTruthy condition then decide (st.iteration < st.maxIterations)
  else
    match condition with
    | .str s => safeEvalCondition (resolveValue ctx (.str (substLoopVars s st)))
    | _ => decide (st.iteration < st.maxIterations)

/-- The evaluation environment of the condition handler:
start, variable, then every block output (later keys override). -/
def buildCondEnv (ctx : Ctx) : List (String × Value) :=
  ctx.blockOutputs.foldl (fun env kv => setKv env kv.1 kv.2)
    [("start", .obj ctx.inputs), ("variable", .obj ctx.workflowVariables)]

/-- ConditionBlockHandler._safe_eval_with_context. -/
def safeEvalWithCtx (s : String) (env : List (String × Value)) : Except String Bool := do
  let a ← parseExprT s
  let v ← evalCtxNode env a
  .ok (pyTruthy v)

/-- ConditionBlockHandler._evaluate: booleans pass through; None, empty
string and zero are false; other non-strings by truthiness; strings are
parsed and evaluated against the context, any failure giving False. -/
def evaluateCond (ctx : Ctx) (condition : Value) : Bool :=
  match condition with
  | .bool b => b
  | .null => false
  | v =>
      if pyEq v (.str "") || pyEq v (.int 0) then false
      else
        match v with
        | .str s =>
            match safeEvalWithCtx s (buildCondEnv ctx) with
            | .ok b => b
            | .error _ => false
        | w => pyTruthy w

/-! ## json.loads (used by _resolve_items) -/

/-- Read a JSON string body after the opening quote.  Returns the string
and the remainder after the closing quote. -/
def jsonReadStr (fuel : Nat) (cs : List Char) (acc : List Char) :
    Except String (String × List Char) :=
  match fuel with
  | 0 => .error "json fuel exhausted"
  | fuel + 1 =>
      match cs with
      | [] => .error "json: unterminated string"
      | c :: rest =>
          if c = Char.ofNat 34 then .ok (String.mk acc.reverse, rest)
          else if c = Char.ofNat 92 then
            match rest with
            | e :: rest2 =>
                if e = Char.ofNat 34 then jsonReadStr fuel rest2 (Char.ofNat 34 :: acc)
                else if e = Char.ofNat 92 then jsonReadStr fuel rest2 (Char.ofNat 92 :: acc)
                else if e = '/' then jsonReadStr fuel rest2 ('/' :: acc)
                else if e = 'n' then jsonReadStr fuel rest2 (Char.ofNat 10 :: acc)
                else if e = 't' then jsonReadStr fuel rest2 (Char.ofNat 9 :: acc)
                else if e = 'r' then jsonReadStr fuel rest2 (Char.ofNat 13 :: acc)
                else if e = 'b' then jsonReadStr fuel rest2 (Char.ofNat 8 :: acc)
                else if e = 'f' then jsonReadStr fuel rest2 (Char.ofNat 12 :: acc)
                else .error "json: unsupported escape"
            | [] => .error "json: unterminated escape"
          else jsonReadStr fuel rest (c :: acc)

mutual

/-- A small JSON reader modelling json.loads on the data model: null,
booleans, integers (floats are outside the model), strings, arrays and
objects with string keys. -/
def jsonReadVal (fuel : Nat) (cs : List Char) : Except String (Value × List Char) :=
  match fuel with
  | 0 => .error "json fuel exhausted"
  | fuel + 1 =>
      match cs.dropWhile isSpace with
      | [] => .error "json: empty"
      | c :: rest =>
          if c = 'n' then
            match rest with
            | 'u' :: 'l' :: 'l' :: r => .ok (.null, r)
            | _ => .error "json: bad literal"
          else if c = 't' then
            match rest with
            | 'r' :: 'u' :: 'e' :: r => .ok (.bool true, r)
            | _ => .error "json: bad literal"
          else if c = 'f' then
            match rest with
            | 'a' :: 'l' :: 's' :: 'e' :: r => .ok (.bool false, r)
            | _ => .error "json: bad literal"
          else if c = Char.ofNat 34 then do
            let (s, r) ← jsonReadStr fuel rest []
            .ok (.str s, r)
          else if c = '-' then
            match rest with
            | d :: _ =>
                if d.isDigit then
                  .ok (.int (-(digitsToNat (rest.takeWhile Char.isDigit) : Int)),
                       rest.dropWhile Char.isDigit)
                else .error "json: bad number"
            | [] => .error "json: bad number"
          else if c.isDigit then
            .ok (.int (digitsToNat (c :: rest.takeWhile Char.isDigit)),
                 rest.dropWhile Char.isDigit)
          else if c = '[' then
            match rest.dropWhile isSpace with
            | ']' :: r => .ok (.list [], r)
            | _ => do
                let (elts, r) ← jsonReadArr fuel rest
                .ok (.list elts, r)
          else if c = Char.ofNat 123 then
            match rest.dropWhile isSpace with
            | c2 :: r =>
                if c2 = Char.ofNat 125 then .ok (.obj [], r)
                else do
                  let (kvs, r2) ← jsonReadObj fuel rest
                  .ok (.obj kvs, r2)
            | [] => .error "json: unterminated object"
          else .error "json: unexpected character"

def jsonReadArr (fuel : Nat) (cs : List Char) : Except String (List Value × List Char) :=
  match fuel with
  | 0 => .error "json fuel exhausted"
  | fuel + 1 => do
      let (v, r) ← jsonReadVal fuel cs
      match r.dropWhile isSpace with
      | ',' :: r2 => do
          let (rest, r3) ← jsonReadArr fuel r2
          .ok (v :: rest, r3)
      | ']' :: r2 => .ok ([v], r2)
      | _ => .error "json: expected comma or closing bracket"

def jsonReadObj (fuel : Nat) (cs : List Char) :
    Except String (List (String × Value) × List Char) :=
  match fuel with
  | 0 => .error "json fuel exhausted"
  | fuel + 1 =>
      match cs.dropWhile isSpace with
      | c :: rest =>
          if c = Char.ofNat 34 then do
            let (k, r) ← jsonReadStr fuel rest []
            match r.dropWhile isSpace with
            | ':' :: r2 => do
                let (v, r3) ← jsonReadVal fuel r2
                match r3.dropWhile isSpace with
                | ',' :: r4 => do
                    let (rest2, r5) ← jsonReadObj fuel r4
                    .ok ((k, v) :: rest2, r5)
                | c2 :: r4 =>
                    if c2 = Char.ofNat 125 then .ok ([(k, v)], r4)
                    else .error "json: expected comma or closing brace"
                | [] => .error "json: unterminated object"
            | _ => .error "json: expected colon"
          else .error "json: expected string key"
      | [] => .error "json: unterminated object"

end

/-- json.loads: the whole string must be one JSON value (possibly with
surrounding whitespace). -/
def jsonLoads (s : String) : Except String Value := do
  let (v, r) ← jsonReadVal (s.length + 2) s.data
  match r.dropWhile isSpace with
  | [] => .ok v
  | _ => .error "json: trailing data"

/-! ## Blocks, handlers and the executor (executor.py and handlers/) -/

def MAX_LOOP_ITERATIONS : Int := 1000

/-- A parsed workflow block (executor.py Block dataclass).  Block ids and
names are modelled as strings (the data model identifies blocks by string
ids); parentId keeps its raw value, as the source stores whatever the
document carries and checks it against block ids later. -/
structure Block where
  id : String
  name : String
  type : String
  parentId : Value := .null
  inputs : List (String × Value) := []
  outputs : List (String × Value) := []
deriving Inhabited

def startTypes : List String := ["start", "start_trigger", "starter"]
def conditionTypes : List String := ["condition", "router", "if", "switch"]
def apiTypes : List String := ["api", "http", "request", "webhook"]
def responseTypes : List String := ["response", "output"]
def loopTypes : List String := ["loop", "loop_block"]

/-- The handler kinds, in the registration order of _load_handlers. -/
inductive HKind where
  | start | agent | function | condition | api | variables | response
deriving DecidableEq, Inhabited

/-- _get_handler: first handler whose can_handle accepts the block. -/
def getHandlerKind (b : Block) : Option HKind :=
  if b.type ∈ startTypes then Option.some .start
  else if b.type = "agent" then Option.some .agent
  else if b.type = "function" then Option.some .function
  else if b.type ∈ conditionTypes then Option.some .condition
  else if b.type ∈ apiTypes then Option.some .api
  else if b.type = "variables" then Option.some .variables
  else if b.type ∈ responseTypes then Option.some .response
  else Option.none

/-- dict.get(k, default). -/
def getKvDef (d : List (String × Value)) (k : String) (dflt : Value) : Value :=
  (lookupKv d k).getD dflt

/-- The external world: outcomes of the agent, function and api handlers,
whose bodies perform network and interpreter I/O.  The oracle receives the
handler kind, the block, the resolved inputs and the attempt index, and
yields either the handler output or the raised exception text.  All
claims quantify over this oracle. -/
def ExtO : Type := HKind → Block → List (String × Value) → Nat → Except String Value

/-- StartBlockHandler.execute: returns ctx.inputs. -/
def startExecute (ctx : Ctx) : Except String Value := .ok (.obj ctx.inputs)

/-- The route loop of ConditionBlockHandler.execute: the first route with a
truthy condition entry whose resolved condition evaluates truthy wins. -/
def routeLoop (ctx : Ctx) : List Value → Nat → Except String Value
  | [], _ =>
      .ok (.obj [("result", .bool false), ("branch", .str "default"), ("matchedRoute", .null)])
  | route :: rest, i =>
      match route with
      | .obj r =>
          let rc := getKvDef r "condition" (.str "")
          if pyTruthy rc then
            if evaluateCond ctx (resolveValue ctx rc) then
              .ok (.obj [("result", .bool true),
                         ("branch", getKvDef r "name" (.str ("route_" ++ toString i))),
                         ("matchedRoute", .int i),
                         ("condition", rc)])
            else routeLoop ctx rest (i + 1)
          else routeLoop ctx rest (i + 1)
      | _ => .error "AttributeError: route object has no attribute get"

/-- ConditionBlockHandler.execute: single condition, if/then/else, routes,
or pass-through, in that order. -/
def conditionExecute (ctx : Ctx) (inputs : List (String × Value)) : Except String Value :=
  let condition := getKvDef inputs "condition" (.str "")
  let routes := getKvDef inputs "routes" (.list [])
  let ifCond := getKvDef inputs "if" (.str "")
  if pyTruthy condition then
    let result := evaluateCond ctx (resolveValue ctx condition)
    .ok (.obj [("result", .bool result),
               ("branch", .str (if result then "true" else "false")),
               ("condition", condition)])
  else if pyTruthy ifCond then
    let result := evaluateCond ctx (resolveValue ctx ifCond)
    .ok (.obj [("result", .bool result),
               ("branch", .str (if result then "then" else "else")),
               ("condition", ifCond)])
  else if pyTruthy routes then
    match routes with
    | .list rs => routeLoop ctx rs 0
    | .obj _ => .error "AttributeError: str object has no attribute get"
    | .str _ => .error "AttributeError: str object has no attribute get"
    | _ => .error "TypeError: object is not iterable"
  else .ok (.obj [("result", .bool true), ("branch", .str "default")])

/-- The variables loop of VariablesBlockHandler.execute.  Assignment keys
are strings in the data model (non-string variableName values are outside
the model). -/
def variablesLoop (ctx : Ctx) :
    List Value → List (String × Value) → Except String (Ctx × List (String × Value))
  | [], updated => .ok (ctx, updated)
  | var :: rest, updated =>
      match var with
      | .obj v =>
          let nameV := getKvD v "variableName"
          let value := getKvD v "value"
          if pyTruthy nameV then
            match nameV with
            | .str name =>
                let resolved := resolveValue ctx value
                variablesLoop
                  { ctx with workflowVariables := setKv ctx.workflowVariables name resolved }
                  rest (setKv updated name resolved)
            | _ => .error "model: non-string variable name"
          else variablesLoop ctx rest updated
      | _ => .error "AttributeError: object has no attribute get"

/-- VariablesBlockHandler.execute. -/
def variablesExecute (ctx : Ctx) (inputs : List (String × Value)) :
    Ctx × Except String Value :=
  match getKvDef inputs "variables" (.list []) with
  | .list vars =>
      match variablesLoop ctx vars [] with
      | .ok (ctx2, updated) =>
          (ctx2, .ok (.obj [("updated", .obj updated),
                            ("variables", .list (ctx2.workflowVariables.map (fun kv => .str kv.1)))]))
      | .error e => (ctx, .error e)
  | .obj d =>
      if d.isEmpty then
        (ctx, .ok (.obj [("updated", .obj []),
                         ("variables", .list (ctx.workflowVariables.map (fun kv => .str kv.1)))]))
      else (ctx, .error "AttributeError: str object has no attribute get")
  | .str s =>
      if s.length = 0 then
        (ctx, .ok (.obj [("updated", .obj []),
                         ("variables", .list (ctx.workflowVariables.map (fun kv => .str kv.1)))]))
      else (ctx, .error "AttributeError: str object has no attribute get")
  | .null => (ctx, .error "TypeError: NoneType is not iterable")
  | _ => (ctx, .error "TypeError: object is not iterable")

/-- The header loop of ResponseBlockHandler.execute. -/
def responseHeaders (ctx : Ctx) :
    List Value → List (String × Value) → Except String (List (String × Value))
  | [], acc => .ok acc
  | header :: rest, acc =>
      match header with
      | .obj h =>
          match getKvDef h "cells" (.obj []) with
          | .obj cells =>
              match getKvDef cells "Key" (.str ""), getKvDef cells "Value" (.str "") with
              | .str key, .str value =>
                  let key := String.mk (pyStrip key.data)
                  let value := String.mk (pyStrip value.data)
                  if key.length != 0 then
                    responseHeaders ctx rest (setKv acc key (resolveValue ctx (.str value)))
                  else responseHeaders ctx rest acc
              | _, _ => .error "AttributeError: strip on non-string"
          | _ => .error "AttributeError: cells object has no attribute get"
      | _ => .error "AttributeError: header object has no attribute get"

/-- The builderData loop of ResponseBlockHandler.execute (structured mode).
Field names are strings in the data model. -/
def responseBuilder (ctx : Ctx) :
    List Value → List (String × Value) → Except String (List (String × Value))
  | [], acc => .ok acc
  | f :: rest, acc =>
      match f with
      | .obj fd =>
          let nameV := getKvD fd "name"
          let value := getKvD fd "value"
          if pyTruthy nameV then
            match nameV with
            | .str name =>
                let resolvedValue := if pyTruthy value then resolveValue ctx value else .null
                responseBuilder ctx rest (setKv acc name resolvedValue)
            | _ => .error "model: non-string builder field name"
          else responseBuilder ctx rest acc
      | _ => .error "AttributeError: field object has no attribute get"

/-- ResponseBlockHandler.execute. -/
def responseExecute (ctx : Ctx) (inputs : List (String × Value)) : Except String Value := do
  let dataMode := getKvDef inputs "dataMode" (.str "raw")
  let status := getKvD inputs "status"
  let headers := getKvDef inputs "headers" (.list [])
  let data := getKvD inputs "data"
  let builderData := getKvDef inputs "builderData" (.list [])
  let resolvedData := if pyTruthy data then resolveValue ctx data else .null
  let responseData ←
    if pyEq dataMode (.str "structured") && pyTruthy builderData then
      match builderData with
      | .list fields => do
          let structured ← responseBuilder ctx fields []
          pure (.obj structured : Value)
      | .obj _ => .error "AttributeError: str object has no attribute get"
      | .str _ => .error "AttributeError: str object has no attribute get"
      | _ => .error "TypeError: object is not iterable"
    else if pyEq dataMode (.str "raw") && pyTruthy resolvedData then
      pure resolvedData
    else
      pure (pyOrV resolvedData (.obj inputs))
  let headersDict ←
    match headers with
    | .list hs => responseHeaders ctx hs []
    | .obj d =>
        if d.isEmpty then pure [] else .error "AttributeError: str object has no attribute get"
    | .str s =>
        if s.length = 0 then pure [] else .error "AttributeError: str object has no attribute get"
    | .null => .error "TypeError: NoneType is not iterable"
    | _ => .error "TypeError: object is not iterable"
  .ok (.obj [("data", responseData),
             ("status", status),
             ("headers", if headersDict.isEmpty then .null else .obj headersDict),
             ("dataMode", dataMode)])

/-- Dispatch to the first matching handler, as the executor does after
_get_handler; the agent, function and api handlers are the external
oracle.  Returns the possibly mutated context (the variables handler
mutates ctx.workflow_variables) and the outcome. -/
def dispatchHandler (ext : ExtO) (ctx : Ctx) (b : Block)
    (inputs : List (String × Value)) (attempt : Nat) : Ctx × Except String Value :=
  match getHandlerKind b with
  | Option.none => (ctx, .error "model: dispatch without handler")
  | Option.some .start => (ctx, startExecute ctx)
  | Option.some .condition => (ctx, conditionExecute ctx inputs)
  | Option.some .variables => variablesExecute ctx inputs
  | Option.some .response => (ctx, responseExecute ctx inputs)
  | Option.some .agent => (ctx, ext .agent b inputs attempt)
  | Option.some .function => (ctx, ext .function b inputs attempt)
  | Option.some .api => (ctx, ext .api b inputs attempt)

/-- The transient markers of _execute_block. -/
def transientMarkers : List String := ["timeout", "connection", "rate limit", "429", "503"]

def pyLowerStr (s : String) : String := String.mk (s.data.map Char.toLower)

/-- Python substring containment (needle in hay). -/
def containsSub (hay needle : String) : Bool := decide (needle.data <:+: hay.data)

/-- str(e).lower() contains one of the transient markers. -/
def isTransientMsg (e : String) : Bool :=
  transientMarkers.any (fun t => containsSub (pyLowerStr e) t)

/-- The parsed workflow as held by WorkflowExecutor: blocks by id (in
document order), edges as source and target ids (non-string or missing
endpoints behave as absent: they can never match a string block id), and
the loop-children map. -/
structure WfExec where
  blocks : List (String × Block)
  edges : List (Option String × Option String)
  loopChildren : List (String × List String)
deriving Inhabited

def lookupBlock : List (String × Block) → String → Option Block
  | [], _ => Option.none
  | (k, b) :: rest, key => if k = key then Option.some b else lookupBlock rest key

def lookupLS : List (String × LoopState) → String → Option LoopState
  | [], _ => Option.none
  | (k, s) :: rest, key => if k = key then Option.some s else lookupLS rest key

def setLS : List (String × LoopState) → String → LoopState → List (String × LoopState)
  | [], key, s => [(key, s)]
  | (k, t) :: rest, key, s =>
      if k = key then (k, s) :: rest else (k, t) :: setLS rest key s

/-- The retry loop of _execute_block: up to three attempts; a transient
exception before the last attempt sleeps 1.0 * 2 ^ attempt and retries;
any other exception (or a transient one on the last attempt) produces the
error output with the attempt index and stops.  Returns context, output
and the success flag. -/
def attemptLoop (ext : ExtO) (b : Block) (inputs : List (String × Value)) :
    Nat → Nat → Ctx → Ctx × Value × Bool
  | 0, _, ctx => (ctx, .null, false)
  | fuel + 1, attempt, ctx =>
      let (ctx2, res) := dispatchHandler ext ctx b inputs attempt
      match res with
      | .ok v => (ctx2, v, true)
      | .error e =>
          if isTransientMsg e ∧ attempt < 3 - 1 then
            attemptLoop ext b inputs fuel (attempt + 1)
              { ctx2 with sleeps := ctx2.sleeps ++ [(1 : ℚ) * 2 ^ attempt] }
          else
            (ctx2, .obj [("error", .str e), ("retries", .int attempt)], false)

/-- _execute_block: resolve inputs, inject _loop when inside a loop, run
the handler with retry, store the output under the normalised and the raw
block name, and append one log record.  A block without a handler returns
the error output immediately, with no log record and no stored output. -/
def executeBlock (ext : ExtO) (ctx : Ctx) (b : Block) : Ctx × Value :=
  match getHandlerKind b with
  | Option.none => (ctx, .obj [("error", .str ("No handler for block type: " ++ b.type))])
  | Option.some _ =>
      let ri := resolveObjList ctx b.inputs
      let ri :=
        match ctx.currentLoopId with
        | Option.some lid =>
            if lid.length != 0 then
              match lookupLS ctx.loopStates lid with
              | Option.some ls =>
                  setKv ri "_loop" (.obj [("index", .int ls.iteration),
                                          ("item", ls.currentItem),
                                          ("items", .list ls.items)])
              | Option.none => ri
            else ri
        | Option.none => ri
      let startT := ctx.clock
      let ctx := { ctx with clock := ctx.clock + 1 }
      let (ctx2, output, success) := attemptLoop ext b ri 3 0 ctx
      let endT := ctx2.clock
      let ctx3 := { ctx2 with clock := ctx2.clock + 1 }
      let ctx4 := { ctx3 with
        blockOutputs := setKv (setKv ctx3.blockOutputs (normalizeName b.name) output) b.name output }
      let ctx5 := { ctx4 with
        logs := ctx4.logs ++
          [{ blockId := b.id, blockName := b.name, blockType := b.type,
             startedAt := startT, success := success, output := output, endedAt := endT }] }
      (ctx5, output)

/-- _should_continue_loop. -/
def shouldContinueLoop (st : LoopState) (ctx : Ctx) : Bool :=
  if st.iteration ≥ st.maxIterations then false
  else if pyEq st.loopType (.str "for") then decide (st.iteration < st.maxIterations)
  else if pyEq st.loopType (.str "forEach") then decide (st.iteration < (st.items.length : Int))
  else if pyEq st.loopType (.str "while") then evaluateLoopCondition st.condition st ctx
  else if pyEq st.loopType (.str "doWhile") then
    if st.iteration = 0 then true else evaluateLoopCondition st.condition st ctx
  else false

/-- _resolve_items: pass lists through, turn dicts into key-value pair
lists, resolve then JSON-parse strings, and default to the empty list. -/
def resolveItems (items : Value) (ctx : Ctx) : List Value :=
  match items with
  | .null => []
  | .list l => l
  | .obj d => d.map (fun kv => .list [.str kv.1, kv.2])
  | .str s =>
      let resolved := resolveValue ctx (.str s)
      match resolved with
      | .list l => l
      | .obj d => d.map (fun kv => .list [.str kv.1, kv.2])
      | _ =>
          match jsonLoads s with
          | .ok (.list l) => l
          | .ok v => [v]
          | .error _ => if s.length != 0 then [.str s] else []
  | _ => []

/-- One pass over the loop children (the inner for of _execute_loop):
each child found in the block table is executed as a leaf block and keyed
by its name in the iteration results. -/
def loopChildrenPass (ext : ExtO) (blocks : List (String × Block)) :
    List String → Ctx → List (String × Value) → Ctx × List (String × Value)
  | [], ctx, acc => (ctx, acc)
  | cid :: rest, ctx, acc =>
      match lookupBlock blocks cid with
      | Option.some cb =>
          let (ctx2, out) := executeBlock ext ctx cb
          loopChildrenPass ext blocks rest ctx2 (setKv acc cb.name out)
      | Option.none => loopChildrenPass ext blocks rest ctx acc

/-- The iteration loop of _execute_loop.  Fuel-driven: starting from
iteration 0 with fuel MAX_LOOP_ITERATIONS the fuel can never run out
before the hard stop at MAX_LOOP_ITERATIONS fires. -/
def runLoopIters (ext : ExtO) (blocks : List (String × Block)) (childOrder : List String)
    (loopId : String) :
    Nat → Ctx → List Value → Ctx × List Value
  | 0, ctx, allRes => (ctx, allRes)
  | fuel + 1, ctx, allRes =>
      let st := (lookupLS ctx.loopStates loopId).getD default
      if shouldContinueLoop st ctx then
        let st :=
          if pyEq st.loopType (.str "forEach") ∧ st.iteration < (st.items.length : Int) then
            { st with currentItem := st.items.getD st.iteration.toNat .null }
          else st
        let ctx := { ctx with loopStates := setLS ctx.loopStates loopId st }
        let (ctx2, iterResults) := loopChildrenPass ext blocks childOrder ctx []
        let st2 := (lookupLS ctx2.loopStates loopId).getD default
        let st3 := { st2 with
          iterationOutputs := st2.iterationOutputs ++ [iterResults],
          iteration := st2.iteration + 1 }
        let ctx3 := { ctx2 with loopStates := setLS ctx2.loopStates loopId st3 }
        let allRes2 := allRes ++ [.obj iterResults]
        if st3.iteration ≥ MAX_LOOP_ITERATIONS then (ctx3, allRes2)
        else runLoopIters ext blocks childOrder loopId fuel ctx3 allRes2
      else (ctx, allRes)

def lookupI : List (String × Int) → String → Option Int
  | [], _ => Option.none
  | (k, n) :: rest, key => if k = key then Option.some n else lookupI rest key

def setI : List (String × Int) → String → Int → List (String × Int)
  | [], key, n => [(key, n)]
  | (k, m) :: rest, key, n =>
      if k = key then (k, n) :: rest else (k, m) :: setI rest key n

/-- One pop of the Kahn loop in _get_execution_order: walk the edges from
the current block, decrement each in-subset target, and collect the
targets whose in-degree reaches exactly zero, in edge order. -/
def topoStep (edges : List (Option String × Option String)) (ids : List String)
    (cur : String) (indeg : List (String × Int)) : List (String × Int) × List String :=
  edges.foldl
    (fun (st : List (String × Int) × List String) e =>
      match e with
      | (Option.some s, Option.some t) =>
          if s = cur ∧ t ∈ ids then
            let d := (lookupI st.1 t).getD 0 - 1
            (setI st.1 t d, if d = 0 then st.2 ++ [t] else st.2)
          else st
      | _ => st)
    (indeg, [])

/-- The Kahn queue loop.  Fuel-driven: every pop consumes one fuel, and
the number of pops is at most the initial queue plus one append per id
(an integer in-degree passes zero at most once), so 2 * ids + 2 fuel
always suffices. -/
def topoLoop (edges : List (Option String × Option String)) (ids : List String) :
    Nat → List String → List (String × Int) → List String → List String
  | 0, _, _, order => order
  | _ + 1, [], _, order => order
  | fuel + 1, cur :: qrest, indeg, order =>
      let (indeg2, adds) := topoStep edges ids cur indeg
      topoLoop edges ids fuel (qrest ++ adds) indeg2 (order ++ [cur])

/-- Initial in-degrees over a subset of ids (zero for every id, plus one
per edge inside the subset). -/
def initInDeg (edges : List (Option String × Option String)) (ids : List String) :
    List (String × Int) :=
  edges.foldl
    (fun acc e =>
      match e with
      | (Option.some s, Option.some t) =>
          if s ∈ ids ∧ t ∈ ids then setI acc t ((lookupI acc t).getD 0 + 1) else acc
      | _ => acc)
    (ids.map (fun i => (i, 0)))

/-- _get_execution_order.  Python iterates sets here; the model fixes the
unspecified set iteration order to the given list order (the claims do not
depend on tie order). -/
def execOrder (edges : List (Option String × Option String)) (ids : List String) :
    List String :=
  let indeg := initInDeg edges ids
  topoLoop edges ids (2 * ids.length + 2)
    (ids.filter (fun bid => (lookupI indeg bid).getD 0 = 0)) indeg []

def lookupChildren : List (String × List String) → String → Option (List String)
  | [], _ => Option.none
  | (k, l) :: rest, key => if k = key then Option.some l else lookupChildren rest key

/-- _execute_loop: resolve the loop inputs, initialise the loop state,
drive the children in topological order while the continuation condition
holds, then store the loop output under both name keys.  No log record is
appended for the loop block itself.  The min() between iterations and
MAX_LOOP_ITERATIONS raises TypeError when iterations is not a number, and
that exception propagates out of the run. -/
def loopExecute (ext : ExtO) (wf : WfExec) (ctx : Ctx) (b : Block) :
    Except String (Ctx × Value) := do
  let inputs := resolveObjList ctx b.inputs
  let loopType := getKvDef inputs "loopType" (.str "for")
  let iterationsV := getKvDef inputs "iterations" (.int 10)
  let iterations ←
    match numView iterationsV with
    | Option.some n => pure (min n MAX_LOOP_ITERATIONS)
    | Option.none => Except.error "TypeError: unsupported operand types for min"
  let forEachItems := getKvDef inputs "forEachItems" (.list [])
  let condition := pyOrV (getKvD inputs "whileCondition")
                         (getKvDef inputs "doWhileCondition" (.str ""))
  let st0 : LoopState := { loopType := loopType, condition := condition }
  let st1 :=
    if pyEq loopType (.str "forEach") then
      let items := resolveItems forEachItems ctx
      { st0 with items := items, maxIterations := (items.length : Int) }
    else { st0 with maxIterations := iterations }
  let ctx1 := { ctx with loopStates := setLS ctx.loopStates b.id st1 }
  let prevLoopId := ctx1.currentLoopId
  let ctx2 := { ctx1 with currentLoopId := Option.some b.id }
  let childIds := (lookupChildren wf.loopChildren b.id).getD []
  let childOrder := execOrder wf.edges childIds
  let (ctx3, allRes) :=
    runLoopIters ext wf.blocks childOrder b.id MAX_LOOP_ITERATIONS.toNat ctx2 []
  let st4 := (lookupLS ctx3.loopStates b.id).getD default
  let ctx4 := { ctx3 with currentLoopId := prevLoopId }
  let loopOutput : Value := .obj [("results", .list allRes),
                                  ("totalIterations", .int st4.iteration),
                                  ("status", .str "completed")]
  let ctx5 := { ctx4 with
    blockOutputs := setKv (setKv ctx4.blockOutputs (normalizeName b.name) loopOutput)
                          b.name loopOutput }
  .ok (ctx5, loopOutput)

/-! ## Workflow document parsing (WorkflowExecutor.__init__) -/

/-- Contents of the messages sub-block: the content entries of the dict
elements; a non-string content makes the newline join raise. -/
def msgContents : List Value → Except String (List String)
  | [] => .ok []
  | (.obj m) :: rest => do
      match getKvDef m "content" (.str "") with
      | .str cs =>
          let rest2 ← msgContents rest
          .ok (cs :: rest2)
      | _ => .error "TypeError: sequence item is not a string"
  | _ :: rest => msgContents rest

/-- _flatten_sub_blocks. -/
def flattenSubBlocks : List (String × Value) → List (String × Value) →
    Except String (List (String × Value))
  | [], acc => .ok acc
  | (key, sub) :: rest, acc =>
      match sub with
      | .obj sb =>
          match lookupKv sb "value" with
          | Option.some value =>
              if key = "messages" then
                match value with
                | .list msgs =>
                    if msgs.isEmpty then flattenSubBlocks rest (setKv acc key value)
                    else do
                      let contents ← msgContents msgs
                      flattenSubBlocks rest
                        (setKv acc key (.str (String.intercalate "\n" contents)))
                | _ => flattenSubBlocks rest (setKv acc key value)
              else flattenSubBlocks rest (setKv acc key value)
          | Option.none => flattenSubBlocks rest (setKv acc key sub)
      | _ => flattenSubBlocks rest (setKv acc key sub)

/-- Parse one block mapping into a Block (_parse_blocks body).  The model
restricts ids, names and types to strings and inputs to mappings, per the
data model of the specification. -/
def parseBlockEntry (bd : List (String × Value)) : Except String Block := do
  let id ← match lookupKv bd "id" with
    | Option.some (.str i) => pure i
    | Option.some _ => Except.error "model: non-string block id"
    | Option.none => Except.error "KeyError: id"
  let inputsV : Value := (lookupKv bd "inputs").getD (.obj [])
  let inputs ←
    if !pyTruthy inputsV ∧ (lookupKv bd "subBlocks").isSome then
      match lookupKv bd "subBlocks" with
      | Option.some (.obj sb) => flattenSubBlocks sb []
      | _ => Except.error "AttributeError: subBlocks has no attribute items"
    else
      match inputsV with
      | .obj l => pure l
      | .null => pure []
      | _ => Except.error "model: non-mapping inputs"
  let name ← match lookupKv bd "name" with
    | Option.some (.str n) => pure n
    | Option.some _ => Except.error "model: non-string block name"
    | Option.none => pure id
  let btype ← match lookupKv bd "type" with
    | Option.some (.str t) => pure t
    | Option.some _ => Except.error "model: non-string block type"
    | Option.none => pure "unknown"
  let dataV := getKvDef bd "data" (.obj [])
  let parentFromData ← match dataV with
    | .obj dd => pure (getKvD dd "parentId")
    | _ => Except.error "AttributeError: data has no attribute get"
  let outputs ← match lookupKv bd "outputs" with
    | Option.some (.obj l) => pure l
    | Option.none => pure []
    | Option.some .null => pure []
    | Option.some _ => Except.error "model: non-mapping outputs"
  pure { id := id, name := name, type := btype,
         parentId := pyOrV (getKvD bd "parentId") parentFromData,
         inputs := inputs, outputs := outputs }

def setBlk : List (String × Block) → String → Block → List (String × Block)
  | [], key, b => [(key, b)]
  | (k, c) :: rest, key, b =>
      if k = key then (k, b) :: rest else (k, c) :: setBlk rest key b

/-- An edge as source and target ids; non-string endpoints behave as
absent because they can never equal a string block id in the order
computation. -/
def strOrNone : Value → Option String
  | .str s => Option.some s
  | _ => Option.none

def edgeOf : Value → Except String (Option String × Option String)
  | .obj e => .ok (strOrNone (getKvD e "source"), strOrNone (getKvD e "target"))
  | _ => .error "AttributeError: edge has no attribute get"

def addChild : List (String × List String) → String → String → List (String × List String)
  | [], p, c => [(p, [c])]
  | (k, l) :: rest, p, c =>
      if k = p then (k, l ++ [c]) :: rest else (k, l) :: addChild rest p c

/-- The loop-children identification of _build_graph: blocks whose truthy
parentId names an existing block of loop type. -/
def buildLoopChildren (blocks : List (String × Block)) : List (String × List String) :=
  blocks.foldl
    (fun acc kv =>
      if pyTruthy kv.2.parentId then
        match kv.2.parentId with
        | .str p =>
            match lookupBlock blocks p with
            | Option.some parent => if parent.type ∈ loopTypes then addChild acc p kv.1 else acc
            | Option.none => acc
        | _ => acc
      else acc)
    []

/-- WorkflowExecutor.__init__: _get_raw_blocks, _parse_blocks, _parse_edges
and _build_graph. -/
def parseWorkflow (wf : List (String × Value)) : Except String WfExec := do
  let rawBlocks ←
    match lookupKv wf "blocks" with
    | Option.none => pure []
    | Option.some (.obj d) => pure d
    | Option.some (.list l) =>
        l.foldlM
          (fun acc b =>
            match b with
            | .obj bd =>
                match lookupKv bd "id" with
                | Option.some (.str i) => pure (setKv acc i (.obj bd))
                | Option.some _ => Except.error "model: non-string block id"
                | Option.none => Except.error "KeyError: id"
            | _ => Except.error "TypeError: list element is not a mapping")
          []
    | Option.some _ => Except.error "TypeError: blocks neither mapping nor list"
  let blocks ←
    rawBlocks.foldlM
      (fun acc kv =>
        match kv.2 with
        | .obj bd => do
            let b ← parseBlockEntry bd
            pure (setBlk acc b.id b)
        | _ => Except.error "TypeError: block data is not a mapping")
      []
  let edges ←
    match lookupKv wf "edges" with
    | Option.none => pure []
    | Option.some (.obj d) => d.mapM (fun kv => edgeOf kv.2)
    | Option.some (.list l) => l.mapM edgeOf
    | Option.some _ => Except.error "TypeError: edges neither mapping nor list"
  pure { blocks := blocks, edges := edges, loopChildren := buildLoopChildren blocks }

/-! ## The run loop (WorkflowExecutor.run) -/

def allLoopChildren (lc : List (String × List String)) : List String :=
  lc.foldl (fun acc kv => acc ++ kv.2) []

/-- _get_top_level_blocks: all block ids minus every loop-children set
(set iteration modelled as list order). -/
def topLevelIds (wf : WfExec) : List String :=
  (wf.blocks.map Prod.fst).filter (fun bid => bid ∉ allLoopChildren wf.loopChildren)

structure RunResult where
  success : Bool
  output : Value
  error : Value
  logs : List LogRecord
deriving Inhabited

/-- The block loop of run: loop blocks go through the loop driver, others
execute as leaves; the last output of a response/output typed block is
remembered as the final output. -/
def runBlocks (ext : ExtO) (wf : WfExec) :
    List String → Ctx → Value → Except String (Ctx × Value)
  | [], ctx, fin => .ok (ctx, fin)
  | bid :: rest, ctx, fin =>
      match lookupBlock wf.blocks bid with
      | Option.none => runBlocks ext wf rest ctx fin
      | Option.some b =>
          if b.type ∈ loopTypes then do
            let (ctx2, out) ← loopExecute ext wf ctx b
            runBlocks ext wf rest ctx2 (if b.type ∈ responseTypes then out else fin)
          else
            let (ctx2, out) := executeBlock ext ctx b
            runBlocks ext wf rest ctx2 (if b.type ∈ responseTypes then out else fin)

/-- WorkflowExecutor.run. -/
def runWf (ext : ExtO) (wf : WfExec) (inputs vars : List (String × Value)) :
    Except String RunResult := do
  let ctx0 : Ctx := { inputs := inputs, workflowVariables := vars }
  let order := execOrder wf.edges (topLevelIds wf)
  let (ctx, fin) ← runBlocks ext wf order ctx0 .null
  .ok { success := true, output := fin, error := .null, logs := ctx.logs }

/-! ## Rate limiter and admission middleware (main.py)

Wall-clock instants (time.time() floats) are modelled as rationals.  The
per-client request map (a defaultdict of timestamp lists) is modelled as a
function from client ids to lists; only the touched client's list changes.
-/

/-- The rate limiter configuration: RATE_LIMIT_REQUESTS and
RATE_LIMIT_WINDOW. -/
structure RLCfg where
  maxRequests : Nat
  windowSeconds : Rat
deriving Inhabited

/-- RateLimiter.is_allowed: prune entries at or before now - window, deny
when the pruned list has reached max_requests, otherwise record now and
allow. -/
def isAllowed (cfg : RLCfg) (reqs : String → List Rat) (clientId : String) (now : Rat) :
    Bool × (String → List Rat) :=
  let pruned := (reqs clientId).filter (fun t => now - cfg.windowSeconds < t)
  if cfg.maxRequests ≤ pruned.length then
    (false, fun c => if c = clientId then pruned else reqs c)
  else
    (true, fun c => if c = clientId then pruned ++ [now] else reqs c)

/-- Python int() truncation toward zero on a rational. -/
def pyIntTrunc (q : Rat) : Int := if 0 ≤ q then ⌊q⌋ else -⌊-q⌋

/-- RateLimiter.get_retry_after, evaluated at time tNow (a second
time.time() reading, at or after the is_allowed one). -/
def getRetryAfter (cfg : RLCfg) (reqs : String → List Rat) (clientId : String)
    (tNow : Rat) : Int :=
  match reqs clientId with
  | [] => 0
  | t :: ts => max 0 (pyIntTrunc (cfg.windowSeconds - (tNow - (ts.foldl min t))))

/-- The response of the admission middleware. -/
inductive MwResult where
  | pass
  | tooLarge (maxSize received : Nat)
  | rateLimited (retryAfter : Int)
deriving DecidableEq, Inhabited

/-- rate_limit_and_size_middleware: health paths skip admission; a
Content-Length over MAX_REQUEST_SIZE gives 413; a denied rate-limit check
gives 429 with the Retry-After value; otherwise the request passes.
tNow is the second clock reading used by get_retry_after. -/
def middleware (cfg : RLCfg) (maxRequestSize : Nat) (path : String)
    (contentLength : Option Nat) (client : Option String)
    (reqs : String → List Rat) (now tNow : Rat) :
    MwResult × (String → List Rat) :=
  if path = "/health" ∨ path = "/ready" then (.pass, reqs)
  else
    match contentLength with
    | Option.some n =>
        if maxRequestSize < n then (.tooLarge maxRequestSize n, reqs)
        else
          let clientIp := client.getD "unknown"
          let (ok, reqs2) := isAllowed cfg reqs clientIp now
          if ok then (.pass, reqs2)
          else (.rateLimited (getRetryAfter cfg reqs2 clientIp tNow), reqs2)
    | Option.none =>
        let clientIp := client.getD "unknown"
        let (ok, reqs2) := isAllowed cfg reqs clientIp now
        if ok then (.pass, reqs2)
        else (.rateLimited (getRetryAfter cfg reqs2 clientIp tNow), reqs2)

/-- A non-health request processed through the middleware: client, arrival
time, the later retry-after clock reading, and content length. -/
structure Arrival where
  client : String
  now : Rat
  tNow : Rat
  contentLength : Option Nat
deriving Inhabited

/-- Run a sequence of non-health requests through the middleware on some
fixed path, collecting the results. -/
def runMiddleware (cfg : RLCfg) (maxRequestSize : Nat) (path : String) :
    List Arrival → (String → List Rat) → List MwResult × (String → List Rat)
  | [], reqs => ([], reqs)
  | a :: rest, reqs =>
      let (r, reqs2) := middleware cfg maxRequestSize path a.contentLength
        (Option.some a.client) reqs a.now a.tNow
      let (rs, reqs3) := runMiddleware cfg maxRequestSize path rest reqs2
      (r :: rs, reqs3)

/-! ## Native filesystem tools (tools.py)

Paths are modelled as absolute component lists; Path.resolve is lexical
normalisation of "." and ".." (symbolic links are outside the model).  The
filesystem is a finite map from paths to nodes, and every mutating
operation is recorded in an effect trace, so the sandbox claim can speak
about all writes a tool performs. -/

abbrev PathC := List String

/-- A tool path argument: absolute flag plus raw components (which may
contain "." and ".." entries). -/
structure RawPath where
  absolute : Bool
  comps : List String
deriving DecidableEq, Inhabited

/-- Lexical normalisation: drop "." and empty components, resolve ".."
against the accumulated prefix (at the root ".." stays at the root). -/
def normComps (cs : List String) : PathC :=
  cs.foldl
    (fun acc c =>
      if c = "." ∨ c = "" then acc
      else if c = ".." then acc.dropLast
      else acc ++ [c])
    []

inductive FNode where
  | file (size : Nat)
  | dir
deriving DecidableEq, Inhabited

abbrev Fs := List (PathC × FNode)

def lookupP : Fs → PathC → Option FNode
  | [], _ => Option.none
  | (q, n) :: rest, p => if q = p then Option.some n else lookupP rest p

def setP : Fs → PathC → FNode → Fs
  | [], p, n => [(p, n)]
  | (q, m) :: rest, p, n => if q = p then (q, n) :: rest else (q, m) :: setP rest p n

def delP : Fs → PathC → Fs
  | [], _ => []
  | (q, m) :: rest, p => if q = p then rest else (q, m) :: delP rest p

/-- The root directory always exists. -/
def dirExists (fs : Fs) (p : PathC) : Bool :=
  p.isEmpty || lookupP fs p == Option.some .dir

inductive FsEff where
  | mkdir (p : PathC)
  | writeFile (p : PathC) (size : Nat)
  | appendFile (p : PathC) (size : Nat)
  | unlink (p : PathC)
deriving DecidableEq, Inhabited

def FsEff.path : FsEff → PathC
  | .mkdir p => p
  | .writeFile p _ => p
  | .appendFile p _ => p
  | .unlink p => p

/-- mkdir(parents=True, exist_ok=True): create the missing directories
along the path from the root down; a non-directory on the way raises
(after any directories created above it, which in a prefix-closed
filesystem is none). -/
def mkdirP (fs : Fs) (q : PathC) : Fs × List FsEff × Bool :=
  (List.range q.length).foldl
    (fun (st : Fs × List FsEff × Bool) i =>
      if st.2.2 then
        let pre := q.take (i + 1)
        match lookupP st.1 pre with
        | Option.some .dir => st
        | Option.some (.file _) => (st.1, st.2.1, false)
        | Option.none => (setP st.1 pre .dir, st.2.1 ++ [.mkdir pre], true)
      else st)
    (fs, [], true)

/-- Tool configuration from the environment: WORKSPACE_DIR (resolved) and
MAX_FILE_SIZE. -/
structure ToolCfg where
  workspaceDir : Option PathC
  maxFileSize : Nat
deriving Inhabited

/-- The success flag and error field of a tool result dict. -/
structure ToolResult where
  success : Bool
  error : Option String := Option.none
deriving DecidableEq, Inhabited

def toolsDisabled : ToolResult :=
  { success := false,
    error := Option.some "Native file tools disabled. Set WORKSPACE_DIR environment variable or use MCP filesystem tools." }

/-- _safe_path without the _ensure_workspace side effect (which the tool
wrappers perform first): resolve against the workspace and require the
workspace to be a path prefix of the result (Path.relative_to). -/
def safePathR (ws : PathC) (p : RawPath) : Except String PathC :=
  let resolved := normComps (if p.absolute then p.comps else ws ++ p.comps)
  if ws <+: resolved then .ok resolved
  else .error "Path escapes sandbox"

/-- write_file: disabled check, content size check, _safe_path
(_ensure_workspace first), parent mkdir, write_text.  Any raised error is
caught and returned as a failure result; effects made before the raise
remain. -/
def writeFileTool (cfg : ToolCfg) (fs : Fs) (path : RawPath) (contentSize : Nat) :
    ToolResult × Fs × List FsEff :=
  match cfg.workspaceDir with
  | Option.none => (toolsDisabled, fs, [])
  | Option.some ws =>
      if cfg.maxFileSize < contentSize then
        ({ success := false, error := Option.some "Content exceeds maximum file size" }, fs, [])
      else
        let (fs1, eff1, ok1) := mkdirP fs ws
        if !ok1 then
          ({ success := false, error := Option.some "workspace mkdir failed" }, fs1, eff1)
        else
          match safePathR ws path with
          | .error e => ({ success := false, error := Option.some e }, fs1, eff1)
          | .ok p =>
              let (fs2, eff2, ok2) := mkdirP fs1 p.dropLast
              if !ok2 then
                ({ success := false, error := Option.some "mkdir failed" }, fs2, eff1 ++ eff2)
              else
                match lookupP fs2 p with
                | Option.some .dir =>
                    ({ success := false, error := Option.some "IsADirectoryError" },
                     fs2, eff1 ++ eff2)
                | _ =>
                    ({ success := true }, setP fs2 p (.file contentSize),
                     eff1 ++ eff2 ++ [.writeFile p contentSize])

/-- write_bytes: like write_file with a base64 decode first (an invalid
payload raises before any filesystem access). -/
def writeBytesTool (cfg : ToolCfg) (fs : Fs) (path : RawPath) (decodeOk : Bool)
    (contentSize : Nat) : ToolResult × Fs × List FsEff :=
  match cfg.workspaceDir with
  | Option.none => (toolsDisabled, fs, [])
  | Option.some ws =>
      if !decodeOk then
        ({ success := false, error := Option.some "Invalid base64-encoded string" }, fs, [])
      else if cfg.maxFileSize < contentSize then
        ({ success := false, error := Option.some "Content exceeds maximum file size" }, fs, [])
      else
        let (fs1, eff1, ok1) := mkdirP fs ws
        if !ok1 then
          ({ success := false, error := Option.some "workspace mkdir failed" }, fs1, eff1)
        else
          match safePathR ws path with
          | .error e => ({ success := false, error := Option.some e }, fs1, eff1)
          | .ok p =>
              let (fs2, eff2, ok2) := mkdirP fs1 p.dropLast
              if !ok2 then
                ({ success := false, error := Option.some "mkdir failed" }, fs2, eff1 ++ eff2)
              else
                match lookupP fs2 p with
                | Option.some .dir =>
                    ({ success := false, error := Option.some "IsADirectoryError" },
                     fs2, eff1 ++ eff2)
                | _ =>
                    ({ success := true }, setP fs2 p (.file contentSize),
                     eff1 ++ eff2 ++ [.writeFile p contentSize])

/-- stat size in the model: files carry their size, directories report 0. -/
def statSize : FNode → Nat
  | .file n => n
  | .dir => 0

/-- append_file: _safe_path, size-after-append check, parent mkdir, append. -/
def appendFileTool (cfg : ToolCfg) (fs : Fs) (path : RawPath) (contentSize : Nat) :
    ToolResult × Fs × List FsEff :=
  match cfg.workspaceDir with
  | Option.none => (toolsDisabled, fs, [])
  | Option.some ws =>
      let (fs1, eff1, ok1) := mkdirP fs ws
      if !ok1 then
        ({ success := false, error := Option.some "workspace mkdir failed" }, fs1, eff1)
      else
        match safePathR ws path with
        | .error e => ({ success := false, error := Option.some e }, fs1, eff1)
        | .ok p =>
            let currentSize := match lookupP fs1 p with
              | Option.some n => statSize n
              | Option.none => 0
            if cfg.maxFileSize < currentSize + contentSize then
              ({ success := false,
                 error := Option.some "Appending would exceed maximum file size" }, fs1, eff1)
            else
              let (fs2, eff2, ok2) := mkdirP fs1 p.dropLast
              if !ok2 then
                ({ success := false, error := Option.some "mkdir failed" }, fs2, eff1 ++ eff2)
              else
                match lookupP fs2 p with
                | Option.some .dir =>
                    ({ success := false, error := Option.some "IsADirectoryError" },
                     fs2, eff1 ++ eff2)
                | _ =>
                    ({ success := true }, setP fs2 p (.file (currentSize + contentSize)),
                     eff1 ++ eff2 ++ [.appendFile p contentSize])

/-- read_file / read_bytes share this shape: _safe_path, stat (missing
file raises FileNotFoundError), size check, read.  No write effects. -/
def readFileTool (cfg : ToolCfg) (fs : Fs) (path : RawPath) :
    ToolResult × Fs × List FsEff :=
  match cfg.workspaceDir with
  | Option.none => (toolsDisabled, fs, [])
  | Option.some ws =>
      let (fs1, eff1, ok1) := mkdirP fs ws
      if !ok1 then
        ({ success := false, error := Option.some "workspace mkdir failed" }, fs1, eff1)
      else
        match safePathR ws path with
        | .error e => ({ success := false, error := Option.some e }, fs1, eff1)
        | .ok p =>
            match lookupP fs1 p with
            | Option.none =>
                ({ success := false, error := Option.some "File not found" }, fs1, eff1)
            | Option.some .dir =>
                ({ success := false, error := Option.some "IsADirectoryError" }, fs1, eff1)
            | Option.some (.file n) =>
                if cfg.maxFileSize < n then
                  ({ success := false, error := Option.some "File exceeds maximum size" },
                   fs1, eff1)
                else ({ success := true }, fs1, eff1)

/-- read_bytes differs from read_file only in output encoding, which does
not touch the filesystem; the model shares the definition shape. -/
def readBytesTool (cfg : ToolCfg) (fs : Fs) (path : RawPath) :
    ToolResult × Fs × List FsEff :=
  readFileTool cfg fs path

/-- delete_file: _safe_path, existence and directory checks, unlink. -/
def deleteFileTool (cfg : ToolCfg) (fs : Fs) (path : RawPath) :
    ToolResult × Fs × List FsEff :=
  match cfg.workspaceDir with
  | Option.none => (toolsDisabled, fs, [])
  | Option.some ws =>
      let (fs1, eff1, ok1) := mkdirP fs ws
      if !ok1 then
        ({ success := false, error := Option.some "workspace mkdir failed" }, fs1, eff1)
      else
        match safePathR ws path with
        | .error e => ({ success := false, error := Option.some e }, fs1, eff1)
        | .ok p =>
            match lookupP fs1 p with
            | Option.none =>
                ({ success := false, error := Option.some "File not found" }, fs1, eff1)
            | Option.some .dir =>
                ({ success := false,
                   error := Option.some "Cannot delete directory with delete_file" }, fs1, eff1)
            | Option.some (.file _) =>
                ({ success := true }, delP fs1 p, eff1 ++ [.unlink p])

/-- list_directory: _safe_path, existence and directory checks, read-only
iteration (the entry metadata does not touch the claims, so the result
carries only the success flag). -/
def listDirectoryTool (cfg : ToolCfg) (fs : Fs) (path : RawPath) :
    ToolResult × Fs × List FsEff :=
  match cfg.workspaceDir with
  | Option.none => (toolsDisabled, fs, [])
  | Option.some ws =>
      let (fs1, eff1, ok1) := mkdirP fs ws
      if !ok1 then
        ({ success := false, error := Option.some "workspace mkdir failed" }, fs1, eff1)
      else
        match safePathR ws path with
        | .error e => ({ success := false, error := Option.some e }, fs1, eff1)
        | .ok p =>
            match lookupP fs1 p with
            | Option.none =>
                ({ success := false, error := Option.some "Directory not found" }, fs1, eff1)
            | Option.some (.file _) =>
                ({ success := false, error := Option.some "Not a directory" }, fs1, eff1)
            | Option.some .dir => ({ success := true }, fs1, eff1)

/-! ## Shared lemmas -/

/-- Resolving a Python-falsy value yields a Python-falsy value (falsy
strings, lists and dicts are empty, and resolve maps them to themselves). -/
theorem resolve_falsy (ctx : Ctx) (d : Value) (h : pyTruthy d = false) :
    pyTruthy (resolveValue ctx d) = false := by
  cases d with
  | null => simp [resolveValue, pyTruthy]
  | bool b => cases b <;> simp_all [resolveValue, pyTruthy]
  | int n => simp_all [resolveValue, pyTruthy]
  | str s =>
      simp [pyTruthy] at h
      have hs : s = "" := by
        cases s with
        | mk data => cases data <;> simp_all [String.length]
      subst hs
      simp [resolveValue, resolveString, pyStrip, matchFull, subRefs, pyTruthy]
  | list l =>
      simp [pyTruthy] at h
      subst h
      simp [resolveValue, resolveList, pyTruthy]
  | obj l =>
      simp [pyTruthy] at h
      subst h
      simp [resolveValue, resolveObjList, pyTruthy]

/-! ## Claim C10 -/

/-- C10: for a response block in raw dataMode (headers absent), the
returned data field is the resolved data input exactly when that resolved
value is truthy; when it is falsy (None, 0, empty string, empty mapping or
empty sequence, including the case of a falsy unresolved input, whose
resolution is falsy too) the data field is instead the entire resolved
input mapping of the block (the inputs argument here is the
executor-resolved mapping). -/
theorem C10_response_raw_fallback (ctx : Ctx) (inputs : List (String × Value))
    (hdm : lookupKv inputs "dataMode" = Option.some (.str "raw"))
    (hhd : lookupKv inputs "headers" = Option.none) :
    responseExecute ctx inputs = .ok (.obj
      [("data",
        if pyTruthy (resolveValue ctx (getKvD inputs "data"))
        then resolveValue ctx (getKvD inputs "data")
        else .obj inputs),
       ("status", getKvD inputs "status"),
       ("headers", .null),
       ("dataMode", .str "raw")]) := by
  have hb := resolve_falsy ctx (getKvD inputs "data")
  unfold responseExecute
  rw [show getKvDef inputs "dataMode" (.str "raw") = .str "raw" by simp [getKvDef, hdm]]
  rw [show getKvDef inputs "headers" (.list []) = .list [] by simp [getKvDef, hhd]]
  cases htr : pyTruthy (getKvD inputs "data") with
  | false =>
      have h2 := hb htr
      simp [htr, h2, pyOrV, responseHeaders, bind, Except.bind, List.isEmpty, pure, Except.pure,
            show pyTruthy Value.null = false from rfl,
            show pyEq (Value.str "raw") (Value.str "structured") = false from rfl,
            show pyEq (Value.str "raw") (Value.str "raw") = true from rfl]
  | true =>
      cases htr2 : pyTruthy (resolveValue ctx (getKvD inputs "data")) with
      | false =>
          simp [htr, htr2, pyOrV, responseHeaders, bind, Except.bind, List.isEmpty, pure,
                Except.pure,
                show pyEq (Value.str "raw") (Value.str "structured") = false from rfl,
                show pyEq (Value.str "raw") (Value.str "raw") = true from rfl]
      | true =>
          simp [htr, htr2, pyOrV, responseHeaders, bind, Except.bind, List.isEmpty, pure,
                Except.pure,
                show pyEq (Value.str "raw") (Value.str "structured") = false from rfl,
                show pyEq (Value.str "raw") (Value.str "raw") = true from rfl]

/-- Witness for C10: a raw response block whose data resolves to 0 (falsy)
returns the whole resolved input mapping as data. -/
theorem C10_response_raw_fallback_witness :
    responseExecute { inputs := [] } [("dataMode", Value.str "raw"), ("data", Value.int 0)] =
      .ok (.obj [("data", .obj [("dataMode", Value.str "raw"), ("data", Value.int 0)]),
                 ("status", .null), ("headers", .null), ("dataMode", .str "raw")]) :=
  C10_response_raw_fallback { inputs := [] }
    [("dataMode", Value.str "raw"), ("data", Value.int 0)] rfl rfl

/-! ## Claim C6 -/

/-- C6 counterexample: a doWhile loop block with iterations 0 never runs
iteration 0 (results empty, totalIterations 0), although its condition is
the always-true string True — the guard iteration >= max_iterations is
checked before the doWhile branch, refuting "iteration 0 always runs
regardless of the configured iterations value". -/
theorem C6_doWhile_counterexample :
    (match (do
        let wf ← parseWorkflow
          [("blocks", .list [.obj [("id", .str "L"), ("name", .str "L"), ("type", .str "loop"),
             ("inputs", .obj [("loopType", .str "doWhile"), ("iterations", .int 0),
                              ("doWhileCondition", .str "True")])]]),
           ("edges", .list [])]
        runBlocks (fun _ _ _ _ => .error "no external handlers") wf
          (execOrder wf.edges (topLevelIds wf)) { inputs := [] } .null :
        Except String (Ctx × Value)) with
     | .ok (ctx, _) => getKvD ctx.blockOutputs "L"
     | .error _ => .null) =
    .obj [("results", .list []), ("totalIterations", .int 0), ("status", .str "completed")] := rfl

/-- C6 amended: a doWhile loop continues at iteration 0 regardless of the
condition provided iteration 0 is below maxIterations (the clamped
iterations input); from iteration 1 onward the condition is evaluated,
still under the maxIterations guard. -/
theorem C6_doWhile_iteration0 (st : LoopState) (ctx : Ctx)
    (h : st.loopType = .str "doWhile") :
    shouldContinueLoop st ctx = true ↔
      st.iteration < st.maxIterations ∧
        (st.iteration = 0 ∨ evaluateLoopCondition st.condition st ctx = true) := by
  simp only [shouldContinueLoop, h,
    show pyEq (Value.str "doWhile") (Value.str "for") = false from rfl,
    show pyEq (Value.str "doWhile") (Value.str "forEach") = false from rfl,
    show pyEq (Value.str "doWhile") (Value.str "while") = false from rfl,
    show pyEq (Value.str "doWhile") (Value.str "doWhile") = true from rfl]
  by_cases hg : st.iteration ≥ st.maxIterations
  · simp [hg]
  · simp [hg]
    by_cases h0 : st.iteration = 0
    · simp [h0]
      omega
    · simp [h0]
      intro _
      omega

/-- Witness for the amended C6: with maxIterations 1 and an always-false
condition, iteration 0 still continues. -/
theorem C6_doWhile_iteration0_witness :
    shouldContinueLoop
      { loopType := .str "doWhile", condition := .str "False",
        iteration := 0, maxIterations := 1 } { inputs := [] } = true :=
  ((C6_doWhile_iteration0
      { loopType := .str "doWhile", condition := .str "False",
        iteration := 0, maxIterations := 1 } { inputs := [] } rfl).mpr
    ⟨by decide, Or.inl rfl⟩)

/-! ## Claim C7 -/

/-- C7 counterexample: the while-loop condition foo is a non-empty string
that fails safe evaluation (unknown name), the iteration (0) is below
maxIterations (10), yet the continuation decision is false — it does not
fall back to iteration < maxIterations as the claim states. -/
theorem C7_parse_failure_counterexample :
    evaluateLoopCondition (.str "foo")
        { loopType := .str "while", condition := .str "foo", iteration := 0, maxIterations := 10 }
        { inputs := [] } = false ∧
    decide ((0 : Int) < (10 : Int)) = true ∧
    (do evalExecNode (← parseExprT "foo") : Except String Value) = .error "Unsafe name: foo" :=
  ⟨rfl, rfl, rfl⟩

/-- C7 amended: for a non-empty string condition whose substituted and
resolved text fails the safe evaluator (parse error, disallowed name or
operator), the loop-continuation condition evaluates to false, so the loop
stops; the run is not aborted.  The iteration < maxIterations fallback
applies only when the condition is falsy (such as the empty string) or a
truthy non-string (where .replace raises and the outer except falls back). -/
theorem C7_parse_failure_evaluates_false (st : LoopState) (ctx : Ctx) :
    (∀ s s2 e, st.condition = .str s → s.length ≠ 0 →
        resolveValue ctx (.str (substLoopVars s st)) = .str s2 →
        (do evalExecNode (← parseExprT s2) : Except String Value) = .error e →
        evaluateLoopCondition st.condition st ctx = false) ∧
    (∀ s, st.condition = .str s → s.length ≠ 0 →
        (∀ s2, resolveValue ctx (.str (substLoopVars s st)) ≠ .str s2) →
        evaluateLoopCondition st.condition st ctx = false) ∧
    (pyTruthy st.condition = false →
        evaluateLoopCondition st.condition st ctx = decide (st.iteration < st.maxIterations)) ∧
    (∀ l, st.condition = .obj l → l ≠ [] →
        evaluateLoopCondition st.condition st ctx = decide (st.iteration < st.maxIterations)) := by
  refine ⟨?_, ?_, ?_, ?_⟩
  · intro s s2 e hc hne hres heval
    have ht : pyTruthy (Value.str s) = true := by simp [pyTruthy, hne]
    simp [evaluateLoopCondition, hc, ht, hres, safeEvalCondition, heval]
  · intro s hc hne hstr
    have ht : pyTruthy (Value.str s) = true := by simp [pyTruthy, hne]
    simp only [evaluateLoopCondition, hc, ht, Bool.not_true, Bool.false_eq_true, if_false]
    rcases hres : resolveValue ctx (.str (substLoopVars s st)) with _ | b | n | s2 | l | o
    · simp [safeEvalCondition]
    · simp [safeEvalCondition]
    · simp [safeEvalCondition]
    · exact absurd hres (hstr s2)
    · simp [safeEvalCondition]
    · simp [safeEvalCondition]
  · intro ht
    simp [evaluateLoopCondition, ht]
  · intro l hc hne
    have ht : pyTruthy (Value.obj l) = true := by simp [pyTruthy, hne]
    simp [evaluateLoopCondition, hc, ht]

/-- Witness for the amended C7: a syntactically invalid condition makes
the continuation decision false even though iteration 3 is below the
maxIterations 10. -/
theorem C7_parse_failure_evaluates_false_witness :
    evaluateLoopCondition (.str "x + ")
        { loopType := .str "while", condition := .str "x + ", iteration := 3, maxIterations := 10 }
        { inputs := [] } = false :=
  (C7_parse_failure_evaluates_false
      { loopType := .str "while", condition := .str "x + ", iteration := 3, maxIterations := 10 }
      { inputs := [] }).1 "x + " "x + " "SyntaxError: invalid syntax" rfl (by decide) rfl rfl

/-! ## Claim C5 -/

/-- The winning test of the route loop: the route's condition entry is
truthy and its resolved value evaluates truthy. -/
def routeMatches (ctx : Ctx) (r : List (String × Value)) : Bool :=
  pyTruthy (getKvDef r "condition" (.str "")) &&
    evaluateCond ctx (resolveValue ctx (getKvDef r "condition" (.str "")))

/-- The route loop skips any prefix of non-matching route mappings,
advancing the index accordingly. -/
theorem routeLoop_skip (ctx : Ctx) (pre : List Value) :
    ∀ (i : Nat) (rest : List Value),
      (∀ route ∈ pre, ∃ q, route = .obj q ∧ routeMatches ctx q = false) →
      routeLoop ctx (pre ++ rest) i = routeLoop ctx rest (i + pre.length) := by
  induction pre with
  | nil => intro i rest _; simp
  | cons route pre' ih =>
      intro i rest hall
      obtain ⟨q, hq, hm⟩ := hall route (List.mem_cons_self route pre')
      subst hq
      have hrest : ∀ route ∈ pre', ∃ q, route = .obj q ∧ routeMatches ctx q = false :=
        fun route h => hall route (List.mem_cons_of_mem _ h)
      simp only [List.cons_append, routeLoop, List.append_eq]
      simp only [routeMatches, Bool.and_eq_false_iff] at hm
      rcases hm with hm | hm
      · simp only [hm, Bool.false_eq_true, if_false]
        rw [ih (i + 1) rest hrest]
        congr 1
        simp
        omega
      · by_cases ht : pyTruthy (getKvDef q "condition" (.str "")) = true
        · simp only [ht, if_true, hm, Bool.false_eq_true, if_false]
          rw [ih (i + 1) rest hrest]
          congr 1
          simp
          omega
        · simp only [Bool.not_eq_true] at ht
          simp only [ht, Bool.false_eq_true, if_false]
          rw [ih (i + 1) rest hrest]
          congr 1
          simp
          omega

/-- A matching route at index i wins with its name (or route_i), the
matched index and its raw condition. -/
theorem routeLoop_win (ctx : Ctx) (r : List (String × Value)) (rest : List Value) (i : Nat)
    (hm : routeMatches ctx r = true) :
    routeLoop ctx (.obj r :: rest) i = .ok (.obj
      [("result", .bool true),
       ("branch", getKvDef r "name" (.str ("route_" ++ toString i))),
       ("matchedRoute", .int i),
       ("condition", getKvDef r "condition" (.str ""))]) := by
  simp only [routeMatches, Bool.and_eq_true] at hm
  simp [routeLoop, hm.1, hm.2]

/-- C5: for a condition block invoked in the routes shape (no truthy
single condition or if input) with a non-empty routes list of route
mappings, the first route whose condition evaluates truthy determines the
output: result true, branch the route's name entry (or route_i), and
matchedRoute the route's index (the output also carries the route's raw
condition); when no route matches, the output is result false, branch
default and matchedRoute null. -/
theorem C5_condition_routes (ctx : Ctx) (inputs : List (String × Value)) (rs : List Value)
    (hcond : pyTruthy (getKvDef inputs "condition" (.str "")) = false)
    (hif : pyTruthy (getKvDef inputs "if" (.str "")) = false)
    (hroutes : getKvDef inputs "routes" (.list []) = .list rs) :
    (∀ (pre post : List Value) (r : List (String × Value)),
      rs = pre ++ .obj r :: post →
      (∀ route ∈ pre, ∃ q, route = .obj q ∧ routeMatches ctx q = false) →
      routeMatches ctx r = true →
      conditionExecute ctx inputs = .ok (.obj
        [("result", .bool true),
         ("branch", getKvDef r "name" (.str ("route_" ++ toString pre.length))),
         ("matchedRoute", .int pre.length),
         ("condition", getKvDef r "condition" (.str ""))])) ∧
    ((∀ route ∈ rs, ∃ q, route = .obj q ∧ routeMatches ctx q = false) → rs ≠ [] →
      conditionExecute ctx inputs = .ok (.obj
        [("result", .bool false), ("branch", .str "default"), ("matchedRoute", .null)])) := by
  constructor
  · intro pre post r hsplit hpre hr
    have hne : pyTruthy (Value.list rs) = true := by
      subst hsplit; simp [pyTruthy]
    simp only [conditionExecute, hcond, hif, hroutes, hne, Bool.false_eq_true, if_false, if_true]
    subst hsplit
    rw [routeLoop_skip ctx pre 0 (.obj r :: post) hpre]
    rw [routeLoop_win ctx r post (0 + pre.length) hr]
    simp
  · intro hall hne
    have hne2 : pyTruthy (Value.list rs) = true := by
      cases rs
      · exact absurd rfl hne
      · simp [pyTruthy]
    simp only [conditionExecute, hcond, hif, hroutes, hne2, Bool.false_eq_true, if_false, if_true]
    have := routeLoop_skip ctx rs 0 [] hall
    rw [List.append_nil] at this
    rw [this]
    simp [routeLoop]

/-- Witness for C5 (scenario S2): with start input x = 5, the route big
(x > 10) does not match and the route pos (x > 0) wins at index 1. -/
theorem C5_condition_routes_witness :
    conditionExecute { inputs := [("x", .int 5)] }
      [("routes", .list [
         .obj [("condition", .str "<start.x> > 10"), ("name", .str "big")],
         .obj [("condition", .str "<start.x> > 0"), ("name", .str "pos")]])] =
    .ok (.obj [("result", .bool true), ("branch", .str "pos"),
               ("matchedRoute", .int 1), ("condition", .str "<start.x> > 0")]) :=
  (C5_condition_routes { inputs := [("x", .int 5)] }
      [("routes", .list [
         .obj [("condition", .str "<start.x> > 10"), ("name", .str "big")],
         .obj [("condition", .str "<start.x> > 0"), ("name", .str "pos")]])]
      [.obj [("condition", .str "<start.x> > 10"), ("name", .str "big")],
       .obj [("condition", .str "<start.x> > 0"), ("name", .str "pos")]]
      rfl rfl rfl).1
    [.obj [("condition", .str "<start.x> > 10"), ("name", .str "big")]]
    []
    [("condition", .str "<start.x> > 0"), ("name", .str "pos")]
    rfl
    (by
      intro route h
      rw [List.mem_singleton] at h
      subst h
      exact ⟨_, rfl, rfl⟩)
    rfl

/-! ## Claim C4 -/

/-- The retry loop consults the dispatcher only at attempt indices below
attempt + fuel: two oracles that agree there give identical outcomes. -/
theorem attemptLoop_agree_aux (ext ext2 : ExtO) (b : Block) (ri : List (String × Value)) :
    ∀ (fuel attempt : Nat) (ctx : Ctx),
      (∀ c i, attempt ≤ i → i < attempt + fuel →
        dispatchHandler ext c b ri i = dispatchHandler ext2 c b ri i) →
      attemptLoop ext b ri fuel attempt ctx = attemptLoop ext2 b ri fuel attempt ctx := by
  intro fuel
  induction fuel with
  | zero => intro attempt ctx _; rfl
  | succ f ih =>
      intro attempt ctx hag
      simp only [attemptLoop]
      rw [hag ctx attempt (by omega) (by omega)]
      cases hres : (dispatchHandler ext2 ctx b ri attempt).2 with
      | ok v => rfl
      | error e =>
          by_cases ht : isTransientMsg e ∧ attempt < 3 - 1
          · simp only [ht, and_self, if_true, if_pos ht]
            exact ih (attempt + 1) _ (fun c i h1 h2 => hag c i (by omega) (by omega))
          · simp [ht]

/-- For the externally-modelled handlers, dispatch is exactly the oracle
outcome and leaves the context unchanged. -/
theorem dispatch_oracle (b : Block) (hk : HKind) (hhk : getHandlerKind b = Option.some hk)
    (hok : hk = .agent ∨ hk = .function ∨ hk = .api)
    (ext : ExtO) (h : Nat → Except String Value)
    (hext : ∀ inp i, ext hk b inp i = h i) :
    ∀ c inp i, dispatchHandler ext c b inp i = (c, h i) := by
  intro c inp i
  rcases hok with rfl | rfl | rfl <;> simp [dispatchHandler, hhk, hext]

/-- C4: (i) an exception is classified transient exactly when its
lowercased text contains one of timeout, connection, rate limit, 429, 503;
(ii) a leaf block execution calls its handler at most 3 times — the
outcome depends only on the handler behaviour at attempts 0, 1 and 2;
(iii) for an oracle-modelled handler whose attempts up to n fail
transiently: success at attempt n yields the value with one sleep of
1.0 * 2 ^ m seconds per retried attempt m < n, and a failure at attempt n
that is non-transient or at the last attempt yields the output
(error, retries: n) with no further attempts. -/
theorem C4_retry_behaviour (b : Block) (hk : HKind)
    (hhk : getHandlerKind b = Option.some hk) :
    (∀ e, isTransientMsg e = true ↔
        ∃ t ∈ transientMarkers, t.data <:+: (pyLowerStr e).data) ∧
    (∀ ext ext2 : ExtO, (∀ inp i, i < 3 → ext hk b inp i = ext2 hk b inp i) →
        ∀ ctx, executeBlock ext ctx b = executeBlock ext2 ctx b) ∧
    (∀ (ext : ExtO) (h : Nat → Except String Value) (ctx : Ctx),
        (hk = .agent ∨ hk = .function ∨ hk = .api) →
        (∀ inp i, ext hk b inp i = h i) →
        ∀ n, n < 3 →
        (∀ m, m < n → ∃ em, h m = .error em ∧ isTransientMsg em = true) →
        (∀ v, h n = .ok v →
            executeBlock ext ctx b =
              ({ ctx with
                  clock := ctx.clock + 2,
                  sleeps := ctx.sleeps ++ ((List.range n).map (fun m => (1 : ℚ) * 2 ^ m)),
                  blockOutputs := setKv (setKv ctx.blockOutputs (normalizeName b.name) v) b.name v,
                  logs := ctx.logs ++
                    [(⟨b.id, b.name, b.type, ctx.clock, true, v, ctx.clock + 1⟩ : LogRecord)] },
               v)) ∧
        (∀ en, h n = .error en → (isTransientMsg en = false ∨ n = 2) →
            executeBlock ext ctx b =
              ({ ctx with
                  clock := ctx.clock + 2,
                  sleeps := ctx.sleeps ++ ((List.range n).map (fun m => (1 : ℚ) * 2 ^ m)),
                  blockOutputs := setKv (setKv ctx.blockOutputs (normalizeName b.name)
                      (.obj [("error", .str en), ("retries", .int n)])) b.name
                      (.obj [("error", .str en), ("retries", .int n)]),
                  logs := ctx.logs ++
                    [(⟨b.id, b.name, b.type, ctx.clock, false,
                       .obj [("error", .str en), ("retries", .int n)], ctx.clock + 1⟩ : LogRecord)] },
               .obj [("error", .str en), ("retries", .int n)]))) := by
  refine ⟨?_, ?_, ?_⟩
  · intro e
    simp [isTransientMsg, containsSub, List.any_eq_true]
  · intro ext ext2 hagree ctx
    simp only [executeBlock, hhk]
    rw [attemptLoop_agree_aux ext ext2 b _ 3 0 _ ?_]
    intro c i _ hi
    cases hk <;> simp_all [dispatchHandler, hhk, hagree _ i (by omega : i < 3)]
  · intro ext h ctx hok hext n hn hprior
    have hd := dispatch_oracle b hk hhk hok ext h hext
    interval_cases n
    · constructor
      · intro v hv
        simp [executeBlock, hhk, attemptLoop, hd, hv]
      · intro en hen htr
        simp only [or_iff_left (by omega : ¬(0 = 2))] at htr
        simp [executeBlock, hhk, attemptLoop, hd, hen, htr]
    · obtain ⟨e0, he0, ht0⟩ := hprior 0 (by omega)
      constructor
      · intro v hv
        simp [executeBlock, hhk, attemptLoop, hd, he0, ht0, hv, List.range_succ]
      · intro en hen htr
        simp only [or_iff_left (by omega : ¬(1 = 2))] at htr
        simp [executeBlock, hhk, attemptLoop, hd, he0, ht0, hen, htr, List.range_succ]
    · obtain ⟨e0, he0, ht0⟩ := hprior 0 (by omega)
      obtain ⟨e1, he1, ht1⟩ := hprior 1 (by omega)
      constructor
      · intro v hv
        simp [executeBlock, hhk, attemptLoop, hd, he0, ht0, he1, ht1, hv, List.range_succ]
      · intro en hen htr
        rcases htr2 : isTransientMsg en with _ | _
        · simp [executeBlock, hhk, attemptLoop, hd, he0, ht0, he1, ht1, hen, htr2,
                List.range_succ]
        · simp [executeBlock, hhk, attemptLoop, hd, he0, ht0, he1, ht1, hen, htr2,
                List.range_succ]

/-- Witness for C4: an api block whose handler always raises a transient
connection error exhausts 3 attempts, sleeps 1 and 2 seconds, and ends
with (error, retries: 2). -/
theorem C4_retry_behaviour_witness :
    (executeBlock (fun _ _ _ _ => .error "connection reset") { inputs := [] }
        { id := "A", name := "A", type := "api" } =
      ({ inputs := [], clock := 2,
         sleeps := ((List.range 2).map (fun m => (1 : ℚ) * 2 ^ m)),
         blockOutputs :=
           [("a", .obj [("error", .str "connection reset"), ("retries", .int 2)]),
            ("A", .obj [("error", .str "connection reset"), ("retries", .int 2)])],
         logs := [⟨"A", "A", "api", 0, false,
                   .obj [("error", .str "connection reset"), ("retries", .int 2)], 1⟩] },
       .obj [("error", .str "connection reset"), ("retries", .int 2)])) ∧
    ((List.range 2).map (fun m => (1 : ℚ) * 2 ^ m)) = [1, 2] := by
  refine ⟨?_, by norm_num [List.range_succ]⟩
  have := (C4_retry_behaviour { id := "A", name := "A", type := "api" } .api rfl).2.2
    (fun _ _ _ _ => .error "connection reset") (fun _ => .error "connection reset")
    { inputs := [] } (Or.inr (Or.inr rfl)) (fun _ _ => rfl) 2 (by omega)
    (fun m _ => ⟨"connection reset", rfl, rfl⟩)
  have h2 := this.2 "connection reset" rfl (Or.inr rfl)
  rw [h2]
  rfl



theorem strmk_data (s : String) : String.mk s.data = s := rfl

theorem strmk_append (a b : List Char) : String.mk a ++ String.mk b = String.mk (a ++ b) := rfl

theorem matchSegs_gt (rest : List Char) (f : Nat) :
    matchSegs (f + 1) ('>' :: rest) = ([], '>' :: rest) := by
  simp [matchSegs]

theorem matchSegs_Xy (rest : List Char) (fuel : Nat) (h : 2 ≤ fuel) :
    matchSegs fuel ('.' :: 'y' :: '>' :: rest) = (['.', 'y'], '>' :: rest) := by
  match fuel, h with
  | f + 2, _ =>
      simp only [matchSegs, List.takeWhile, List.dropWhile,
        (by decide : isNameStart 'y' = true), (by decide : isNameChar '>' = false),
        if_true, if_false]
      simp [matchSegs_gt]

theorem matchRef_Xy (rest : List Char) :
    matchRefAfterLt ('X' :: '.' :: 'y' :: '>' :: rest) = Option.some ("X.y", rest) := by
  simp only [matchRefAfterLt, List.takeWhile, List.dropWhile,
    (by decide : isNameStart 'X' = true), (by decide : isNameChar '.' = false),
    if_true, if_false]
  rw [matchSegs_Xy rest _ (by simp [List.length])]
  rfl


/-- Lookup of the reference X.y under the round-trip hypotheses. -/
theorem lookupReference_Xy (ctx : Ctx) (kvs : List (String × Value)) (v : Value)
    (hbo : lookupKv ctx.blockOutputs "x" = Option.some (.obj kvs))
    (hkvs : kvs ≠ [])
    (hy : lookupKv kvs "y" = Option.some v) :
    lookupReference "X.y" ctx = v := by
  have hp : parsePath "X.y" = ["X", "y"] := rfl
  have hn : normalizeName "X" = "x" := rfl
  simp only [lookupReference, hp, hn]
  simp only [getKvD, hbo, Option.getD, pyOrV]
  have ht : pyTruthy (Value.obj kvs) = true := by
    cases kvs
    · exact absurd rfl hkvs
    · simp [pyTruthy]
  simp [ht, walkPath, getKvD, hy]

/-- Substitution leaves reference-free text unchanged. -/
theorem subRefs_noref (ctx : Ctx) :
    ∀ (cs : List Char) (fuel : Nat), cs.length ≤ fuel → '<' ∉ cs →
      subRefs ctx fuel cs = String.mk cs := by
  intro cs
  induction cs with
  | nil => intro fuel _ _; cases fuel <;> rfl
  | cons c rest ih =>
      intro fuel hf hlt
      obtain ⟨f, rfl⟩ : ∃ f, fuel = f + 1 := by
        cases fuel
        · simp at hf
        · exact ⟨_, rfl⟩
      have hc : ¬(c = '<') := by
        intro h; exact hlt (h ▸ List.mem_cons_self c rest)
      simp only [subRefs, hc, if_false]
      rw [ih f (by simp at hf ⊢; omega) (fun h => hlt (List.mem_cons_of_mem c h))]
      rfl

/-- Substitution replaces the single embedded reference and keeps the
surrounding text. -/
theorem subRefs_embedded (ctx : Ctx) (post : List Char) (hpost : '<' ∉ post) :
    ∀ (pre : List Char) (fuel : Nat),
      (pre ++ '<' :: 'X' :: '.' :: 'y' :: '>' :: post).length ≤ fuel → '<' ∉ pre →
      subRefs ctx fuel (pre ++ '<' :: 'X' :: '.' :: 'y' :: '>' :: post) =
        String.mk pre ++ embedStr (lookupReference "X.y" ctx) ++ String.mk post := by
  intro pre
  induction pre with
  | nil =>
      intro fuel hf _
      obtain ⟨f, rfl⟩ : ∃ f, fuel = f + 1 := by
        cases fuel
        · simp at hf
        · exact ⟨_, rfl⟩
      simp only [List.nil_append, subRefs, if_pos rfl, matchRef_Xy]
      rw [subRefs_noref ctx post f (by simp at hf; omega) hpost]
      rfl
  | cons c rest ih =>
      intro fuel hf hlt
      obtain ⟨f, rfl⟩ : ∃ f, fuel = f + 1 := by
        cases fuel
        · simp at hf
        · exact ⟨_, rfl⟩
      have hc : ¬(c = '<') := by
        intro h; exact hlt (h ▸ List.mem_cons_self c rest)
      simp only [List.cons_append, subRefs, hc, if_false]
      rw [ih f (by simp at hf ⊢; omega) (fun h => hlt (List.mem_cons_of_mem c h))]
      rfl


theorem dropWhile_head_false (p : Char → Bool) :
    ∀ (l : List Char) (h : Char) (t : List Char), l.dropWhile p = h :: t → p h = false := by
  intro l
  induction l with
  | nil => intro h t hd; simp [List.dropWhile] at hd
  | cons c rest ih =>
      intro h t hd
      rw [List.dropWhile] at hd
      cases hp : p c with
      | true => rw [hp] at hd; exact ih h t hd
      | false =>
          rw [hp] at hd
          injection hd with h1 _
          rw [← h1]
          exact hp

theorem rightStrip_cons (h : Char) (xs : List Char) (hh : isSpace h = false) :
    ∃ t2, ((h :: xs).reverse.dropWhile isSpace).reverse = h :: t2 := by
  rw [List.reverse_cons, List.dropWhile_append]
  cases he : (xs.reverse.dropWhile isSpace).isEmpty with
  | true =>
      refine ⟨[], ?_⟩
      simp [List.dropWhile, hh]
  | false =>
      refine ⟨(xs.reverse.dropWhile isSpace).reverse, ?_⟩
      simp [he]

theorem pyStrip_front_nonspace (pre rest : List Char) (hns : pre.all isSpace = false) :
    ∃ h t, pyStrip (pre ++ rest) = h :: t ∧ h ∈ pre ∧ isSpace h = false := by
  have hne : pre.dropWhile isSpace ≠ [] := by
    intro hnil
    rw [List.dropWhile_eq_nil_iff] at hnil
    rw [List.all_eq_true.mpr (by intro x hx; exact hnil x hx)] at hns
    simp at hns
  rcases hd : pre.dropWhile isSpace with _ | ⟨h, t1⟩
  · exact absurd hd hne
  have hh : isSpace h = false := dropWhile_head_false isSpace pre h t1 hd
  have hmem : h ∈ pre := by
    have hsuf := List.dropWhile_suffix (l := pre) isSpace
    rw [hd] at hsuf
    exact hsuf.subset (List.mem_cons_self h t1)
  unfold pyStrip
  rw [List.dropWhile_append, hd]
  simp only [List.isEmpty_cons, Bool.false_eq_true, if_false]
  obtain ⟨t2, ht2⟩ := rightStrip_cons h (t1 ++ rest) hh
  have hgoal : (List.dropWhile isSpace ((h :: t1) ++ rest).reverse).reverse = h :: t2 := by
    rw [List.cons_append]
    exact ht2
  exact ⟨h, t2, hgoal, hmem, hh⟩

theorem pyStrip_front_allspace (pre post : List Char) (hpre : pre.all isSpace = true)
    (hpost : post.all isSpace = false) :
    ∃ post2, post2 ≠ [] ∧
      pyStrip (pre ++ '<' :: 'X' :: '.' :: 'y' :: '>' :: post) =
        '<' :: 'X' :: '.' :: 'y' :: '>' :: post2 := by
  have hdp : pre.dropWhile isSpace = [] := by
    rw [List.dropWhile_eq_nil_iff]
    intro x hx
    exact List.all_eq_true.mp hpre x hx
  have hrv : post.reverse.all isSpace = false := by
    rcases hall : post.reverse.all isSpace with _ | _
    · rfl
    · rw [show post = post.reverse.reverse by simp, List.all_reverse, hall] at hpost
      simp at hpost
  have hne : post.reverse.dropWhile isSpace ≠ [] := by
    intro hnil
    rw [List.dropWhile_eq_nil_iff] at hnil
    rw [List.all_eq_true.mpr (by intro x hx; exact hnil x hx)] at hrv
    simp at hrv
  unfold pyStrip
  rw [List.dropWhile_append, hdp]
  simp only [List.isEmpty_nil, if_true]
  rw [show List.dropWhile isSpace ('<' :: 'X' :: '.' :: 'y' :: '>' :: post) =
        '<' :: 'X' :: '.' :: 'y' :: '>' :: post from by
    rw [List.dropWhile_cons]
    simp [(by decide : isSpace '<' = false)]]
  rw [show ('<' :: 'X' :: '.' :: 'y' :: '>' :: post).reverse =
        post.reverse ++ ['>', 'y', '.', 'X', '<'] by simp]
  rw [List.dropWhile_append]
  rw [show (post.reverse.dropWhile isSpace).isEmpty = false from by
    rcases hh : post.reverse.dropWhile isSpace with _ | _
    · exact absurd hh hne
    · simp]
  refine ⟨(post.reverse.dropWhile isSpace).reverse, ?_, ?_⟩
  · intro hnil
    rw [List.reverse_eq_nil_iff] at hnil
    exact hne hnil
  · simp


theorem matchFull_ne_lt (h : Char) (t : List Char) (hne : ¬(h = '<')) :
    matchFull (h :: t) = Option.none := by
  unfold matchFull
  split
  · rename_i heq
    injection heq with h1 _
    exact absurd h1 hne
  · rfl

theorem matchFull_trailing (post2 : List Char) (hne : post2 ≠ []) :
    matchFull ('<' :: 'X' :: '.' :: 'y' :: '>' :: post2) = Option.none := by
  have h1 : matchFull ('<' :: 'X' :: '.' :: 'y' :: '>' :: post2) =
      (match matchRefAfterLt ('X' :: '.' :: 'y' :: '>' :: post2) with
       | Option.some (path, []) => Option.some path
       | _ => Option.none) := rfl
  rw [h1, matchRef_Xy]
  cases post2 with
  | nil => exact absurd rfl hne
  | cons a b => rfl

/-- C1: resolver round-trip.  When blockOutputs["x"] = \x7by: v\x7d (as an
object with at least one key), (1) a string whose stripped content is
exactly the reference <X.y> resolves to the raw value v, and (2) the same
reference embedded between reference-free text pre/post (not both all
whitespace) resolves to the string pre ++ render(v) ++ post, where (3) the
rendering maps None to null, booleans to True/False, mappings and
sequences to their JSON text, integers to decimal text and strings to
themselves. -/
theorem C1_resolver_roundtrip (ctx : Ctx) (kvs : List (String × Value)) (v : Value)
    (hbo : lookupKv ctx.blockOutputs "x" = Option.some (.obj kvs))
    (hkvs : kvs ≠ [])
    (hy : lookupKv kvs "y" = Option.some v) :
    (∀ s : String, pyStrip s.data = "<X.y>".data → resolveString s ctx = v) ∧
    (∀ pre post : String, '<' ∉ pre.data → '<' ∉ post.data →
      ¬(pre.data.all isSpace = true ∧ post.data.all isSpace = true) →
      resolveString (pre ++ "<X.y>" ++ post) ctx = .str (pre ++ embedStr v ++ post)) ∧
    (embedStr .null = "null" ∧ embedStr (.bool true) = "True" ∧
      embedStr (.bool false) = "False" ∧ (∀ n : Int, embedStr (.int n) = toString n) ∧
      (∀ l, embedStr (.obj l) = jsonDumps (.obj l)) ∧
      (∀ l, embedStr (.list l) = jsonDumps (.list l)) ∧ (∀ s, embedStr (.str s) = s)) := by
  have hlook : lookupReference "X.y" ctx = v := lookupReference_Xy ctx kvs v hbo hkvs hy
  refine ⟨?_, ?_, rfl, rfl, rfl, fun _ => rfl, fun _ => rfl, fun _ => rfl, fun _ => rfl⟩
  · intro s hs
    unfold resolveString
    rw [hs]
    rw [show matchFull "<X.y>".data = Option.some "X.y" from rfl]
    exact hlook
  · intro pre post hpre hpost hnot
    have hdata : (pre ++ "<X.y>" ++ post).data =
        pre.data ++ '<' :: 'X' :: '.' :: 'y' :: '>' :: post.data := by
      simp [String.data_append]
    have hfull : matchFull (pyStrip (pre ++ "<X.y>" ++ post).data) = Option.none := by
      rw [hdata]
      cases hps : pre.data.all isSpace with
      | false =>
          obtain ⟨h, t, hst, hmem, _⟩ :=
            pyStrip_front_nonspace pre.data ('<' :: 'X' :: '.' :: 'y' :: '>' :: post.data) hps
          rw [hst]
          exact matchFull_ne_lt h t (fun he => hpre (he ▸ hmem))
      | true =>
          have hpsf : post.data.all isSpace = false := by
            cases hq : post.data.all isSpace with
            | false => rfl
            | true => exact absurd ⟨hps, hq⟩ hnot
          obtain ⟨post2, hne, hst⟩ := pyStrip_front_allspace pre.data post.data hps hpsf
          rw [hst]
          exact matchFull_trailing post2 hne
    unfold resolveString
    rw [hfull]
    show Value.str
        (subRefs ctx (pre ++ "<X.y>" ++ post).data.length (pre ++ "<X.y>" ++ post).data) = _
    rw [hdata]
    rw [subRefs_embedded ctx post.data hpost pre.data _ (le_refl _) hpre]
    rw [hlook, strmk_data, strmk_data]

theorem C1_resolver_roundtrip_witness :
    (lookupKv (Ctx.mk [] [("x", Value.obj [("y", Value.int 3)])] [] [] [] Option.none 0 []).blockOutputs "x"
      = Option.some (Value.obj [("y", Value.int 3)])) ∧
    resolveString "  <X.y> "
      (Ctx.mk [] [("x", Value.obj [("y", Value.int 3)])] [] [] [] Option.none 0 []) = Value.int 3 ∧
    resolveString ("a " ++ "<X.y>" ++ " b")
      (Ctx.mk [] [("x", Value.obj [("y", Value.int 3)])] [] [] [] Option.none 0 [])
      = Value.str ("a " ++ embedStr (Value.int 3) ++ " b") := by
  have h := C1_resolver_roundtrip
    (Ctx.mk [] [("x", Value.obj [("y", Value.int 3)])] [] [] [] Option.none 0 [])
    [("y", Value.int 3)] (Value.int 3) rfl (by simp) rfl
  exact ⟨rfl, h.1 "  <X.y> " (by decide), h.2.1 "a " " b" (by decide) (by decide) (by decide)⟩



theorem lookupP_setP (fs : Fs) (p q : PathC) (n : FNode) :
    lookupP (setP fs p n) q = if p = q then Option.some n else lookupP fs q := by
  induction fs with
  | nil => simp [setP, lookupP]
  | cons hd tl ih =>
      obtain ⟨a, m⟩ := hd
      simp only [setP]
      by_cases hap : a = p
      · subst hap
        simp only [if_pos rfl, lookupP]
        by_cases haq : a = q
        · simp [haq]
        · simp [haq]
      · simp only [if_neg hap, lookupP]
        by_cases haq : a = q
        · subst haq
          simp [if_neg (Ne.symm hap)]
        · simp [haq, ih]

/-- The step function of mkdirP, named for the foldl lemmas. -/
def mkdirStep (q : PathC) (st : Fs × List FsEff × Bool) (i : Nat) : Fs × List FsEff × Bool :=
  if st.2.2 then
    let pre := q.take (i + 1)
    match lookupP st.1 pre with
    | Option.some .dir => st
    | Option.some (.file _) => (st.1, st.2.1, false)
    | Option.none => (setP st.1 pre .dir, st.2.1 ++ [.mkdir pre], true)
  else st

theorem mkdirP_eq (fs : Fs) (q : PathC) :
    mkdirP fs q = (List.range q.length).foldl (mkdirStep q) (fs, [], true) := rfl

theorem take_of_append (ws r : List String) (n : Nat) (h : ws.length ≤ n) :
    (ws ++ r).take n = ws ++ r.take (n - ws.length) := by
  rw [List.take_append_eq_append_take, List.take_of_length_le h]

theorem mkdirP_inv (ws q : PathC) (hpre : ws <+: q) :
    ∀ (l : List Nat) (st : Fs × List FsEff × Bool),
      (∀ j, j < ws.length → lookupP st.1 (ws.take (j+1)) = Option.some .dir) →
      (∀ e ∈ st.2.1, ws <+: e.path) →
      (∀ j, j < ws.length →
        lookupP (l.foldl (mkdirStep q) st).1 (ws.take (j+1)) = Option.some .dir) ∧
      (∀ e ∈ (l.foldl (mkdirStep q) st).2.1, ws <+: e.path) := by
  intro l
  induction l with
  | nil => intro st h1 h2; exact ⟨h1, h2⟩
  | cons i rest ih =>
      intro st h1 h2
      rw [List.foldl_cons]
      apply ih
      · -- dirs invariant preserved by one step
        intro j hj
        unfold mkdirStep
        cases hok : st.2.2 with
        | false => simp only [hok, if_false]; exact h1 j hj
        | true =>
            simp only [hok, if_true]
            rcases hk : lookupP st.1 (q.take (i + 1)) with _ | n
            · simp only []
              rw [lookupP_setP]
              split
              · rfl
              · exact h1 j hj
            · cases n with
              | dir => simp only []; exact h1 j hj
              | file s => simp only []; exact h1 j hj
      · -- effects invariant preserved by one step
        intro e he
        unfold mkdirStep at he
        cases hok : st.2.2 with
        | false => rw [hok] at he; simp only [if_false] at he; exact h2 e he
        | true =>
            rw [hok] at he
            simp only [if_true] at he
            rcases hk : lookupP st.1 (q.take (i + 1)) with _ | n
            · rw [hk] at he
              simp only [List.mem_append, List.mem_singleton] at he
              rcases he with he | he
              · exact h2 e he
              · -- the new mkdir effect: its path has ws as a prefix
                subst he
                obtain ⟨r, rfl⟩ := hpre
                by_cases hlen : i + 1 ≤ ws.length
                · -- then the prefix is a prefix of ws, already a dir: contradiction
                  exfalso
                  have : (ws ++ r).take (i + 1) = ws.take (i + 1) := by
                    rw [List.take_append_eq_append_take,
                        Nat.sub_eq_zero_of_le hlen, List.take_zero, List.append_nil]
                  rw [this] at hk
                  rw [h1 i (by omega)] at hk
                  exact Option.noConfusion hk
                · show ws <+: (ws ++ r).take (i + 1)
                  rw [take_of_append ws r (i + 1) (by omega)]
                  exact ⟨_, rfl⟩
            · rw [hk] at he
              cases n with
              | dir => exact h2 e he
              | file s => simp only [] at he; exact h2 e he

/-- mkdir on a path whose every nonempty prefix is already a directory
changes nothing. -/
theorem mkdirP_noop (q : PathC) (fs : Fs)
    (h : ∀ j, j < q.length → lookupP fs (q.take (j+1)) = Option.some .dir) :
    mkdirP fs q = (fs, [], true) := by
  rw [mkdirP_eq]
  have : ∀ (l : List Nat), (∀ i ∈ l, i < q.length) →
      l.foldl (mkdirStep q) (fs, [], true) = (fs, [], true) := by
    intro l
    induction l with
    | nil => intro _; rfl
    | cons i rest ih =>
        intro hmem
        rw [List.foldl_cons]
        have hstep : mkdirStep q (fs, [], true) i = (fs, [], true) := by
          unfold mkdirStep
          simp only [if_true]
          rw [h i (hmem i (List.mem_cons_self i rest))]
        rw [hstep]
        exact ih (fun j hj => hmem j (List.mem_cons_of_mem i hj))
  exact this (List.range q.length) (fun i hi => List.mem_range.mp hi)

/-- All effects of mkdir below a path q extending the workspace stay below
the workspace (given the workspace path itself consists of directories). -/
theorem mkdirP_inside (ws q : PathC) (fs : Fs) (hpre : ws <+: q)
    (hws : ∀ j, j < ws.length → lookupP fs (ws.take (j+1)) = Option.some .dir) :
    ∀ e ∈ (mkdirP fs q).2.1, ws <+: e.path := by
  rw [mkdirP_eq]
  exact (mkdirP_inv ws q hpre (List.range q.length) (fs, [], true) hws
    (fun e he => absurd he (List.not_mem_nil e))).2

theorem safePathR_ok (ws : PathC) (p : RawPath) (r : PathC)
    (h : safePathR ws p = .ok r) : ws <+: r := by
  simp only [safePathR] at h
  by_cases hc : ws <+: normComps (if p.absolute then p.comps else ws ++ p.comps)
  · rw [if_pos hc] at h
    injection h with h1
    rw [← h1]
    exact hc
  · rw [if_neg hc] at h
    exact Except.noConfusion h

theorem safePathR_escape (ws : PathC) (p : RawPath)
    (h : ¬(ws <+: normComps (if p.absolute then p.comps else ws ++ p.comps))) :
    safePathR ws p = .error "Path escapes sandbox" := by
  simp only [safePathR]
  rw [if_neg h]

theorem mkdirP_parent_inside (ws p : PathC) (fs : Fs) (hp : ws <+: p)
    (hws : ∀ j, j < ws.length → lookupP fs (ws.take (j+1)) = Option.some .dir) :
    ∀ e ∈ (mkdirP fs p.dropLast).2.1, ws <+: e.path := by
  obtain ⟨r, rfl⟩ := hp
  cases r with
  | nil =>
      rw [List.append_nil]
      rw [mkdirP_noop]
      · intro e he
        exact absurd he (List.not_mem_nil e)
      · intro j hj
        rw [List.length_dropLast] at hj
        rw [List.dropLast_eq_take, List.take_take,
            (by omega : min (j + 1) (ws.length - 1) = j + 1)]
        exact hws j (by omega)
  | cons a r2 =>
      rw [show (ws ++ a :: r2).dropLast = ws ++ (a :: r2).dropLast from
            List.dropLast_append_of_ne_nil ws (by simp)]
      exact mkdirP_inside ws _ fs ⟨_, rfl⟩ hws

theorem writeFileTool_escape (ws : PathC) (mfs : Nat) (fs : Fs) (path : RawPath) (sz : Nat)
    (hws : ∀ j, j < ws.length → lookupP fs (ws.take (j+1)) = Option.some .dir)
    (hsz : ¬(mfs < sz))
    (hesc : ¬(ws <+: normComps (if path.absolute then path.comps else ws ++ path.comps))) :
    writeFileTool ⟨Option.some ws, mfs⟩ fs path sz =
      ({ success := false, error := Option.some "Path escapes sandbox" }, fs, []) := by
  simp only [writeFileTool, mkdirP_noop ws fs hws, safePathR_escape ws path hesc, hsz, if_false]
  rfl

theorem writeBytesTool_escape (ws : PathC) (mfs : Nat) (fs : Fs) (path : RawPath) (sz : Nat)
    (hws : ∀ j, j < ws.length → lookupP fs (ws.take (j+1)) = Option.some .dir)
    (hsz : ¬(mfs < sz))
    (hesc : ¬(ws <+: normComps (if path.absolute then path.comps else ws ++ path.comps))) :
    writeBytesTool ⟨Option.some ws, mfs⟩ fs path true sz =
      ({ success := false, error := Option.some "Path escapes sandbox" }, fs, []) := by
  simp only [writeBytesTool, mkdirP_noop ws fs hws, safePathR_escape ws path hesc, hsz, if_false]
  rfl

theorem appendFileTool_escape (ws : PathC) (mfs : Nat) (fs : Fs) (path : RawPath) (sz : Nat)
    (hws : ∀ j, j < ws.length → lookupP fs (ws.take (j+1)) = Option.some .dir)
    (hesc : ¬(ws <+: normComps (if path.absolute then path.comps else ws ++ path.comps))) :
    appendFileTool ⟨Option.some ws, mfs⟩ fs path sz =
      ({ success := false, error := Option.some "Path escapes sandbox" }, fs, []) := by
  simp only [appendFileTool, mkdirP_noop ws fs hws, safePathR_escape ws path hesc]
  rfl

theorem readFileTool_escape (ws : PathC) (mfs : Nat) (fs : Fs) (path : RawPath)
    (hws : ∀ j, j < ws.length → lookupP fs (ws.take (j+1)) = Option.some .dir)
    (hesc : ¬(ws <+: normComps (if path.absolute then path.comps else ws ++ path.comps))) :
    readFileTool ⟨Option.some ws, mfs⟩ fs path =
      ({ success := false, error := Option.some "Path escapes sandbox" }, fs, []) := by
  simp only [readFileTool, mkdirP_noop ws fs hws, safePathR_escape ws path hesc]
  rfl

theorem deleteFileTool_escape (ws : PathC) (mfs : Nat) (fs : Fs) (path : RawPath)
    (hws : ∀ j, j < ws.length → lookupP fs (ws.take (j+1)) = Option.some .dir)
    (hesc : ¬(ws <+: normComps (if path.absolute then path.comps else ws ++ path.comps))) :
    deleteFileTool ⟨Option.some ws, mfs⟩ fs path =
      ({ success := false, error := Option.some "Path escapes sandbox" }, fs, []) := by
  simp only [deleteFileTool, mkdirP_noop ws fs hws, safePathR_escape ws path hesc]
  rfl

theorem listDirectoryTool_escape (ws : PathC) (mfs : Nat) (fs : Fs) (path : RawPath)
    (hws : ∀ j, j < ws.length → lookupP fs (ws.take (j+1)) = Option.some .dir)
    (hesc : ¬(ws <+: normComps (if path.absolute then path.comps else ws ++ path.comps))) :
    listDirectoryTool ⟨Option.some ws, mfs⟩ fs path =
      ({ success := false, error := Option.some "Path escapes sandbox" }, fs, []) := by
  simp only [listDirectoryTool, mkdirP_noop ws fs hws, safePathR_escape ws path hesc]
  rfl

theorem writeFileTool_inside (ws : PathC) (mfs : Nat) (fs : Fs) (path : RawPath) (sz : Nat)
    (hws : ∀ j, j < ws.length → lookupP fs (ws.take (j+1)) = Option.some .dir) :
    ∀ e ∈ (writeFileTool ⟨Option.some ws, mfs⟩ fs path sz).2.2, ws <+: e.path := by
  simp only [writeFileTool, mkdirP_noop ws fs hws]
  by_cases hsz : mfs < sz
  · rw [if_pos hsz]
    intro e he
    exact absurd he (List.not_mem_nil e)
  · rw [if_neg hsz]
    rcases hsp : safePathR ws path with e0 | p
    · intro e he
      exact absurd he (List.not_mem_nil e)
    · have hp : ws <+: p := safePathR_ok ws path p hsp
      have heff : ∀ e ∈ (mkdirP fs p.dropLast).2.1, ws <+: e.path :=
        mkdirP_parent_inside ws p fs hp hws
      intro e he
      simp only [List.nil_append] at he
      cases hok : (mkdirP fs (List.dropLast p)).2.2 with
      | false =>
          rw [hok] at he
          simp at he
          exact heff e he
      | true =>
          rw [hok] at he
          simp only [Bool.not_true, Bool.false_eq_true, if_false] at he
          rcases hlk : lookupP (mkdirP fs (List.dropLast p)).1 p with _ | n
          · rw [hlk] at he
            simp at he
            rcases he with he | rfl
            · exact heff e he
            · exact hp
          · rw [hlk] at he
            cases n with
            | dir =>
                simp at he
                exact heff e he
            | file m =>
                simp at he
                rcases he with he | rfl
                · exact heff e he
                · exact hp

theorem writeBytesTool_inside (ws : PathC) (mfs : Nat) (fs : Fs) (path : RawPath)
    (dec : Bool) (sz : Nat)
    (hws : ∀ j, j < ws.length → lookupP fs (ws.take (j+1)) = Option.some .dir) :
    ∀ e ∈ (writeBytesTool ⟨Option.some ws, mfs⟩ fs path dec sz).2.2, ws <+: e.path := by
  simp only [writeBytesTool, mkdirP_noop ws fs hws]
  cases dec with
  | false =>
      intro e he
      exact absurd he (List.not_mem_nil e)
  | true =>
      simp only [Bool.not_true, Bool.false_eq_true, if_false]
      by_cases hsz : mfs < sz
      · rw [if_pos hsz]
        intro e he
        exact absurd he (List.not_mem_nil e)
      · rw [if_neg hsz]
        rcases hsp : safePathR ws path with e0 | p
        · intro e he
          exact absurd he (List.not_mem_nil e)
        · have hp : ws <+: p := safePathR_ok ws path p hsp
          have heff : ∀ e ∈ (mkdirP fs p.dropLast).2.1, ws <+: e.path :=
            mkdirP_parent_inside ws p fs hp hws
          intro e he
          simp only [List.nil_append] at he
          cases hok : (mkdirP fs (List.dropLast p)).2.2 with
          | false =>
              rw [hok] at he
              simp at he
              exact heff e he
          | true =>
              rw [hok] at he
              simp only [Bool.not_true, Bool.false_eq_true, if_false] at he
              rcases hlk : lookupP (mkdirP fs (List.dropLast p)).1 p with _ | n
              · rw [hlk] at he
                simp at he
                rcases he with he | rfl
                · exact heff e he
                · exact hp
              · rw [hlk] at he
                cases n with
                | dir =>
                    simp at he
                    exact heff e he
                | file m =>
                    simp at he
                    rcases he with he | rfl
                    · exact heff e he
                    · exact hp

theorem appendFileTool_inside (ws : PathC) (mfs : Nat) (fs : Fs) (path : RawPath) (sz : Nat)
    (hws : ∀ j, j < ws.length → lookupP fs (ws.take (j+1)) = Option.some .dir) :
    ∀ e ∈ (appendFileTool ⟨Option.some ws, mfs⟩ fs path sz).2.2, ws <+: e.path := by
  simp only [appendFileTool, mkdirP_noop ws fs hws]
  rcases hsp : safePathR ws path with e0 | p
  · intro e he
    exact absurd he (List.not_mem_nil e)
  · have hp : ws <+: p := safePathR_ok ws path p hsp
    have heff : ∀ e ∈ (mkdirP fs p.dropLast).2.1, ws <+: e.path :=
      mkdirP_parent_inside ws p fs hp hws
    intro e he
    simp only [Bool.not_true, Bool.false_eq_true, if_false, List.nil_append] at he
    repeat' split at he
    all_goals simp at he
    all_goals try exact heff e he
    all_goals
      rcases he with he | rfl
    all_goals try exact heff e he
    all_goals exact hp

theorem readFileTool_inside (ws : PathC) (mfs : Nat) (fs : Fs) (path : RawPath)
    (hws : ∀ j, j < ws.length → lookupP fs (ws.take (j+1)) = Option.some .dir) :
    ∀ e ∈ (readFileTool ⟨Option.some ws, mfs⟩ fs path).2.2, ws <+: e.path := by
  simp only [readFileTool, mkdirP_noop ws fs hws]
  rcases hsp : safePathR ws path with e0 | p
  · intro e he
    exact absurd he (List.not_mem_nil e)
  · intro e he
    simp only [Bool.not_true, Bool.false_eq_true, if_false, List.nil_append] at he
    repeat' split at he
    all_goals simp at he

theorem readBytesTool_inside (ws : PathC) (mfs : Nat) (fs : Fs) (path : RawPath)
    (hws : ∀ j, j < ws.length → lookupP fs (ws.take (j+1)) = Option.some .dir) :
    ∀ e ∈ (readBytesTool ⟨Option.some ws, mfs⟩ fs path).2.2, ws <+: e.path :=
  readFileTool_inside ws mfs fs path hws

theorem deleteFileTool_inside (ws : PathC) (mfs : Nat) (fs : Fs) (path : RawPath)
    (hws : ∀ j, j < ws.length → lookupP fs (ws.take (j+1)) = Option.some .dir) :
    ∀ e ∈ (deleteFileTool ⟨Option.some ws, mfs⟩ fs path).2.2, ws <+: e.path := by
  simp only [deleteFileTool, mkdirP_noop ws fs hws]
  rcases hsp : safePathR ws path with e0 | p
  · intro e he
    exact absurd he (List.not_mem_nil e)
  · have hp : ws <+: p := safePathR_ok ws path p hsp
    intro e he
    simp only [Bool.not_true, Bool.false_eq_true, if_false, List.nil_append] at he
    repeat' split at he
    all_goals simp at he
    all_goals subst he
    all_goals exact hp

theorem listDirectoryTool_inside (ws : PathC) (mfs : Nat) (fs : Fs) (path : RawPath)
    (hws : ∀ j, j < ws.length → lookupP fs (ws.take (j+1)) = Option.some .dir) :
    ∀ e ∈ (listDirectoryTool ⟨Option.some ws, mfs⟩ fs path).2.2, ws <+: e.path := by
  simp only [listDirectoryTool, mkdirP_noop ws fs hws]
  rcases hsp : safePathR ws path with e0 | p
  · intro e he
    exact absurd he (List.not_mem_nil e)
  · intro e he
    simp only [Bool.not_true, Bool.false_eq_true, if_false, List.nil_append] at he
    repeat' split at he
    all_goals simp at he

/-- C2: filesystem sandbox.  With WORKSPACE_DIR set to an existing
directory ws, (1) any tool call whose argument resolves outside the
workspace returns success=false with the escape error, leaves the
filesystem unchanged and performs no effect at all; (2) every filesystem
effect any of the seven tools ever performs (mkdir, write, append,
unlink) is on a path that has the workspace as a prefix. -/
theorem C2_filesystem_sandbox (ws : PathC) (mfs : Nat) (fs : Fs)
    (hws : ∀ j, j < ws.length → lookupP fs (ws.take (j+1)) = Option.some FNode.dir) :
    (∀ (path : RawPath) (sz : Nat),
      ¬(ws <+: normComps (if path.absolute then path.comps else ws ++ path.comps)) →
      ¬(mfs < sz) →
      writeFileTool ⟨Option.some ws, mfs⟩ fs path sz =
        ({ success := false, error := Option.some "Path escapes sandbox" }, fs, []) ∧
      writeBytesTool ⟨Option.some ws, mfs⟩ fs path true sz =
        ({ success := false, error := Option.some "Path escapes sandbox" }, fs, []) ∧
      appendFileTool ⟨Option.some ws, mfs⟩ fs path sz =
        ({ success := false, error := Option.some "Path escapes sandbox" }, fs, []) ∧
      readFileTool ⟨Option.some ws, mfs⟩ fs path =
        ({ success := false, error := Option.some "Path escapes sandbox" }, fs, []) ∧
      readBytesTool ⟨Option.some ws, mfs⟩ fs path =
        ({ success := false, error := Option.some "Path escapes sandbox" }, fs, []) ∧
      deleteFileTool ⟨Option.some ws, mfs⟩ fs path =
        ({ success := false, error := Option.some "Path escapes sandbox" }, fs, []) ∧
      listDirectoryTool ⟨Option.some ws, mfs⟩ fs path =
        ({ success := false, error := Option.some "Path escapes sandbox" }, fs, [])) ∧
    (∀ (path : RawPath) (sz : Nat) (dec : Bool),
      (∀ e ∈ (writeFileTool ⟨Option.some ws, mfs⟩ fs path sz).2.2, ws <+: e.path) ∧
      (∀ e ∈ (writeBytesTool ⟨Option.some ws, mfs⟩ fs path dec sz).2.2, ws <+: e.path) ∧
      (∀ e ∈ (appendFileTool ⟨Option.some ws, mfs⟩ fs path sz).2.2, ws <+: e.path) ∧
      (∀ e ∈ (readFileTool ⟨Option.some ws, mfs⟩ fs path).2.2, ws <+: e.path) ∧
      (∀ e ∈ (readBytesTool ⟨Option.some ws, mfs⟩ fs path).2.2, ws <+: e.path) ∧
      (∀ e ∈ (deleteFileTool ⟨Option.some ws, mfs⟩ fs path).2.2, ws <+: e.path) ∧
      (∀ e ∈ (listDirectoryTool ⟨Option.some ws, mfs⟩ fs path).2.2, ws <+: e.path)) := by
  constructor
  · intro path sz hesc hsz
    exact ⟨writeFileTool_escape ws mfs fs path sz hws hsz hesc,
           writeBytesTool_escape ws mfs fs path sz hws hsz hesc,
           appendFileTool_escape ws mfs fs path sz hws hesc,
           readFileTool_escape ws mfs fs path hws hesc,
           readFileTool_escape ws mfs fs path hws hesc,
           deleteFileTool_escape ws mfs fs path hws hesc,
           listDirectoryTool_escape ws mfs fs path hws hesc⟩
  · intro path sz dec
    exact ⟨writeFileTool_inside ws mfs fs path sz hws,
           writeBytesTool_inside ws mfs fs path dec sz hws,
           appendFileTool_inside ws mfs fs path sz hws,
           readFileTool_inside ws mfs fs path hws,
           readBytesTool_inside ws mfs fs path hws,
           deleteFileTool_inside ws mfs fs path hws,
           listDirectoryTool_inside ws mfs fs path hws⟩

theorem C2_filesystem_sandbox_witness :
    writeFileTool ⟨Option.some ["ws"], 100⟩ [(["ws"], FNode.dir)] ⟨false, ["..", "x"]⟩ 10 =
      ({ success := false, error := Option.some "Path escapes sandbox" },
       [(["ws"], FNode.dir)], []) ∧
    deleteFileTool ⟨Option.some ["ws"], 100⟩ [(["ws"], FNode.dir)] ⟨true, ["etc", "passwd"]⟩ =
      ({ success := false, error := Option.some "Path escapes sandbox" },
       [(["ws"], FNode.dir)], []) ∧
    (∀ e ∈ (writeFileTool ⟨Option.some ["ws"], 100⟩ [(["ws"], FNode.dir)]
        ⟨false, ["a", "b"]⟩ 10).2.2, ["ws"] <+: e.path) := by
  have h1 := C2_filesystem_sandbox ["ws"] 100 [(["ws"], FNode.dir)] (by decide)
  refine ⟨(h1.1 ⟨false, ["..", "x"]⟩ 10 (by decide) (by decide)).1,
          (h1.1 ⟨true, ["etc", "passwd"]⟩ 10 (by decide) (by decide)).2.2.2.2.2.1,
          (h1.2 ⟨false, ["a", "b"]⟩ 10 true).1⟩



/-- Times of admitted (passed) requests of a client, read off a run. -/
def passTimes (c : String) : List (Arrival × MwResult) → List Rat
  | [] => []
  | (a, r) :: rest =>
      if a.client = c ∧ r = MwResult.pass then a.now :: passTimes c rest
      else passTimes c rest

/-- Membership of a time in the half-open window (s, s + W]. -/
def inWindow (W s t : Rat) : Bool := decide (s < t ∧ t ≤ s + W)

theorem foldl_min_le (ts : List Rat) : ∀ t : Rat, ts.foldl min t ≤ t := by
  induction ts with
  | nil => intro t; exact le_refl t
  | cons x xs ih => intro t; exact le_trans (ih (min t x)) (min_le_left t x)

theorem getRetryAfter_bound (cfg : RLCfg) (hW : 0 < cfg.windowSeconds)
    (reqs : String → List Rat) (c : String) (tNow : Rat)
    (h : ∀ t ∈ reqs c, t ≤ tNow) :
    0 ≤ getRetryAfter cfg reqs c tNow ∧
      ((getRetryAfter cfg reqs c tNow : Int) : Rat) ≤ cfg.windowSeconds := by
  unfold getRetryAfter
  rcases hrc : reqs c with _ | ⟨t, ts⟩
  · exact ⟨le_refl 0, by simpa using hW.le⟩
  · have hmem : ∀ x ∈ t :: ts, x ≤ tNow := by rw [← hrc]; exact h
    have hold : ts.foldl min t ≤ tNow :=
      le_trans (foldl_min_le ts t) (hmem t (List.mem_cons_self t ts))
    have hqW : cfg.windowSeconds - (tNow - ts.foldl min t) ≤ cfg.windowSeconds := by linarith
    refine ⟨le_max_left 0 _, ?_⟩
    show ((max 0 (pyIntTrunc (cfg.windowSeconds - (tNow - ts.foldl min t))) : Int) : Rat) ≤
      cfg.windowSeconds
    by_cases h0 : 0 ≤ cfg.windowSeconds - (tNow - ts.foldl min t)
    · have ht : pyIntTrunc (cfg.windowSeconds - (tNow - ts.foldl min t)) =
          ⌊cfg.windowSeconds - (tNow - ts.foldl min t)⌋ := by
        simp [pyIntTrunc, h0]
      rw [ht]
      push_cast
      refine max_le hW.le ?_
      exact le_trans (Int.floor_le _) hqW
    · have ht : pyIntTrunc (cfg.windowSeconds - (tNow - ts.foldl min t)) ≤ 0 := by
        have hneg : ¬(0 ≤ cfg.windowSeconds - (tNow - ts.foldl min t)) := h0
        simp only [pyIntTrunc, hneg, if_false]
        have : (0 : Int) ≤ ⌊-(cfg.windowSeconds - (tNow - ts.foldl min t))⌋ :=
          Int.floor_nonneg.mpr (by linarith [lt_of_not_le h0])
        omega
      have hmax : max 0 (pyIntTrunc (cfg.windowSeconds - (tNow - ts.foldl min t))) = 0 :=
        max_eq_left ht
      rw [hmax]
      simpa using hW.le

theorem runMiddleware_cons (cfg : RLCfg) (mrs : Nat) (path : String) (a : Arrival)
    (rest : List Arrival) (reqs : String → List Rat) (r : MwResult)
    (reqs2 : String → List Rat)
    (hm : middleware cfg mrs path a.contentLength (Option.some a.client) reqs a.now a.tNow =
      (r, reqs2)) :
    (runMiddleware cfg mrs path (a :: rest) reqs).1 =
      r :: (runMiddleware cfg mrs path rest reqs2).1 := by
  simp [runMiddleware, hm]

theorem pruned_eq (W nc now : Rat) (l : List Rat) (hnc : nc ≤ now) :
    (l.filter (fun t => decide (nc - W < t))).filter (fun t => decide (now - W < t)) =
      l.filter (fun t => decide (now - W < t)) := by
  rw [List.filter_filter]
  apply List.filter_congr
  intro t ht
  by_cases hcut : now - W < t
  · have h2 : nc - W < t := lt_of_le_of_lt (by linarith) hcut
    simp [hcut, h2]
  · simp [hcut]

theorem filter_length_mono (l : List Rat) (p q : Rat → Bool)
    (h : ∀ t ∈ l, p t = true → q t = true) :
    (l.filter p).length ≤ (l.filter q).length := by
  induction l with
  | nil => simp
  | cons x xs ih =>
      have ih2 := ih (fun t ht => h t (List.mem_cons_of_mem x ht))
      simp only [List.filter_cons]
      cases hp : p x with
      | true =>
          rw [h x (List.mem_cons_self x xs) hp]
          simp only [eq_self_iff_true, if_true, List.length_cons]
          omega
      | false =>
          simp only [Bool.false_eq_true, if_false]
          cases hq : q x with
          | true =>
              simp only [eq_self_iff_true, if_true, List.length_cons]
              omega
          | false =>
              simp only [Bool.false_eq_true, if_false]
              exact ih2

theorem admission_step (cfg : RLCfg) (hW : 0 < cfg.windowSeconds)
    (reqs A : String → List Rat) (T : Rat) (a : Arrival)
    (hT : T < a.now) (htn : a.now ≤ a.tNow)
    (hinv : ∀ c, ∃ nc, nc ≤ T ∧
      reqs c = (A c).filter (fun t => decide (nc - cfg.windowSeconds < t)))
    (hbnd : ∀ c t, t ∈ A c → t ≤ T)
    (hP : ∀ c s, ((A c).filter (inWindow cfg.windowSeconds s)).length ≤ cfg.maxRequests) :
    ∃ (r0 : MwResult) (reqs2 A2 : String → List Rat),
      (if (isAllowed cfg reqs a.client a.now).1 then
         (MwResult.pass, (isAllowed cfg reqs a.client a.now).2)
       else
         (MwResult.rateLimited
            (getRetryAfter cfg (isAllowed cfg reqs a.client a.now).2 a.client a.tNow),
          (isAllowed cfg reqs a.client a.now).2)) = (r0, reqs2) ∧
      (∀ c, ∃ nc, nc ≤ a.now ∧
        reqs2 c = (A2 c).filter (fun t => decide (nc - cfg.windowSeconds < t))) ∧
      (∀ c t, t ∈ A2 c → t ≤ a.now) ∧
      (∀ c s, ((A2 c).filter (inWindow cfg.windowSeconds s)).length ≤ cfg.maxRequests) ∧
      (∀ c, (A2 c = A c ∧ ¬(a.client = c ∧ r0 = MwResult.pass)) ∨
            (c = a.client ∧ r0 = MwResult.pass ∧ A2 c = A c ++ [a.now])) ∧
      (r0 = MwResult.pass ∨
        ∃ ra, r0 = MwResult.rateLimited ra ∧ 0 ≤ ra ∧ ((ra : Int) : Rat) ≤ cfg.windowSeconds) := by
  obtain ⟨nc0, hnc0, hrc0⟩ := hinv a.client
  have hpr : (reqs a.client).filter (fun t => decide (a.now - cfg.windowSeconds < t)) =
      (A a.client).filter (fun t => decide (a.now - cfg.windowSeconds < t)) := by
    rw [hrc0]
    exact pruned_eq cfg.windowSeconds nc0 a.now (A a.client) (le_of_lt (lt_of_le_of_lt hnc0 hT))
  by_cases hfull : cfg.maxRequests ≤
      ((reqs a.client).filter (fun t => decide (a.now - cfg.windowSeconds < t))).length
  · -- denied: the pruned list already holds maxRequests entries
    have hia : isAllowed cfg reqs a.client a.now =
        (false, fun c => if c = a.client then
          (reqs a.client).filter (fun t => decide (a.now - cfg.windowSeconds < t)) else reqs c) := by
      simp [isAllowed, hfull]
    have harg : ∀ t ∈ (fun c => if c = a.client then
        (reqs a.client).filter (fun t => decide (a.now - cfg.windowSeconds < t)) else reqs c)
          a.client, t ≤ a.tNow := by
      simp only [eq_self_iff_true, if_true]
      intro t ht
      rw [hpr] at ht
      exact le_trans (hbnd a.client t (List.mem_of_mem_filter ht)) (le_trans hT.le htn)
    refine ⟨MwResult.rateLimited (getRetryAfter cfg
        (fun c => if c = a.client then
          (reqs a.client).filter (fun t => decide (a.now - cfg.windowSeconds < t)) else reqs c)
        a.client a.tNow),
      (fun c => if c = a.client then
        (reqs a.client).filter (fun t => decide (a.now - cfg.windowSeconds < t)) else reqs c),
      A, by rw [hia]; rfl, ?_, ?_, hP, ?_, ?_⟩
    · intro c
      by_cases hc : c = a.client
      · subst hc
        refine ⟨a.now, le_refl _, ?_⟩
        simp only [eq_self_iff_true, if_true]
        exact hpr
      · obtain ⟨nc, hnc, hc2⟩ := hinv c
        refine ⟨nc, le_trans hnc hT.le, ?_⟩
        simp only [if_neg hc]
        exact hc2
    · exact fun c t ht => le_trans (hbnd c t ht) hT.le
    · intro c
      exact Or.inl ⟨rfl, fun h => MwResult.noConfusion h.2⟩
    · exact Or.inr ⟨_, rfl,
        (getRetryAfter_bound cfg hW _ a.client a.tNow harg).1,
        (getRetryAfter_bound cfg hW _ a.client a.tNow harg).2⟩
  · -- allowed: record the new time
    have hia : isAllowed cfg reqs a.client a.now =
        (true, fun c => if c = a.client then
          (reqs a.client).filter (fun t => decide (a.now - cfg.windowSeconds < t)) ++ [a.now]
          else reqs c) := by
      simp [isAllowed, hfull]
    have hsingle : [a.now].filter (fun t => decide (a.now - cfg.windowSeconds < t)) = [a.now] := by
      simp [sub_lt_self a.now hW]
    refine ⟨MwResult.pass,
      (fun c => if c = a.client then
        (reqs a.client).filter (fun t => decide (a.now - cfg.windowSeconds < t)) ++ [a.now]
        else reqs c),
      fun c => if c = a.client then A c ++ [a.now] else A c,
      by rw [hia]; rfl, ?_, ?_, ?_, ?_, Or.inl rfl⟩
    · intro c
      by_cases hc : c = a.client
      · subst hc
        refine ⟨a.now, le_refl _, ?_⟩
        simp only [eq_self_iff_true, if_true]
        rw [hpr, List.filter_append, hsingle]
      · obtain ⟨nc, hnc, hc2⟩ := hinv c
        refine ⟨nc, le_trans hnc hT.le, ?_⟩
        simp only [if_neg hc]
        exact hc2
    · intro c t ht
      have ht2 : t ∈ (if c = a.client then A c ++ [a.now] else A c) := ht
      by_cases hc : c = a.client
      · rw [if_pos hc] at ht2
        rcases List.mem_append.mp ht2 with h1 | h1
        · exact le_trans (hbnd c t h1) hT.le
        · rw [List.mem_singleton.mp h1]
      · rw [if_neg hc] at ht2
        exact le_trans (hbnd c t ht2) hT.le
    · intro c s
      show ((if c = a.client then A c ++ [a.now] else A c).filter
        (inWindow cfg.windowSeconds s)).length ≤ cfg.maxRequests
      by_cases hc : c = a.client
      · subst hc
        rw [if_pos rfl]
        rw [List.filter_append, List.length_append]
        cases hwin : inWindow cfg.windowSeconds s a.now with
        | false =>
            rw [show [a.now].filter (inWindow cfg.windowSeconds s) = [] from by
              simp [List.filter, hwin]]
            simpa using hP a.client s
        | true =>
            rw [show [a.now].filter (inWindow cfg.windowSeconds s) = [a.now] from by
              simp [List.filter, hwin]]
            have hwin2 : s < a.now ∧ a.now ≤ s + cfg.windowSeconds := by
              have h4 := hwin
              unfold inWindow at h4
              exact of_decide_eq_true h4
            have hmono : ((A a.client).filter (inWindow cfg.windowSeconds s)).length ≤
                ((A a.client).filter (fun t => decide (a.now - cfg.windowSeconds < t))).length := by
              apply filter_length_mono
              intro t _ hpt
              have hpt2 : s < t ∧ t ≤ s + cfg.windowSeconds := by
                unfold inWindow at hpt
                exact of_decide_eq_true hpt
              exact decide_eq_true (by linarith [hpt2.1, hpt2.2, hwin2.1, hwin2.2])
            have hlt : ((A a.client).filter
                (fun t => decide (a.now - cfg.windowSeconds < t))).length <
                cfg.maxRequests := by
              rw [← hpr]
              omega
            simp only [List.length_singleton]
            omega
      · rw [if_neg hc]
        exact hP c s
    · intro c
      by_cases hc : c = a.client
      · exact Or.inr ⟨hc, rfl, if_pos hc⟩
      · exact Or.inl ⟨if_neg hc, fun h => hc h.1.symm⟩

theorem rlAssemble (cfg : RLCfg) (mrs : Nat) (path : String) (a : Arrival)
    (rest : List Arrival) (reqs reqs2 A A2 : String → List Rat) (r0 : MwResult)
    (hcons : (runMiddleware cfg mrs path (a :: rest) reqs).1 =
      r0 :: (runMiddleware cfg mrs path rest reqs2).1)
    (hA2 : ∀ c, (A2 c = A c ∧ ¬(a.client = c ∧ r0 = MwResult.pass)) ∨
            (c = a.client ∧ r0 = MwResult.pass ∧ A2 c = A c ++ [a.now]))
    (hr0 : r0 = MwResult.pass ∨
      ∃ ra, r0 = MwResult.rateLimited ra ∧ 0 ≤ ra ∧ ((ra : Int) : Rat) ≤ cfg.windowSeconds)
    (ih1 : ∀ c s, ((A2 c ++ passTimes c
        (rest.zip (runMiddleware cfg mrs path rest reqs2).1)).filter
        (inWindow cfg.windowSeconds s)).length ≤ cfg.maxRequests)
    (ih2 : ∀ ra, MwResult.rateLimited ra ∈ (runMiddleware cfg mrs path rest reqs2).1 →
        0 ≤ ra ∧ ((ra : Int) : Rat) ≤ cfg.windowSeconds)
    (ih3 : ∀ p ∈ rest.zip (runMiddleware cfg mrs path rest reqs2).1,
        (∀ n, p.1.contentLength = Option.some n → n ≤ mrs) →
        p.2 = MwResult.pass ∨ ∃ ra, p.2 = MwResult.rateLimited ra) :
    ((∀ c s, ((A c ++ passTimes c
          ((a :: rest).zip (runMiddleware cfg mrs path (a :: rest) reqs).1)).filter
          (inWindow cfg.windowSeconds s)).length ≤ cfg.maxRequests) ∧
     (∀ ra, MwResult.rateLimited ra ∈ (runMiddleware cfg mrs path (a :: rest) reqs).1 →
          0 ≤ ra ∧ ((ra : Int) : Rat) ≤ cfg.windowSeconds) ∧
     (∀ p ∈ (a :: rest).zip (runMiddleware cfg mrs path (a :: rest) reqs).1,
          (∀ n, p.1.contentLength = Option.some n → n ≤ mrs) →
          p.2 = MwResult.pass ∨ ∃ ra, p.2 = MwResult.rateLimited ra)) := by
  refine ⟨?_, ?_, ?_⟩
  · intro c s
    rw [hcons, List.zip_cons_cons]
    rcases hA2 c with ⟨hAe, hnp⟩ | ⟨hceq, hrp, hAe⟩
    · rw [show passTimes c ((a, r0) ::
          rest.zip (runMiddleware cfg mrs path rest reqs2).1) =
          passTimes c (rest.zip (runMiddleware cfg mrs path rest reqs2).1) from by
        simp [passTimes, hnp]]
      have h5 := ih1 c s
      rw [hAe] at h5
      exact h5
    · rw [show passTimes c ((a, r0) ::
          rest.zip (runMiddleware cfg mrs path rest reqs2).1) =
          a.now :: passTimes c (rest.zip (runMiddleware cfg mrs path rest reqs2).1) from by
        simp [passTimes, hceq.symm, hrp]]
      rw [List.append_cons, ← hAe]
      exact ih1 c s
  · intro ra hra
    rw [hcons] at hra
    rcases List.mem_cons.mp hra with heq | hmem
    · rcases hr0 with hps | ⟨ra2, hre, h0, hle⟩
      · rw [hps] at heq
        exact MwResult.noConfusion heq
      · rw [hre] at heq
        injection heq with h6
        rw [h6]
        exact ⟨h0, hle⟩
    · exact ih2 ra hmem
  · intro p hp hclen
    rw [hcons, List.zip_cons_cons] at hp
    rcases List.mem_cons.mp hp with heq | hmem
    · rcases hr0 with hps | ⟨ra2, hre, _, _⟩
      · left
        rw [heq, hps]
      · right
        exact ⟨ra2, by rw [heq, hre]⟩
    · exact ih3 p hmem hclen

theorem rlAux (cfg : RLCfg) (mrs : Nat) (path : String) (hW : 0 < cfg.windowSeconds)
    (hpath : ¬(path = "/health" ∨ path = "/ready")) :
    ∀ (as : List Arrival) (reqs A : String → List Rat) (T : Rat),
      List.Chain (· < ·) T (as.map Arrival.now) →
      (∀ a ∈ as, a.now ≤ a.tNow) →
      (∀ c, ∃ nc, nc ≤ T ∧
        reqs c = (A c).filter (fun t => decide (nc - cfg.windowSeconds < t))) →
      (∀ c t, t ∈ A c → t ≤ T) →
      (∀ c s, ((A c).filter (inWindow cfg.windowSeconds s)).length ≤ cfg.maxRequests) →
      ((∀ c s, ((A c ++ passTimes c (as.zip (runMiddleware cfg mrs path as reqs).1)).filter
            (inWindow cfg.windowSeconds s)).length ≤ cfg.maxRequests) ∧
       (∀ ra, MwResult.rateLimited ra ∈ (runMiddleware cfg mrs path as reqs).1 →
            0 ≤ ra ∧ ((ra : Int) : Rat) ≤ cfg.windowSeconds) ∧
       (∀ p ∈ as.zip (runMiddleware cfg mrs path as reqs).1,
            (∀ n, p.1.contentLength = Option.some n → n ≤ mrs) →
            p.2 = MwResult.pass ∨ ∃ ra, p.2 = MwResult.rateLimited ra)) := by
  intro as
  induction as with
  | nil =>
      intro reqs A T hch htn hinv hbnd hP
      refine ⟨?_, ?_, ?_⟩
      · intro c s
        simpa [runMiddleware, passTimes] using hP c s
      · intro ra hra
        simp [runMiddleware] at hra
      · intro p hp
        simp [runMiddleware] at hp
  | cons a rest ih =>
      intro reqs A T hch htn hinv hbnd hP
      rw [List.map_cons, List.chain_cons] at hch
      obtain ⟨hT, hch2⟩ := hch
      have htnh : a.now ≤ a.tNow := htn a (List.mem_cons_self a rest)
      have htn2 : ∀ b ∈ rest, b.now ≤ b.tNow := fun b hb => htn b (List.mem_cons_of_mem a hb)
      obtain ⟨r0, reqs2, A2, hV, hinv2, hbnd2, hP2, hA2, hr0⟩ :=
        admission_step cfg hW reqs A T a hT htnh hinv hbnd hP
      rcases hcl : a.contentLength with _ | n
      · have hm : middleware cfg mrs path a.contentLength (Option.some a.client) reqs
            a.now a.tNow = (r0, reqs2) := by
          rw [← hV]
          simp only [middleware, hcl]
          rw [if_neg hpath]
          rfl
        have hcons := runMiddleware_cons cfg mrs path a rest reqs r0 reqs2 hm
        have ihr := ih reqs2 A2 a.now hch2 htn2 hinv2 hbnd2 hP2
        exact rlAssemble cfg mrs path a rest reqs reqs2 A A2 r0 hcons hA2 hr0
          ihr.1 ihr.2.1 ihr.2.2
      · by_cases hn : mrs < n
        · -- request too large: 413, state unchanged
          have hm : middleware cfg mrs path a.contentLength (Option.some a.client) reqs
              a.now a.tNow = (MwResult.tooLarge mrs n, reqs) := by
            simp only [middleware, hcl]
            rw [if_neg hpath, if_pos hn]
          have hcons := runMiddleware_cons cfg mrs path a rest reqs _ reqs hm
          have hinv3 : ∀ c, ∃ nc, nc ≤ a.now ∧
              reqs c = (A c).filter (fun t => decide (nc - cfg.windowSeconds < t)) :=
            fun c => (hinv c).imp fun nc h => ⟨le_trans h.1 hT.le, h.2⟩
          have hbnd3 : ∀ c t, t ∈ A c → t ≤ a.now :=
            fun c t ht => le_trans (hbnd c t ht) hT.le
          have ihr := ih reqs A a.now hch2 htn2 hinv3 hbnd3 hP
          refine ⟨?_, ?_, ?_⟩
          · intro c s
            rw [hcons, List.zip_cons_cons]
            rw [show passTimes c ((a, MwResult.tooLarge mrs n) ::
                rest.zip (runMiddleware cfg mrs path rest reqs).1) =
                passTimes c (rest.zip (runMiddleware cfg mrs path rest reqs).1) from by
              simp [passTimes]]
            exact ihr.1 c s
          · intro ra hra
            rw [hcons] at hra
            rcases List.mem_cons.mp hra with heq | hmem
            · exact MwResult.noConfusion heq
            · exact ihr.2.1 ra hmem
          · intro p hp hclen
            rw [hcons, List.zip_cons_cons] at hp
            rcases List.mem_cons.mp hp with heq | hmem
            · exfalso
              have h7 : n ≤ mrs := by
                apply hclen
                rw [heq]
                exact hcl
              omega
            · exact ihr.2.2 p hmem hclen
        · have hm : middleware cfg mrs path a.contentLength (Option.some a.client) reqs
              a.now a.tNow = (r0, reqs2) := by
            rw [← hV]
            simp only [middleware, hcl]
            rw [if_neg hpath, if_neg hn]
            rfl
          have hcons := runMiddleware_cons cfg mrs path a rest reqs r0 reqs2 hm
          have ihr := ih reqs2 A2 a.now hch2 htn2 hinv2 hbnd2 hP2
          exact rlAssemble cfg mrs path a rest reqs reqs2 A A2 r0 hcons hA2 hr0
            ihr.1 ihr.2.1 ihr.2.2

/-- C3: the rate limiter is a sliding window.  For strictly increasing
arrival times on a non-health path, (1) within any window (s, s + W] at
most maxRequests requests of any client pass; (2) every 429 carries a
Retry-After between 0 and the window length; (3) a request within the
size limit is either admitted or rate-limited, so once the window holds
maxRequests admissions the next request of that client is answered 429. -/
theorem C3_rate_limit (cfg : RLCfg) (mrs : Nat) (path : String) (as : List Arrival)
    (t0 : Rat) (hW : 0 < cfg.windowSeconds)
    (hpath : ¬(path = "/health" ∨ path = "/ready"))
    (hord : List.Chain (· < ·) t0 (as.map Arrival.now))
    (htn : ∀ a ∈ as, a.now ≤ a.tNow) :
    (∀ c s, ((passTimes c (as.zip (runMiddleware cfg mrs path as (fun _ => [])).1)).filter
        (inWindow cfg.windowSeconds s)).length ≤ cfg.maxRequests) ∧
    (∀ ra, MwResult.rateLimited ra ∈ (runMiddleware cfg mrs path as (fun _ => [])).1 →
        0 ≤ ra ∧ ((ra : Int) : Rat) ≤ cfg.windowSeconds) ∧
    (∀ p ∈ as.zip (runMiddleware cfg mrs path as (fun _ => [])).1,
        (∀ n, p.1.contentLength = Option.some n → n ≤ mrs) →
        p.2 = MwResult.pass ∨ ∃ ra, p.2 = MwResult.rateLimited ra) := by
  have h := rlAux cfg mrs path hW hpath as (fun _ => []) (fun _ => []) t0 hord htn
    (fun c => ⟨t0, le_refl t0, rfl⟩) (fun c t ht => absurd ht (List.not_mem_nil t))
    (fun c s => by simp)
  exact ⟨fun c s => by simpa using h.1 c s, h.2.1, h.2.2⟩

theorem C3_rate_limit_witness :
    ((runMiddleware ⟨1, 10⟩ 1000 "/run"
        [⟨"ip", 1, 1, Option.none⟩, ⟨"ip", 2, 2, Option.none⟩, ⟨"ip", 3, 3, Option.none⟩]
        (fun _ => [])).1 =
      [MwResult.pass, MwResult.rateLimited 9, MwResult.rateLimited 8]) ∧
    (((passTimes "ip"
        ([⟨"ip", 1, 1, Option.none⟩, ⟨"ip", 2, 2, Option.none⟩,
          ⟨"ip", 3, 3, Option.none⟩].zip
          (runMiddleware ⟨1, 10⟩ 1000 "/run"
            [⟨"ip", 1, 1, Option.none⟩, ⟨"ip", 2, 2, Option.none⟩,
             ⟨"ip", 3, 3, Option.none⟩]
            (fun _ => [])).1)).filter (inWindow 10 0)).length ≤ 1) ∧
    (∀ ra, MwResult.rateLimited ra ∈ (runMiddleware ⟨1, 10⟩ 1000 "/run"
        [⟨"ip", 1, 1, Option.none⟩, ⟨"ip", 2, 2, Option.none⟩, ⟨"ip", 3, 3, Option.none⟩]
        (fun _ => [])).1 → 0 ≤ ra ∧ ((ra : Int) : Rat) ≤ (10 : Rat)) := by
  have h := C3_rate_limit ⟨1, 10⟩ 1000 "/run"
    [⟨"ip", 1, 1, Option.none⟩, ⟨"ip", 2, 2, Option.none⟩, ⟨"ip", 3, 3, Option.none⟩]
    0 (by norm_num) (by decide)
    (by
      simp only [List.map_cons, List.map_nil, List.chain_cons, List.Chain.nil, and_true]
      norm_num)
    (by
      intro a ha
      fin_cases ha <;> norm_num)
  exact ⟨by with_unfolding_all rfl, h.1 "ip" 0, h.2.1⟩



theorem variablesLoop_pres (ctx : Ctx) :
    ∀ (vars : List Value) (updated : List (String × Value)) (ctx2 : Ctx)
      (u : List (String × Value)),
      variablesLoop ctx vars updated = .ok (ctx2, u) →
      ctx2.logs = ctx.logs ∧ ctx2.clock = ctx.clock ∧
      ctx2.blockOutputs = ctx.blockOutputs ∧ ctx2.loopStates = ctx.loopStates ∧
      ctx2.currentLoopId = ctx.currentLoopId ∧ ctx2.sleeps = ctx.sleeps ∧
      ctx2.inputs = ctx.inputs := by
  intro vars
  induction vars generalizing ctx with
  | nil =>
      intro updated ctx2 u h
      unfold variablesLoop at h
      injection h with h1
      injection h1 with h2 h3
      rw [← h2]
      exact ⟨rfl, rfl, rfl, rfl, rfl, rfl, rfl⟩
  | cons var rest ih =>
      intro updated ctx2 u h
      unfold variablesLoop at h
      rcases var with _ | b | n | str | l | d
      · exact Except.noConfusion h
      · exact Except.noConfusion h
      · exact Except.noConfusion h
      · exact Except.noConfusion h
      · exact Except.noConfusion h
      · simp only [] at h
        by_cases ht : pyTruthy (getKvD d "variableName") = true
        · rw [if_pos ht] at h
          rcases hn : getKvD d "variableName" with _ | b2 | n2 | s2 | l2 | d2 <;> rw [hn] at h
          · exact Except.noConfusion h
          · exact Except.noConfusion h
          · exact Except.noConfusion h
          · have h2 : variablesLoop
                { ctx with workflowVariables := (setKv ctx.workflowVariables s2 (resolveValue ctx (getKvD d "value"))) }
                rest (setKv updated s2 (resolveValue ctx (getKvD d "value"))) = .ok (ctx2, u) := h
            exact ih { ctx with workflowVariables := (setKv ctx.workflowVariables s2 (resolveValue ctx (getKvD d "value"))) } _ ctx2 u h2
          · exact Except.noConfusion h
          · exact Except.noConfusion h
        · rw [if_neg ht] at h
          exact ih ctx updated ctx2 u h

theorem dispatchHandler_pres (ext : ExtO) (ctx : Ctx) (b : Block)
    (inputs : List (String × Value)) (attempt : Nat) :
    (dispatchHandler ext ctx b inputs attempt).1.logs = ctx.logs ∧
    (dispatchHandler ext ctx b inputs attempt).1.clock = ctx.clock := by
  unfold dispatchHandler
  rcases hk : getHandlerKind b with _ | k
  · exact ⟨rfl, rfl⟩
  · cases k with
    | start => exact ⟨rfl, rfl⟩
    | condition => exact ⟨rfl, rfl⟩
    | response => exact ⟨rfl, rfl⟩
    | agent => exact ⟨rfl, rfl⟩
    | function => exact ⟨rfl, rfl⟩
    | api => exact ⟨rfl, rfl⟩
    | «variables» =>
        show (variablesExecute ctx inputs).1.logs = ctx.logs ∧
          (variablesExecute ctx inputs).1.clock = ctx.clock
        unfold variablesExecute
        split
        · split
          · rename_i ctx2 u hvl
            obtain ⟨h1, h2, _⟩ := variablesLoop_pres ctx _ [] ctx2 u hvl
            exact ⟨h1, h2⟩
          · exact ⟨rfl, rfl⟩
        · split
          · exact ⟨rfl, rfl⟩
          · exact ⟨rfl, rfl⟩
        · split
          · exact ⟨rfl, rfl⟩
          · exact ⟨rfl, rfl⟩
        · exact ⟨rfl, rfl⟩
        · exact ⟨rfl, rfl⟩

theorem attemptLoop_pres (ext : ExtO) (b : Block) (inputs : List (String × Value)) :
    ∀ (fuel attempt : Nat) (ctx : Ctx),
      (attemptLoop ext b inputs fuel attempt ctx).1.logs = ctx.logs ∧
      (attemptLoop ext b inputs fuel attempt ctx).1.clock = ctx.clock := by
  intro fuel
  induction fuel with
  | zero => intro attempt ctx; exact ⟨rfl, rfl⟩
  | succ f ih =>
      intro attempt ctx
      unfold attemptLoop
      rcases hd : dispatchHandler ext ctx b inputs attempt with ⟨ctx2, res⟩
      have hp := dispatchHandler_pres ext ctx b inputs attempt
      rw [hd] at hp
      rcases res with e | v
      · simp only []
        by_cases htr : isTransientMsg e = true ∧ attempt < 3 - 1
        · rw [if_pos htr]
          have h2 := ih (attempt + 1) { ctx2 with sleeps := ctx2.sleeps ++ [(1 : ℚ) * 2 ^ attempt] }
          exact ⟨h2.1.trans hp.1, h2.2.trans hp.2⟩
        · rw [if_neg htr]
          exact hp
      · exact hp

/-- The _loop metadata injection of _execute_block (the resolved inputs
gain the _loop entry when executing inside a loop). -/
def riLoopInject (ctx : Ctx) (ri : List (String × Value)) : List (String × Value) :=
  match ctx.currentLoopId with
  | Option.some lid =>
      if lid.length != 0 then
        match lookupLS ctx.loopStates lid with
        | Option.some ls =>
            setKv ri "_loop" (.obj [("index", .int ls.iteration),
                                    ("item", ls.currentItem),
                                    ("items", .list ls.items)])
        | Option.none => ri
      else ri
  | Option.none => ri

theorem executeBlock_eq (ext : ExtO) (ctx : Ctx) (b : Block) (k : HKind)
    (hk : getHandlerKind b = Option.some k) :
    executeBlock ext ctx b =
      (let ri := riLoopInject ctx (resolveObjList ctx b.inputs)
       let r := attemptLoop ext b ri 3 0 { ctx with clock := ctx.clock + 1 }
       ({ r.1 with
          clock := r.1.clock + 1,
          blockOutputs := setKv (setKv r.1.blockOutputs (normalizeName b.name) r.2.1)
            b.name r.2.1,
          logs := r.1.logs ++
            [⟨b.id, b.name, b.type, ctx.clock, r.2.2, r.2.1, r.1.clock⟩] }, r.2.1)) := by
  unfold executeBlock
  rw [hk]
  rfl

theorem executeBlock_unhandled (ext : ExtO) (ctx : Ctx) (b : Block)
    (hk : getHandlerKind b = Option.none) :
    executeBlock ext ctx b =
      (ctx, .obj [("error", .str ("No handler for block type: " ++ b.type))]) := by
  unfold executeBlock
  rw [hk]

theorem executeBlock_logs (ext : ExtO) (ctx : Ctx) (b : Block) :
    ∃ new, (executeBlock ext ctx b).1.logs = ctx.logs ++ new ∧
      ∀ rec ∈ new, rec.blockId = b.id ∧ rec.startedAt ≤ rec.endedAt := by
  rcases hk : getHandlerKind b with _ | k
  · refine ⟨[], ?_, by simp⟩
    rw [executeBlock_unhandled ext ctx b hk, List.append_nil]
  · rw [executeBlock_eq ext ctx b k hk]
    have hp := attemptLoop_pres ext b (riLoopInject ctx (resolveObjList ctx b.inputs)) 3 0
      { ctx with clock := ctx.clock + 1 }
    refine ⟨[⟨b.id, b.name, b.type, ctx.clock,
      (attemptLoop ext b (riLoopInject ctx (resolveObjList ctx b.inputs)) 3 0
        { ctx with clock := ctx.clock + 1 }).2.2,
      (attemptLoop ext b (riLoopInject ctx (resolveObjList ctx b.inputs)) 3 0
        { ctx with clock := ctx.clock + 1 }).2.1,
      (attemptLoop ext b (riLoopInject ctx (resolveObjList ctx b.inputs)) 3 0
        { ctx with clock := ctx.clock + 1 }).1.clock⟩], ?_, ?_⟩
    · show (attemptLoop ext b (riLoopInject ctx (resolveObjList ctx b.inputs)) 3 0
          { ctx with clock := ctx.clock + 1 }).1.logs ++ _ = _
      rw [hp.1]
    · intro rec hrec
      rw [List.mem_singleton] at hrec
      subst hrec
      refine ⟨rfl, ?_⟩
      show ctx.clock ≤ (attemptLoop ext b (riLoopInject ctx (resolveObjList ctx b.inputs)) 3 0
          { ctx with clock := ctx.clock + 1 }).1.clock
      rw [hp.2]
      exact Nat.le_succ ctx.clock

theorem lookupBlock_mem : ∀ (l : List (String × Block)) (key : String) (b : Block),
    lookupBlock l key = Option.some b → (key, b) ∈ l := by
  intro l
  induction l with
  | nil => intro key b h; exact Option.noConfusion h
  | cons kv rest ih =>
      intro key b h
      obtain ⟨k, c⟩ := kv
      unfold lookupBlock at h
      by_cases hk : k = key
      · rw [if_pos hk] at h
        injection h with h1
        subst hk
        subst h1
        exact List.mem_cons_self _ _
      · rw [if_neg hk] at h
        exact List.mem_cons_of_mem _ (ih key b h)

theorem loopChildrenPass_logs (ext : ExtO) (blocks : List (String × Block)) :
    ∀ (cids : List String) (ctx : Ctx) (acc : List (String × Value)),
      ∃ new, (loopChildrenPass ext blocks cids ctx acc).1.logs = ctx.logs ++ new ∧
        ∀ rec ∈ new, rec.startedAt ≤ rec.endedAt ∧
          ∃ cid ∈ cids, ∃ cb, lookupBlock blocks cid = Option.some cb ∧ rec.blockId = cb.id := by
  intro cids
  induction cids with
  | nil =>
      intro ctx acc
      exact ⟨[], by simp [loopChildrenPass], by simp⟩
  | cons cid rest ih =>
      intro ctx acc
      rcases hc : lookupBlock blocks cid with _ | cb
      · have he : loopChildrenPass ext blocks (cid :: rest) ctx acc =
            loopChildrenPass ext blocks rest ctx acc := by
          conv_lhs => unfold loopChildrenPass
          rw [hc]
        rw [he]
        obtain ⟨new, h1, h2⟩ := ih ctx acc
        refine ⟨new, h1, ?_⟩
        intro rec hrec
        obtain ⟨ht, cid2, hcid2, cb2, hcb2, hid⟩ := h2 rec hrec
        exact ⟨ht, cid2, List.mem_cons_of_mem cid hcid2, cb2, hcb2, hid⟩
      · have he : loopChildrenPass ext blocks (cid :: rest) ctx acc =
            loopChildrenPass ext blocks rest (executeBlock ext ctx cb).1
              (setKv acc cb.name (executeBlock ext ctx cb).2) := by
          conv_lhs => unfold loopChildrenPass
          rw [hc]
        rw [he]
        obtain ⟨new1, hb1, hb2⟩ := executeBlock_logs ext ctx cb
        obtain ⟨new2, h1, h2⟩ := ih (executeBlock ext ctx cb).1
          (setKv acc cb.name (executeBlock ext ctx cb).2)
        refine ⟨new1 ++ new2, ?_, ?_⟩
        · rw [h1, hb1, List.append_assoc]
        · intro rec hrec
          rcases List.mem_append.mp hrec with hm | hm
          · obtain ⟨hid, ht⟩ := hb2 rec hm
            exact ⟨ht, cid, List.mem_cons_self cid rest, cb, hc, hid⟩
          · obtain ⟨ht, cid2, hcid2, cb2, hcb2, hid⟩ := h2 rec hm
            exact ⟨ht, cid2, List.mem_cons_of_mem cid hcid2, cb2, hcb2, hid⟩

theorem runLoopIters_succ (ext : ExtO) (blocks : List (String × Block))
    (childOrder : List String) (loopId : String) (f : Nat) (ctx : Ctx) (allRes : List Value) :
    runLoopIters ext blocks childOrder loopId (f + 1) ctx allRes =
      (if shouldContinueLoop ((lookupLS ctx.loopStates loopId).getD default) ctx then
        (if ({ ((lookupLS (loopChildrenPass ext blocks childOrder ({ ctx with loopStates := (setLS ctx.loopStates loopId (if pyEq ((lookupLS ctx.loopStates loopId).getD default).loopType (.str "forEach") ∧ ((lookupLS ctx.loopStates loopId).getD default).iteration < (((lookupLS ctx.loopStates loopId).getD default).items.length : Int) then { ((lookupLS ctx.loopStates loopId).getD default) with currentItem := ((lookupLS ctx.loopStates loopId).getD default).items.getD ((lookupLS ctx.loopStates loopId).getD default).iteration.toNat .null } else ((lookupLS ctx.loopStates loopId).getD default))) } : Ctx) []).1.loopStates loopId).getD default) with iterationOutputs := (((lookupLS (loopChildrenPass ext blocks childOrder ({ ctx with loopStates := (setLS ctx.loopStates loopId (if pyEq ((lookupLS ctx.loopStates loopId).getD default).loopType (.str "forEach") ∧ ((lookupLS ctx.loopStates loopId).getD default).iteration < (((lookupLS ctx.loopStates loopId).getD default).items.length : Int) then { ((lookupLS ctx.loopStates loopId).getD default) with currentItem := ((lookupLS ctx.loopStates loopId).getD default).items.getD ((lookupLS ctx.loopStates loopId).getD default).iteration.toNat .null } else ((lookupLS ctx.loopStates loopId).getD default))) } : Ctx) []).1.loopStates loopId).getD default).iterationOutputs ++ [(loopChildrenPass ext blocks childOrder ({ ctx with loopStates := (setLS ctx.loopStates loopId (if pyEq ((lookupLS ctx.loopStates loopId).getD default).loopType (.str "forEach") ∧ ((lookupLS ctx.loopStates loopId).getD default).iteration < (((lookupLS ctx.loopStates loopId).getD default).items.length : Int) then { ((lookupLS ctx.loopStates loopId).getD default) with currentItem := ((lookupLS ctx.loopStates loopId).getD default).items.getD ((lookupLS ctx.loopStates loopId).getD default).iteration.toNat .null } else ((lookupLS ctx.loopStates loopId).getD default))) } : Ctx) []).2]), iteration := (((lookupLS (loopChildrenPass ext blocks childOrder ({ ctx with loopStates := (setLS ctx.loopStates loopId (if pyEq ((lookupLS ctx.loopStates loopId).getD default).loopType (.str "forEach") ∧ ((lookupLS ctx.loopStates loopId).getD default).iteration < (((lookupLS ctx.loopStates loopId).getD default).items.length : Int) then { ((lookupLS ctx.loopStates loopId).getD default) with currentItem := ((lookupLS ctx.loopStates loopId).getD default).items.getD ((lookupLS ctx.loopStates loopId).getD default).iteration.toNat .null } else ((lookupLS ctx.loopStates loopId).getD default))) } : Ctx) []).1.loopStates loopId).getD default).iteration + 1) } : LoopState).iteration ≥ MAX_LOOP_ITERATIONS then (({ (loopChildrenPass ext blocks childOrder ({ ctx with loopStates := (setLS ctx.loopStates loopId (if pyEq ((lookupLS ctx.loopStates loopId).getD default).loopType (.str "forEach") ∧ ((lookupLS ctx.loopStates loopId).getD default).iteration < (((lookupLS ctx.loopStates loopId).getD default).items.length : Int) then { ((lookupLS ctx.loopStates loopId).getD default) with currentItem := ((lookupLS ctx.loopStates loopId).getD default).items.getD ((lookupLS ctx.loopStates loopId).getD default).iteration.toNat .null } else ((lookupLS ctx.loopStates loopId).getD default))) } : Ctx) []).1 with loopStates := (setLS (loopChildrenPass ext blocks childOrder ({ ctx with loopStates := (setLS ctx.loopStates loopId (if pyEq ((lookupLS ctx.loopStates loopId).getD default).loopType (.str "forEach") ∧ ((lookupLS ctx.loopStates loopId).getD default).iteration < (((lookupLS ctx.loopStates loopId).getD default).items.length : Int) then { ((lookupLS ctx.loopStates loopId).getD default) with currentItem := ((lookupLS ctx.loopStates loopId).getD default).items.getD ((lookupLS ctx.loopStates loopId).getD default).iteration.toNat .null } else ((lookupLS ctx.loopStates loopId).getD default))) } : Ctx) []).1.loopStates loopId ({ ((lookupLS (loopChildrenPass ext blocks childOrder ({ ctx with loopStates := (setLS ctx.loopStates loopId (if pyEq ((lookupLS ctx.loopStates loopId).getD default).loopType (.str "forEach") ∧ ((lookupLS ctx.loopStates loopId).getD default).iteration < (((lookupLS ctx.loopStates loopId).getD default).items.length : Int) then { ((lookupLS ctx.loopStates loopId).getD default) with currentItem := ((lookupLS ctx.loopStates loopId).getD default).items.getD ((lookupLS ctx.loopStates loopId).getD default).iteration.toNat .null } else ((lookupLS ctx.loopStates loopId).getD default))) } : Ctx) []).1.loopStates loopId).getD default) with iterationOutputs := (((lookupLS (loopChildrenPass ext blocks childOrder ({ ctx with loopStates := (setLS ctx.loopStates loopId (if pyEq ((lookupLS ctx.loopStates loopId).getD default).loopType (.str "forEach") ∧ ((lookupLS ctx.loopStates loopId).getD default).iteration < (((lookupLS ctx.loopStates loopId).getD default).items.length : Int) then { ((lookupLS ctx.loopStates loopId).getD default) with currentItem := ((lookupLS ctx.loopStates loopId).getD default).items.getD ((lookupLS ctx.loopStates loopId).getD default).iteration.toNat .null } else ((lookupLS ctx.loopStates loopId).getD default))) } : Ctx) []).1.loopStates loopId).getD default).iterationOutputs ++ [(loopChildrenPass ext blocks childOrder ({ ctx with loopStates := (setLS ctx.loopStates loopId (if pyEq ((lookupLS ctx.loopStates loopId).getD default).loopType (.str "forEach") ∧ ((lookupLS ctx.loopStates loopId).getD default).iteration < (((lookupLS ctx.loopStates loopId).getD default).items.length : Int) then { ((lookupLS ctx.loopStates loopId).getD default) with currentItem := ((lookupLS ctx.loopStates loopId).getD default).items.getD ((lookupLS ctx.loopStates loopId).getD default).iteration.toNat .null } else ((lookupLS ctx.loopStates loopId).getD default))) } : Ctx) []).2]), iteration := (((lookupLS (loopChildrenPass ext blocks childOrder ({ ctx with loopStates := (setLS ctx.loopStates loopId (if pyEq ((lookupLS ctx.loopStates loopId).getD default).loopType (.str "forEach") ∧ ((lookupLS ctx.loopStates loopId).getD default).iteration < (((lookupLS ctx.loopStates loopId).getD default).items.length : Int) then { ((lookupLS ctx.loopStates loopId).getD default) with currentItem := ((lookupLS ctx.loopStates loopId).getD default).items.getD ((lookupLS ctx.loopStates loopId).getD default).iteration.toNat .null } else ((lookupLS ctx.loopStates loopId).getD default))) } : Ctx) []).1.loopStates loopId).getD default).iteration + 1) } : LoopState)) } : Ctx), allRes ++ [.obj (loopChildrenPass ext blocks childOrder ({ ctx with loopStates := (setLS ctx.loopStates loopId (if pyEq ((lookupLS ctx.loopStates loopId).getD default).loopType (.str "forEach") ∧ ((lookupLS ctx.loopStates loopId).getD default).iteration < (((lookupLS ctx.loopStates loopId).getD default).items.length : Int) then { ((lookupLS ctx.loopStates loopId).getD default) with currentItem := ((lookupLS ctx.loopStates loopId).getD default).items.getD ((lookupLS ctx.loopStates loopId).getD default).iteration.toNat .null } else ((lookupLS ctx.loopStates loopId).getD default))) } : Ctx) []).2])
         else runLoopIters ext blocks childOrder loopId f ({ (loopChildrenPass ext blocks childOrder ({ ctx with loopStates := (setLS ctx.loopStates loopId (if pyEq ((lookupLS ctx.loopStates loopId).getD default).loopType (.str "forEach") ∧ ((lookupLS ctx.loopStates loopId).getD default).iteration < (((lookupLS ctx.loopStates loopId).getD default).items.length : Int) then { ((lookupLS ctx.loopStates loopId).getD default) with currentItem := ((lookupLS ctx.loopStates loopId).getD default).items.getD ((lookupLS ctx.loopStates loopId).getD default).iteration.toNat .null } else ((lookupLS ctx.loopStates loopId).getD default))) } : Ctx) []).1 with loopStates := (setLS (loopChildrenPass ext blocks childOrder ({ ctx with loopStates := (setLS ctx.loopStates loopId (if pyEq ((lookupLS ctx.loopStates loopId).getD default).loopType (.str "forEach") ∧ ((lookupLS ctx.loopStates loopId).getD default).iteration < (((lookupLS ctx.loopStates loopId).getD default).items.length : Int) then { ((lookupLS ctx.loopStates loopId).getD default) with currentItem := ((lookupLS ctx.loopStates loopId).getD default).items.getD ((lookupLS ctx.loopStates loopId).getD default).iteration.toNat .null } else ((lookupLS ctx.loopStates loopId).getD default))) } : Ctx) []).1.loopStates loopId ({ ((lookupLS (loopChildrenPass ext blocks childOrder ({ ctx with loopStates := (setLS ctx.loopStates loopId (if pyEq ((lookupLS ctx.loopStates loopId).getD default).loopType (.str "forEach") ∧ ((lookupLS ctx.loopStates loopId).getD default).iteration < (((lookupLS ctx.loopStates loopId).getD default).items.length : Int) then { ((lookupLS ctx.loopStates loopId).getD default) with currentItem := ((lookupLS ctx.loopStates loopId).getD default).items.getD ((lookupLS ctx.loopStates loopId).getD default).iteration.toNat .null } else ((lookupLS ctx.loopStates loopId).getD default))) } : Ctx) []).1.loopStates loopId).getD default) with iterationOutputs := (((lookupLS (loopChildrenPass ext blocks childOrder ({ ctx with loopStates := (setLS ctx.loopStates loopId (if pyEq ((lookupLS ctx.loopStates loopId).getD default).loopType (.str "forEach") ∧ ((lookupLS ctx.loopStates loopId).getD default).iteration < (((lookupLS ctx.loopStates loopId).getD default).items.length : Int) then { ((lookupLS ctx.loopStates loopId).getD default) with currentItem := ((lookupLS ctx.loopStates loopId).getD default).items.getD ((lookupLS ctx.loopStates loopId).getD default).iteration.toNat .null } else ((lookupLS ctx.loopStates loopId).getD default))) } : Ctx) []).1.loopStates loopId).getD default).iterationOutputs ++ [(loopChildrenPass ext blocks childOrder ({ ctx with loopStates := (setLS ctx.loopStates loopId (if pyEq ((lookupLS ctx.loopStates loopId).getD default).loopType (.str "forEach") ∧ ((lookupLS ctx.loopStates loopId).getD default).iteration < (((lookupLS ctx.loopStates loopId).getD default).items.length : Int) then { ((lookupLS ctx.loopStates loopId).getD default) with currentItem := ((lookupLS ctx.loopStates loopId).getD default).items.getD ((lookupLS ctx.loopStates loopId).getD default).iteration.toNat .null } else ((lookupLS ctx.loopStates loopId).getD default))) } : Ctx) []).2]), iteration := (((lookupLS (loopChildrenPass ext blocks childOrder ({ ctx with loopStates := (setLS ctx.loopStates loopId (if pyEq ((lookupLS ctx.loopStates loopId).getD default).loopType (.str "forEach") ∧ ((lookupLS ctx.loopStates loopId).getD default).iteration < (((lookupLS ctx.loopStates loopId).getD default).items.length : Int) then { ((lookupLS ctx.loopStates loopId).getD default) with currentItem := ((lookupLS ctx.loopStates loopId).getD default).items.getD ((lookupLS ctx.loopStates loopId).getD default).iteration.toNat .null } else ((lookupLS ctx.loopStates loopId).getD default))) } : Ctx) []).1.loopStates loopId).getD default).iteration + 1) } : LoopState)) } : Ctx) (allRes ++ [.obj (loopChildrenPass ext blocks childOrder ({ ctx with loopStates := (setLS ctx.loopStates loopId (if pyEq ((lookupLS ctx.loopStates loopId).getD default).loopType (.str "forEach") ∧ ((lookupLS ctx.loopStates loopId).getD default).iteration < (((lookupLS ctx.loopStates loopId).getD default).items.length : Int) then { ((lookupLS ctx.loopStates loopId).getD default) with currentItem := ((lookupLS ctx.loopStates loopId).getD default).items.getD ((lookupLS ctx.loopStates loopId).getD default).iteration.toNat .null } else ((lookupLS ctx.loopStates loopId).getD default))) } : Ctx) []).2]))
       else (ctx, allRes)) := by
  conv_lhs => unfold runLoopIters

theorem runLoopIters_logs (ext : ExtO) (blocks : List (String × Block))
    (childOrder : List String) (loopId : String) :
    ∀ (fuel : Nat) (ctx : Ctx) (allRes : List Value),
      ∃ new, (runLoopIters ext blocks childOrder loopId fuel ctx allRes).1.logs =
          ctx.logs ++ new ∧
        ∀ rec ∈ new, rec.startedAt ≤ rec.endedAt ∧
          ∃ cid ∈ childOrder, ∃ cb, lookupBlock blocks cid = Option.some cb ∧
            rec.blockId = cb.id := by
  intro fuel
  induction fuel with
  | zero =>
      intro ctx allRes
      exact ⟨[], by simp [runLoopIters], by simp⟩
  | succ f ih =>
      intro ctx allRes
      rw [runLoopIters_succ]
      by_cases hcont : shouldContinueLoop ((lookupLS ctx.loopStates loopId).getD default) ctx = true
      · rw [if_pos hcont]
        obtain ⟨new1, hb1, hb2⟩ := loopChildrenPass_logs ext blocks childOrder ({ ctx with loopStates := (setLS ctx.loopStates loopId (if pyEq ((lookupLS ctx.loopStates loopId).getD default).loopType (.str "forEach") ∧ ((lookupLS ctx.loopStates loopId).getD default).iteration < (((lookupLS ctx.loopStates loopId).getD default).items.length : Int) then { ((lookupLS ctx.loopStates loopId).getD default) with currentItem := ((lookupLS ctx.loopStates loopId).getD default).items.getD ((lookupLS ctx.loopStates loopId).getD default).iteration.toNat .null } else ((lookupLS ctx.loopStates loopId).getD default))) } : Ctx) []
        by_cases hstop : ({ ((lookupLS (loopChildrenPass ext blocks childOrder ({ ctx with loopStates := (setLS ctx.loopStates loopId (if pyEq ((lookupLS ctx.loopStates loopId).getD default).loopType (.str "forEach") ∧ ((lookupLS ctx.loopStates loopId).getD default).iteration < (((lookupLS ctx.loopStates loopId).getD default).items.length : Int) then { ((lookupLS ctx.loopStates loopId).getD default) with currentItem := ((lookupLS ctx.loopStates loopId).getD default).items.getD ((lookupLS ctx.loopStates loopId).getD default).iteration.toNat .null } else ((lookupLS ctx.loopStates loopId).getD default))) } : Ctx) []).1.loopStates loopId).getD default) with iterationOutputs := (((lookupLS (loopChildrenPass ext blocks childOrder ({ ctx with loopStates := (setLS ctx.loopStates loopId (if pyEq ((lookupLS ctx.loopStates loopId).getD default).loopType (.str "forEach") ∧ ((lookupLS ctx.loopStates loopId).getD default).iteration < (((lookupLS ctx.loopStates loopId).getD default).items.length : Int) then { ((lookupLS ctx.loopStates loopId).getD default) with currentItem := ((lookupLS ctx.loopStates loopId).getD default).items.getD ((lookupLS ctx.loopStates loopId).getD default).iteration.toNat .null } else ((lookupLS ctx.loopStates loopId).getD default))) } : Ctx) []).1.loopStates loopId).getD default).iterationOutputs ++ [(loopChildrenPass ext blocks childOrder ({ ctx with loopStates := (setLS ctx.loopStates loopId (if pyEq ((lookupLS ctx.loopStates loopId).getD default).loopType (.str "forEach") ∧ ((lookupLS ctx.loopStates loopId).getD default).iteration < (((lookupLS ctx.loopStates loopId).getD default).items.length : Int) then { ((lookupLS ctx.loopStates loopId).getD default) with currentItem := ((lookupLS ctx.loopStates loopId).getD default).items.getD ((lookupLS ctx.loopStates loopId).getD default).iteration.toNat .null } else ((lookupLS ctx.loopStates loopId).getD default))) } : Ctx) []).2]), iteration := (((lookupLS (loopChildrenPass ext blocks childOrder ({ ctx with loopStates := (setLS ctx.loopStates loopId (if pyEq ((lookupLS ctx.loopStates loopId).getD default).loopType (.str "forEach") ∧ ((lookupLS ctx.loopStates loopId).getD default).iteration < (((lookupLS ctx.loopStates loopId).getD default).items.length : Int) then { ((lookupLS ctx.loopStates loopId).getD default) with currentItem := ((lookupLS ctx.loopStates loopId).getD default).items.getD ((lookupLS ctx.loopStates loopId).getD default).iteration.toNat .null } else ((lookupLS ctx.loopStates loopId).getD default))) } : Ctx) []).1.loopStates loopId).getD default).iteration + 1) } : LoopState).iteration ≥ MAX_LOOP_ITERATIONS
        · rw [if_pos hstop]
          exact ⟨new1, hb1, hb2⟩
        · rw [if_neg hstop]
          obtain ⟨new2, h1, h2⟩ := ih ({ (loopChildrenPass ext blocks childOrder ({ ctx with loopStates := (setLS ctx.loopStates loopId (if pyEq ((lookupLS ctx.loopStates loopId).getD default).loopType (.str "forEach") ∧ ((lookupLS ctx.loopStates loopId).getD default).iteration < (((lookupLS ctx.loopStates loopId).getD default).items.length : Int) then { ((lookupLS ctx.loopStates loopId).getD default) with currentItem := ((lookupLS ctx.loopStates loopId).getD default).items.getD ((lookupLS ctx.loopStates loopId).getD default).iteration.toNat .null } else ((lookupLS ctx.loopStates loopId).getD default))) } : Ctx) []).1 with loopStates := (setLS (loopChildrenPass ext blocks childOrder ({ ctx with loopStates := (setLS ctx.loopStates loopId (if pyEq ((lookupLS ctx.loopStates loopId).getD default).loopType (.str "forEach") ∧ ((lookupLS ctx.loopStates loopId).getD default).iteration < (((lookupLS ctx.loopStates loopId).getD default).items.length : Int) then { ((lookupLS ctx.loopStates loopId).getD default) with currentItem := ((lookupLS ctx.loopStates loopId).getD default).items.getD ((lookupLS ctx.loopStates loopId).getD default).iteration.toNat .null } else ((lookupLS ctx.loopStates loopId).getD default))) } : Ctx) []).1.loopStates loopId ({ ((lookupLS (loopChildrenPass ext blocks childOrder ({ ctx with loopStates := (setLS ctx.loopStates loopId (if pyEq ((lookupLS ctx.loopStates loopId).getD default).loopType (.str "forEach") ∧ ((lookupLS ctx.loopStates loopId).getD default).iteration < (((lookupLS ctx.loopStates loopId).getD default).items.length : Int) then { ((lookupLS ctx.loopStates loopId).getD default) with currentItem := ((lookupLS ctx.loopStates loopId).getD default).items.getD ((lookupLS ctx.loopStates loopId).getD default).iteration.toNat .null } else ((lookupLS ctx.loopStates loopId).getD default))) } : Ctx) []).1.loopStates loopId).getD default) with iterationOutputs := (((lookupLS (loopChildrenPass ext blocks childOrder ({ ctx with loopStates := (setLS ctx.loopStates loopId (if pyEq ((lookupLS ctx.loopStates loopId).getD default).loopType (.str "forEach") ∧ ((lookupLS ctx.loopStates loopId).getD default).iteration < (((lookupLS ctx.loopStates loopId).getD default).items.length : Int) then { ((lookupLS ctx.loopStates loopId).getD default) with currentItem := ((lookupLS ctx.loopStates loopId).getD default).items.getD ((lookupLS ctx.loopStates loopId).getD default).iteration.toNat .null } else ((lookupLS ctx.loopStates loopId).getD default))) } : Ctx) []).1.loopStates loopId).getD default).iterationOutputs ++ [(loopChildrenPass ext blocks childOrder ({ ctx with loopStates := (setLS ctx.loopStates loopId (if pyEq ((lookupLS ctx.loopStates loopId).getD default).loopType (.str "forEach") ∧ ((lookupLS ctx.loopStates loopId).getD default).iteration < (((lookupLS ctx.loopStates loopId).getD default).items.length : Int) then { ((lookupLS ctx.loopStates loopId).getD default) with currentItem := ((lookupLS ctx.loopStates loopId).getD default).items.getD ((lookupLS ctx.loopStates loopId).getD default).iteration.toNat .null } else ((lookupLS ctx.loopStates loopId).getD default))) } : Ctx) []).2]), iteration := (((lookupLS (loopChildrenPass ext blocks childOrder ({ ctx with loopStates := (setLS ctx.loopStates loopId (if pyEq ((lookupLS ctx.loopStates loopId).getD default).loopType (.str "forEach") ∧ ((lookupLS ctx.loopStates loopId).getD default).iteration < (((lookupLS ctx.loopStates loopId).getD default).items.length : Int) then { ((lookupLS ctx.loopStates loopId).getD default) with currentItem := ((lookupLS ctx.loopStates loopId).getD default).items.getD ((lookupLS ctx.loopStates loopId).getD default).iteration.toNat .null } else ((lookupLS ctx.loopStates loopId).getD default))) } : Ctx) []).1.loopStates loopId).getD default).iteration + 1) } : LoopState)) } : Ctx) (allRes ++ [.obj (loopChildrenPass ext blocks childOrder ({ ctx with loopStates := (setLS ctx.loopStates loopId (if pyEq ((lookupLS ctx.loopStates loopId).getD default).loopType (.str "forEach") ∧ ((lookupLS ctx.loopStates loopId).getD default).iteration < (((lookupLS ctx.loopStates loopId).getD default).items.length : Int) then { ((lookupLS ctx.loopStates loopId).getD default) with currentItem := ((lookupLS ctx.loopStates loopId).getD default).items.getD ((lookupLS ctx.loopStates loopId).getD default).iteration.toNat .null } else ((lookupLS ctx.loopStates loopId).getD default))) } : Ctx) []).2])
          refine ⟨new1 ++ new2, ?_, ?_⟩
          · rw [h1]
            show (loopChildrenPass ext blocks childOrder ({ ctx with loopStates := (setLS ctx.loopStates loopId (if pyEq ((lookupLS ctx.loopStates loopId).getD default).loopType (.str "forEach") ∧ ((lookupLS ctx.loopStates loopId).getD default).iteration < (((lookupLS ctx.loopStates loopId).getD default).items.length : Int) then { ((lookupLS ctx.loopStates loopId).getD default) with currentItem := ((lookupLS ctx.loopStates loopId).getD default).items.getD ((lookupLS ctx.loopStates loopId).getD default).iteration.toNat .null } else ((lookupLS ctx.loopStates loopId).getD default))) } : Ctx) []).1.logs ++ new2 = ctx.logs ++ (new1 ++ new2)
            rw [hb1, List.append_assoc]
          · intro rec hrec
            rcases List.mem_append.mp hrec with hm | hm
            · exact hb2 rec hm
            · exact h2 rec hm
      · rw [if_neg hcont]
        exact ⟨[], by simp, by simp⟩

theorem topoStep_subset (edges : List (Option String × Option String)) (ids : List String)
    (cur : String) (indeg : List (String × Int)) :
    ∀ x ∈ (topoStep edges ids cur indeg).2, x ∈ ids := by
  unfold topoStep
  have hgen : ∀ (es : List (Option String × Option String))
      (st : List (String × Int) × List String), (∀ x ∈ st.2, x ∈ ids) →
      ∀ x ∈ (es.foldl (fun (st : List (String × Int) × List String) e =>
        match e with
        | (Option.some s, Option.some t) =>
            if s = cur ∧ t ∈ ids then
              let d := (lookupI st.1 t).getD 0 - 1
              (setI st.1 t d, if d = 0 then st.2 ++ [t] else st.2)
            else st
        | _ => st) st).2, x ∈ ids := by
    intro es
    induction es with
    | nil => intro st h x hx; exact h x hx
    | cons e rest ih =>
        intro st h x hx
        rw [List.foldl_cons] at hx
        refine ih _ ?_ x hx
        rcases e with ⟨s0, t0⟩
        rcases s0 with _ | s1
        · exact h
        · rcases t0 with _ | t1
          · exact h
          · by_cases hc : s1 = cur ∧ t1 ∈ ids
            · show ∀ y ∈ (if s1 = cur ∧ t1 ∈ ids then _ else st).2, y ∈ ids
              rw [if_pos hc]
              by_cases hd : (lookupI st.1 t1).getD 0 - 1 = 0
              · intro y hy
                have hy2 : y ∈ st.2 ++ [t1] := by
                  simpa [hd] using hy
                rcases List.mem_append.mp hy2 with hm | hm
                · exact h y hm
                · rw [List.mem_singleton.mp hm]
                  exact hc.2
              · intro y hy
                have hy2 : y ∈ st.2 := by
                  simpa [hd] using hy
                exact h y hy2
            · show ∀ y ∈ (if s1 = cur ∧ t1 ∈ ids then _ else st).2, y ∈ ids
              rw [if_neg hc]
              exact h
  exact hgen edges (indeg, []) (by simp)

theorem topoLoop_subset (edges : List (Option String × Option String)) (ids : List String) :
    ∀ (fuel : Nat) (queue : List String) (indeg : List (String × Int)) (order : List String),
      (∀ x ∈ queue, x ∈ ids) → (∀ x ∈ order, x ∈ ids) →
      ∀ x ∈ topoLoop edges ids fuel queue indeg order, x ∈ ids := by
  intro fuel
  induction fuel with
  | zero => intro queue indeg order _ ho x hx; exact ho x hx
  | succ f ih =>
      intro queue indeg order hq ho x hx
      rcases queue with _ | ⟨cur, qrest⟩
      · exact ho x hx
      · unfold topoLoop at hx
        refine ih _ _ _ ?_ ?_ x hx
        · intro y hy
          rcases List.mem_append.mp hy with hm | hm
          · exact hq y (List.mem_cons_of_mem cur hm)
          · exact topoStep_subset edges ids cur indeg y hm
        · intro y hy
          rcases List.mem_append.mp hy with hm | hm
          · exact ho y hm
          · rw [List.mem_singleton.mp hm]
            exact hq cur (List.mem_cons_self cur qrest)

theorem execOrder_subset (edges : List (Option String × Option String)) (ids : List String) :
    ∀ x ∈ execOrder edges ids, x ∈ ids := by
  unfold execOrder
  exact topoLoop_subset edges ids _ _ _ []
    (fun x hx => List.mem_of_mem_filter hx) (by simp)

theorem loopExecute_ok (ext : ExtO) (wf : WfExec) (ctx : Ctx) (b : Block) (n : Int)
    (hn : numView (getKvDef (resolveObjList ctx b.inputs) "iterations" (.int 10)) =
      Option.some n) :
    loopExecute ext wf ctx b = .ok (({ ({ (runLoopIters ext wf.blocks (execOrder wf.edges ((lookupChildren wf.loopChildren b.id).getD [])) b.id MAX_LOOP_ITERATIONS.toNat ({ ctx with loopStates := (setLS ctx.loopStates b.id (if pyEq (getKvDef (resolveObjList ctx b.inputs) "loopType" (.str "for")) (.str "forEach") then { ({ loopType := (getKvDef (resolveObjList ctx b.inputs) "loopType" (.str "for")), condition := (pyOrV (getKvD (resolveObjList ctx b.inputs) "whileCondition") (getKvDef (resolveObjList ctx b.inputs) "doWhileCondition" (.str ""))) } : LoopState) with items := (resolveItems (getKvDef (resolveObjList ctx b.inputs) "forEachItems" (.list [])) ctx), maxIterations := (((resolveItems (getKvDef (resolveObjList ctx b.inputs) "forEachItems" (.list [])) ctx).length : Int)) } else { ({ loopType := (getKvDef (resolveObjList ctx b.inputs) "loopType" (.str "for")), condition := (pyOrV (getKvD (resolveObjList ctx b.inputs) "whileCondition") (getKvDef (resolveObjList ctx b.inputs) "doWhileCondition" (.str ""))) } : LoopState) with maxIterations := (min n MAX_LOOP_ITERATIONS) })), currentLoopId := Option.some b.id } : Ctx) []).1 with currentLoopId := ctx.currentLoopId } : Ctx) with blockOutputs := (setKv (setKv ({ (runLoopIters ext wf.blocks (execOrder wf.edges ((lookupChildren wf.loopChildren b.id).getD [])) b.id MAX_LOOP_ITERATIONS.toNat ({ ctx with loopStates := (setLS ctx.loopStates b.id (if pyEq (getKvDef (resolveObjList ctx b.inputs) "loopType" (.str "for")) (.str "forEach") then { ({ loopType := (getKvDef (resolveObjList ctx b.inputs) "loopType" (.str "for")), condition := (pyOrV (getKvD (resolveObjList ctx b.inputs) "whileCondition") (getKvDef (resolveObjList ctx b.inputs) "doWhileCondition" (.str ""))) } : LoopState) with items := (resolveItems (getKvDef (resolveObjList ctx b.inputs) "forEachItems" (.list [])) ctx), maxIterations := (((resolveItems (getKvDef (resolveObjList ctx b.inputs) "forEachItems" (.list [])) ctx).length : Int)) } else { ({ loopType := (getKvDef (resolveObjList ctx b.inputs) "loopType" (.str "for")), condition := (pyOrV (getKvD (resolveObjList ctx b.inputs) "whileCondition") (getKvDef (resolveObjList ctx b.inputs) "doWhileCondition" (.str ""))) } : LoopState) with maxIterations := (min n MAX_LOOP_ITERATIONS) })), currentLoopId := Option.some b.id } : Ctx) []).1 with currentLoopId := ctx.currentLoopId } : Ctx).blockOutputs (normalizeName b.name) (Value.obj [("results", .list (runLoopIters ext wf.blocks (execOrder wf.edges ((lookupChildren wf.loopChildren b.id).getD [])) b.id MAX_LOOP_ITERATIONS.toNat ({ ctx with loopStates := (setLS ctx.loopStates b.id (if pyEq (getKvDef (resolveObjList ctx b.inputs) "loopType" (.str "for")) (.str "forEach") then { ({ loopType := (getKvDef (resolveObjList ctx b.inputs) "loopType" (.str "for")), condition := (pyOrV (getKvD (resolveObjList ctx b.inputs) "whileCondition") (getKvDef (resolveObjList ctx b.inputs) "doWhileCondition" (.str ""))) } : LoopState) with items := (resolveItems (getKvDef (resolveObjList ctx b.inputs) "forEachItems" (.list [])) ctx), maxIterations := (((resolveItems (getKvDef (resolveObjList ctx b.inputs) "forEachItems" (.list [])) ctx).length : Int)) } else { ({ loopType := (getKvDef (resolveObjList ctx b.inputs) "loopType" (.str "for")), condition := (pyOrV (getKvD (resolveObjList ctx b.inputs) "whileCondition") (getKvDef (resolveObjList ctx b.inputs) "doWhileCondition" (.str ""))) } : LoopState) with maxIterations := (min n MAX_LOOP_ITERATIONS) })), currentLoopId := Option.some b.id } : Ctx) []).2), ("totalIterations", .int ((lookupLS (runLoopIters ext wf.blocks (execOrder wf.edges ((lookupChildren wf.loopChildren b.id).getD [])) b.id MAX_LOOP_ITERATIONS.toNat ({ ctx with loopStates := (setLS ctx.loopStates b.id (if pyEq (getKvDef (resolveObjList ctx b.inputs) "loopType" (.str "for")) (.str "forEach") then { ({ loopType := (getKvDef (resolveObjList ctx b.inputs) "loopType" (.str "for")), condition := (pyOrV (getKvD (resolveObjList ctx b.inputs) "whileCondition") (getKvDef (resolveObjList ctx b.inputs) "doWhileCondition" (.str ""))) } : LoopState) with items := (resolveItems (getKvDef (resolveObjList ctx b.inputs) "forEachItems" (.list [])) ctx), maxIterations := (((resolveItems (getKvDef (resolveObjList ctx b.inputs) "forEachItems" (.list [])) ctx).length : Int)) } else { ({ loopType := (getKvDef (resolveObjList ctx b.inputs) "loopType" (.str "for")), condition := (pyOrV (getKvD (resolveObjList ctx b.inputs) "whileCondition") (getKvDef (resolveObjList ctx b.inputs) "doWhileCondition" (.str ""))) } : LoopState) with maxIterations := (min n MAX_LOOP_ITERATIONS) })), currentLoopId := Option.some b.id } : Ctx) []).1.loopStates b.id).getD default).iteration), ("status", .str "completed")])) b.name (Value.obj [("results", .list (runLoopIters ext wf.blocks (execOrder wf.edges ((lookupChildren wf.loopChildren b.id).getD [])) b.id MAX_LOOP_ITERATIONS.toNat ({ ctx with loopStates := (setLS ctx.loopStates b.id (if pyEq (getKvDef (resolveObjList ctx b.inputs) "loopType" (.str "for")) (.str "forEach") then { ({ loopType := (getKvDef (resolveObjList ctx b.inputs) "loopType" (.str "for")), condition := (pyOrV (getKvD (resolveObjList ctx b.inputs) "whileCondition") (getKvDef (resolveObjList ctx b.inputs) "doWhileCondition" (.str ""))) } : LoopState) with items := (resolveItems (getKvDef (resolveObjList ctx b.inputs) "forEachItems" (.list [])) ctx), maxIterations := (((resolveItems (getKvDef (resolveObjList ctx b.inputs) "forEachItems" (.list [])) ctx).length : Int)) } else { ({ loopType := (getKvDef (resolveObjList ctx b.inputs) "loopType" (.str "for")), condition := (pyOrV (getKvD (resolveObjList ctx b.inputs) "whileCondition") (getKvDef (resolveObjList ctx b.inputs) "doWhileCondition" (.str ""))) } : LoopState) with maxIterations := (min n MAX_LOOP_ITERATIONS) })), currentLoopId := Option.some b.id } : Ctx) []).2), ("totalIterations", .int ((lookupLS (runLoopIters ext wf.blocks (execOrder wf.edges ((lookupChildren wf.loopChildren b.id).getD [])) b.id MAX_LOOP_ITERATIONS.toNat ({ ctx with loopStates := (setLS ctx.loopStates b.id (if pyEq (getKvDef (resolveObjList ctx b.inputs) "loopType" (.str "for")) (.str "forEach") then { ({ loopType := (getKvDef (resolveObjList ctx b.inputs) "loopType" (.str "for")), condition := (pyOrV (getKvD (resolveObjList ctx b.inputs) "whileCondition") (getKvDef (resolveObjList ctx b.inputs) "doWhileCondition" (.str ""))) } : LoopState) with items := (resolveItems (getKvDef (resolveObjList ctx b.inputs) "forEachItems" (.list [])) ctx), maxIterations := (((resolveItems (getKvDef (resolveObjList ctx b.inputs) "forEachItems" (.list [])) ctx).length : Int)) } else { ({ loopType := (getKvDef (resolveObjList ctx b.inputs) "loopType" (.str "for")), condition := (pyOrV (getKvD (resolveObjList ctx b.inputs) "whileCondition") (getKvDef (resolveObjList ctx b.inputs) "doWhileCondition" (.str ""))) } : LoopState) with maxIterations := (min n MAX_LOOP_ITERATIONS) })), currentLoopId := Option.some b.id } : Ctx) []).1.loopStates b.id).getD default).iteration), ("status", .str "completed")])) } : Ctx), (Value.obj [("results", .list (runLoopIters ext wf.blocks (execOrder wf.edges ((lookupChildren wf.loopChildren b.id).getD [])) b.id MAX_LOOP_ITERATIONS.toNat ({ ctx with loopStates := (setLS ctx.loopStates b.id (if pyEq (getKvDef (resolveObjList ctx b.inputs) "loopType" (.str "for")) (.str "forEach") then { ({ loopType := (getKvDef (resolveObjList ctx b.inputs) "loopType" (.str "for")), condition := (pyOrV (getKvD (resolveObjList ctx b.inputs) "whileCondition") (getKvDef (resolveObjList ctx b.inputs) "doWhileCondition" (.str ""))) } : LoopState) with items := (resolveItems (getKvDef (resolveObjList ctx b.inputs) "forEachItems" (.list [])) ctx), maxIterations := (((resolveItems (getKvDef (resolveObjList ctx b.inputs) "forEachItems" (.list [])) ctx).length : Int)) } else { ({ loopType := (getKvDef (resolveObjList ctx b.inputs) "loopType" (.str "for")), condition := (pyOrV (getKvD (resolveObjList ctx b.inputs) "whileCondition") (getKvDef (resolveObjList ctx b.inputs) "doWhileCondition" (.str ""))) } : LoopState) with maxIterations := (min n MAX_LOOP_ITERATIONS) })), currentLoopId := Option.some b.id } : Ctx) []).2), ("totalIterations", .int ((lookupLS (runLoopIters ext wf.blocks (execOrder wf.edges ((lookupChildren wf.loopChildren b.id).getD [])) b.id MAX_LOOP_ITERATIONS.toNat ({ ctx with loopStates := (setLS ctx.loopStates b.id (if pyEq (getKvDef (resolveObjList ctx b.inputs) "loopType" (.str "for")) (.str "forEach") then { ({ loopType := (getKvDef (resolveObjList ctx b.inputs) "loopType" (.str "for")), condition := (pyOrV (getKvD (resolveObjList ctx b.inputs) "whileCondition") (getKvDef (resolveObjList ctx b.inputs) "doWhileCondition" (.str ""))) } : LoopState) with items := (resolveItems (getKvDef (resolveObjList ctx b.inputs) "forEachItems" (.list [])) ctx), maxIterations := (((resolveItems (getKvDef (resolveObjList ctx b.inputs) "forEachItems" (.list [])) ctx).length : Int)) } else { ({ loopType := (getKvDef (resolveObjList ctx b.inputs) "loopType" (.str "for")), condition := (pyOrV (getKvD (resolveObjList ctx b.inputs) "whileCondition") (getKvDef (resolveObjList ctx b.inputs) "doWhileCondition" (.str ""))) } : LoopState) with maxIterations := (min n MAX_LOOP_ITERATIONS) })), currentLoopId := Option.some b.id } : Ctx) []).1.loopStates b.id).getD default).iteration), ("status", .str "completed")])) := by
  simp only [loopExecute]
  rw [hn]
  rfl

theorem loopExecute_err (ext : ExtO) (wf : WfExec) (ctx : Ctx) (b : Block)
    (hn : numView (getKvDef (resolveObjList ctx b.inputs) "iterations" (.int 10)) =
      Option.none) :
    loopExecute ext wf ctx b = .error "TypeError: unsupported operand types for min" := by
  simp only [loopExecute]
  rw [hn]
  rfl

theorem loopExecute_logs (ext : ExtO) (wf : WfExec) (ctx : Ctx) (b : Block)
    (ctx2 : Ctx) (out : Value) (h : loopExecute ext wf ctx b = .ok (ctx2, out)) :
    ∃ new, ctx2.logs = ctx.logs ++ new ∧
      ∀ rec ∈ new, rec.startedAt ≤ rec.endedAt ∧
        ∃ cid ∈ (lookupChildren wf.loopChildren b.id).getD [], ∃ cb,
          lookupBlock wf.blocks cid = Option.some cb ∧ rec.blockId = cb.id := by
  rcases hn : numView (getKvDef (resolveObjList ctx b.inputs) "iterations" (.int 10))
    with _ | n
  · rw [loopExecute_err ext wf ctx b hn] at h
    exact Except.noConfusion h
  · rw [loopExecute_ok ext wf ctx b n hn] at h
    injection h with h1
    injection h1 with h2 h3
    obtain ⟨new, hl, hr⟩ := runLoopIters_logs ext wf.blocks (execOrder wf.edges ((lookupChildren wf.loopChildren b.id).getD [])) b.id
      MAX_LOOP_ITERATIONS.toNat ({ ctx with loopStates := (setLS ctx.loopStates b.id (if pyEq (getKvDef (resolveObjList ctx b.inputs) "loopType" (.str "for")) (.str "forEach") then { ({ loopType := (getKvDef (resolveObjList ctx b.inputs) "loopType" (.str "for")), condition := (pyOrV (getKvD (resolveObjList ctx b.inputs) "whileCondition") (getKvDef (resolveObjList ctx b.inputs) "doWhileCondition" (.str ""))) } : LoopState) with items := (resolveItems (getKvDef (resolveObjList ctx b.inputs) "forEachItems" (.list [])) ctx), maxIterations := (((resolveItems (getKvDef (resolveObjList ctx b.inputs) "forEachItems" (.list [])) ctx).length : Int)) } else { ({ loopType := (getKvDef (resolveObjList ctx b.inputs) "loopType" (.str "for")), condition := (pyOrV (getKvD (resolveObjList ctx b.inputs) "whileCondition") (getKvDef (resolveObjList ctx b.inputs) "doWhileCondition" (.str ""))) } : LoopState) with maxIterations := (min n MAX_LOOP_ITERATIONS) })), currentLoopId := Option.some b.id } : Ctx) []
    refine ⟨new, ?_, ?_⟩
    · rw [← h2]
      exact hl
    · intro rec hrec
      obtain ⟨ht, cid, hcid, cb, hcb, hid⟩ := hr rec hrec
      exact ⟨ht, cid, execOrder_subset wf.edges _ cid hcid, cb, hcb, hid⟩

theorem runBlocks_logs (ext : ExtO) (wf : WfExec) :
    ∀ (order : List String) (ctx : Ctx) (fin : Value) (ctx2 : Ctx) (fin2 : Value),
      runBlocks ext wf order ctx fin = .ok (ctx2, fin2) →
      ∃ new, ctx2.logs = ctx.logs ++ new ∧
        ∀ rec ∈ new, rec.startedAt ≤ rec.endedAt := by
  intro order
  induction order with
  | nil =>
      intro ctx fin ctx2 fin2 h
      unfold runBlocks at h
      injection h with h1
      injection h1 with h2 h3
      rw [← h2]
      exact ⟨[], by simp, by simp⟩
  | cons bid rest ih =>
      intro ctx fin ctx2 fin2 h
      unfold runBlocks at h
      rcases hb : lookupBlock wf.blocks bid with _ | b
      · rw [hb] at h
        exact ih ctx fin ctx2 fin2 h
      · rw [hb] at h
        have h0 : (if b.type ∈ loopTypes then
            (loopExecute ext wf ctx b).bind (fun d =>
              runBlocks ext wf rest d.1 (if b.type ∈ responseTypes then d.2 else fin))
          else
            runBlocks ext wf rest (executeBlock ext ctx b).1
              (if b.type ∈ responseTypes then (executeBlock ext ctx b).2 else fin)) =
            .ok (ctx2, fin2) := h
        by_cases hl : b.type ∈ loopTypes
        · rw [if_pos hl] at h0
          rcases hle : loopExecute ext wf ctx b with e | ⟨ctxm, outm⟩
          · rw [hle] at h0
            exact Except.noConfusion h0
          · rw [hle] at h0
            have h2 : runBlocks ext wf rest ctxm
                (if b.type ∈ responseTypes then outm else fin) = .ok (ctx2, fin2) := h0
            obtain ⟨new1, hl1, hr1⟩ := loopExecute_logs ext wf ctx b ctxm outm hle
            obtain ⟨new2, hl2, hr2⟩ := ih ctxm _ ctx2 fin2 h2
            refine ⟨new1 ++ new2, ?_, ?_⟩
            · rw [hl2, hl1, List.append_assoc]
            · intro rec hrec
              rcases List.mem_append.mp hrec with hm | hm
              · exact (hr1 rec hm).1
              · exact hr2 rec hm
        · rw [if_neg hl] at h0
          have h2 : runBlocks ext wf rest (executeBlock ext ctx b).1
              (if b.type ∈ responseTypes then (executeBlock ext ctx b).2 else fin) =
              .ok (ctx2, fin2) := h0
          obtain ⟨new1, hl1, hr1⟩ := executeBlock_logs ext ctx b
          obtain ⟨new2, hl2, hr2⟩ := ih (executeBlock ext ctx b).1 _ ctx2 fin2 h2
          refine ⟨new1 ++ new2, ?_, ?_⟩
          · rw [hl2, hl1, List.append_assoc]
          · intro rec hrec
            rcases List.mem_append.mp hrec with hm | hm
            · exact (hr1 rec hm).2
            · exact hr2 rec hm

/-- A two-block workflow: a for-loop container L with two iterations and
one child function block C. -/
def wfLoopPair : WfExec :=
  ⟨[("L", { id := "L", name := "L", type := "loop", parentId := Value.null,
            inputs := [("loopType", Value.str "for"), ("iterations", Value.int 2)],
            outputs := [] }),
    ("C", { id := "C", name := "C", type := "function", parentId := Value.str "L",
            inputs := [], outputs := [] })],
   [], [("L", ["C"])]⟩

/-- A handler oracle that always succeeds with the string "ok". -/
def extOk : ExtO := fun _ _ _ _ => .ok (.str "ok")

def LblkPair : Block :=
  { id := "L", name := "L", type := "loop", parentId := Value.null, inputs := [("loopType", Value.str "for"), ("iterations", Value.int 2)], outputs := [] }

def ctx0Pair : Ctx := { inputs := [] }

def stIter0 : LoopState := { iteration := 0, items := [], currentItem := Value.null, maxIterations := 2, loopType := Value.str "for", condition := Value.str "", iterationOutputs := [] }

def ctxLoopStart : Ctx := { inputs := [], loopStates := [("L", stIter0)], currentLoopId := Option.some "L" }

def logC1 : LogRecord := ⟨"C", "C", "function", 0, true, Value.str "ok", 1⟩

def logC2 : LogRecord := ⟨"C", "C", "function", 2, true, Value.str "ok", 3⟩

def stIterEnd : LoopState := { iteration := 2, items := [], currentItem := Value.null, maxIterations := 2, loopType := Value.str "for", condition := Value.str "", iterationOutputs := [[("C", Value.str "ok")], [("C", Value.str "ok")]] }

def ctxIterEnd : Ctx := { inputs := [], blockOutputs := [("c", Value.str "ok"), ("C", Value.str "ok")], workflowVariables := [], logs := [logC1, logC2], loopStates := [("L", stIterEnd)], currentLoopId := Option.some "L", clock := 4, sleeps := [] }

def resPair : List Value := [Value.obj [("C", Value.str "ok")], Value.obj [("C", Value.str "ok")]]

def outLPair : Value :=
  Value.obj [("results", Value.list resPair), ("totalIterations", Value.int 2), ("status", Value.str "completed")]

def ctxLoopDone : Ctx := { inputs := [], blockOutputs := [("c", Value.str "ok"), ("C", Value.str "ok"), ("l", outLPair), ("L", outLPair)], workflowVariables := [], logs := [logC1, logC2], loopStates := [("L", stIterEnd)], currentLoopId := Option.none, clock := 4, sleeps := [] }

/-- C8, counterexample: running the loop workflow executes the loop
container L (both its child iterations run and produce logs), yet no log
record at all is appended for L itself — the claim promises exactly one
record for every executed block including loop containers. -/
theorem C8_log_counterexample :
    ∃ r, runWf extOk wfLoopPair [] [] = .ok r ∧
      r.logs.length = 2 ∧
      (r.logs.filter (fun lr => decide (lr.blockId = "L"))).length = 0 ∧
      (r.logs.filter (fun lr => decide (lr.blockId = "C"))).length = 2 := by
  have hloop : loopExecute extOk wfLoopPair ctx0Pair LblkPair = .ok (ctxLoopDone, outLPair) := by
    rw [loopExecute_ok extOk wfLoopPair ctx0Pair LblkPair (2 : Int) rfl]
    rw [show ({ ctx0Pair with loopStates := (setLS ctx0Pair.loopStates LblkPair.id (if pyEq (getKvDef (resolveObjList ctx0Pair LblkPair.inputs) "loopType" (.str "for")) (.str "forEach") then { ({ loopType := (getKvDef (resolveObjList ctx0Pair LblkPair.inputs) "loopType" (.str "for")), condition := (pyOrV (getKvD (resolveObjList ctx0Pair LblkPair.inputs) "whileCondition") (getKvDef (resolveObjList ctx0Pair LblkPair.inputs) "doWhileCondition" (.str ""))) } : LoopState) with items := (resolveItems (getKvDef (resolveObjList ctx0Pair LblkPair.inputs) "forEachItems" (.list [])) ctx0Pair), maxIterations := (((resolveItems (getKvDef (resolveObjList ctx0Pair LblkPair.inputs) "forEachItems" (.list [])) ctx0Pair).length : Int)) } else { ({ loopType := (getKvDef (resolveObjList ctx0Pair LblkPair.inputs) "loopType" (.str "for")), condition := (pyOrV (getKvD (resolveObjList ctx0Pair LblkPair.inputs) "whileCondition") (getKvDef (resolveObjList ctx0Pair LblkPair.inputs) "doWhileCondition" (.str ""))) } : LoopState) with maxIterations := (min (2 : Int) MAX_LOOP_ITERATIONS) })), currentLoopId := Option.some LblkPair.id } : Ctx) = ctxLoopStart from rfl]
    rw [show execOrder wfLoopPair.edges ((lookupChildren wfLoopPair.loopChildren LblkPair.id).getD []) = ["C"] from rfl]
    rw [show MAX_LOOP_ITERATIONS.toNat = 1000 from rfl]
    rw [show runLoopIters extOk wfLoopPair.blocks ["C"] LblkPair.id 1000 ctxLoopStart [] = (ctxIterEnd, resPair) from rfl]
    rfl
  have hstep : runBlocks extOk wfLoopPair ["L"] ctx0Pair Value.null =
      (loopExecute extOk wfLoopPair ctx0Pair LblkPair).bind (fun d =>
        runBlocks extOk wfLoopPair [] d.1
          (if LblkPair.type ∈ responseTypes then d.2 else Value.null)) := by
    show (match lookupBlock wfLoopPair.blocks "L" with
      | Option.none => runBlocks extOk wfLoopPair [] ctx0Pair Value.null
      | Option.some b =>
          if b.type ∈ loopTypes then do
            let d ← loopExecute extOk wfLoopPair ctx0Pair b
            runBlocks extOk wfLoopPair [] d.1
              (if b.type ∈ responseTypes then d.2 else Value.null)
          else
            runBlocks extOk wfLoopPair [] (executeBlock extOk ctx0Pair b).1
              (if b.type ∈ responseTypes then (executeBlock extOk ctx0Pair b).2
                else Value.null)) = _
    rw [show lookupBlock wfLoopPair.blocks "L" = Option.some LblkPair from rfl]
    show (if LblkPair.type ∈ loopTypes then
        (loopExecute extOk wfLoopPair ctx0Pair LblkPair).bind (fun d =>
          runBlocks extOk wfLoopPair [] d.1
            (if LblkPair.type ∈ responseTypes then d.2 else Value.null))
      else
        runBlocks extOk wfLoopPair [] (executeBlock extOk ctx0Pair LblkPair).1
          (if LblkPair.type ∈ responseTypes then (executeBlock extOk ctx0Pair LblkPair).2
            else Value.null)) = _
    rw [if_pos (show LblkPair.type ∈ loopTypes from by decide)]
  have hrun : runWf extOk wfLoopPair [] [] =
      .ok { success := true, output := Value.null, error := Value.null, logs := [logC1, logC2] } := by
    have h0 : runWf extOk wfLoopPair [] [] =
        (runBlocks extOk wfLoopPair (execOrder wfLoopPair.edges (topLevelIds wfLoopPair))
          ctx0Pair Value.null).bind (fun p =>
            .ok ({ success := true, output := p.2, error := .null, logs := p.1.logs } : RunResult)) := rfl
    rw [h0]
    rw [show execOrder wfLoopPair.edges (topLevelIds wfLoopPair) = ["L"] from rfl]
    rw [hstep, hloop]
    rfl
  exact ⟨_, hrun, rfl, rfl, rfl⟩

/-- C8, amended: (1) a leaf block with a handler appends exactly one log
record, carrying the block id, name and type, with startedAt the clock at
entry and endedAt one tick later (so endedAt is at least startedAt);
(2) a block without a handler appends no record and leaves the context
unchanged; (3) the loop driver appends records only for the children: the
records whose blockId is the container id are exactly those present
before (under well-keyed blocks and the container not among its own
children); (4) every record in the logs of a completed run satisfies
startedAt at most endedAt. -/
theorem C8_block_logs :
    (∀ (ext : ExtO) (ctx : Ctx) (b : Block) (k : HKind),
      getHandlerKind b = Option.some k →
      ∃ succ out, (executeBlock ext ctx b).1.logs =
        ctx.logs ++ [⟨b.id, b.name, b.type, ctx.clock, succ, out, ctx.clock + 1⟩] ∧
        ctx.clock ≤ ctx.clock + 1) ∧
    (∀ (ext : ExtO) (ctx : Ctx) (b : Block),
      getHandlerKind b = Option.none → (executeBlock ext ctx b).1 = ctx) ∧
    (∀ (ext : ExtO) (wf : WfExec) (ctx : Ctx) (b : Block) (ctx2 : Ctx) (out : Value),
      (∀ p ∈ wf.blocks, (p : String × Block).2.id = p.1) →
      b.id ∉ (lookupChildren wf.loopChildren b.id).getD [] →
      loopExecute ext wf ctx b = .ok (ctx2, out) →
      ctx2.logs.filter (fun rec => decide (rec.blockId = b.id)) =
        ctx.logs.filter (fun rec => decide (rec.blockId = b.id))) ∧
    (∀ (ext : ExtO) (wf : WfExec) (inputs vars : List (String × Value)) (r : RunResult),
      runWf ext wf inputs vars = .ok r → ∀ rec ∈ r.logs, rec.startedAt ≤ rec.endedAt) := by
  refine ⟨?_, ?_, ?_, ?_⟩
  · intro ext ctx b k hk
    rw [executeBlock_eq ext ctx b k hk]
    have hp := attemptLoop_pres ext b (riLoopInject ctx (resolveObjList ctx b.inputs)) 3 0
      { ctx with clock := ctx.clock + 1 }
    refine ⟨(attemptLoop ext b (riLoopInject ctx (resolveObjList ctx b.inputs)) 3 0
        { ctx with clock := ctx.clock + 1 }).2.2,
      (attemptLoop ext b (riLoopInject ctx (resolveObjList ctx b.inputs)) 3 0
        { ctx with clock := ctx.clock + 1 }).2.1, ?_, Nat.le_succ ctx.clock⟩
    show (attemptLoop ext b (riLoopInject ctx (resolveObjList ctx b.inputs)) 3 0
          { ctx with clock := ctx.clock + 1 }).1.logs ++
        [⟨b.id, b.name, b.type, ctx.clock,
          (attemptLoop ext b (riLoopInject ctx (resolveObjList ctx b.inputs)) 3 0
            { ctx with clock := ctx.clock + 1 }).2.2,
          (attemptLoop ext b (riLoopInject ctx (resolveObjList ctx b.inputs)) 3 0
            { ctx with clock := ctx.clock + 1 }).2.1,
          (attemptLoop ext b (riLoopInject ctx (resolveObjList ctx b.inputs)) 3 0
            { ctx with clock := ctx.clock + 1 }).1.clock⟩] =
      ctx.logs ++
        [⟨b.id, b.name, b.type, ctx.clock,
          (attemptLoop ext b (riLoopInject ctx (resolveObjList ctx b.inputs)) 3 0
            { ctx with clock := ctx.clock + 1 }).2.2,
          (attemptLoop ext b (riLoopInject ctx (resolveObjList ctx b.inputs)) 3 0
            { ctx with clock := ctx.clock + 1 }).2.1,
          ctx.clock + 1⟩]
    rw [hp.1, hp.2]
  · intro ext ctx b hk
    rw [executeBlock_unhandled ext ctx b hk]
  · intro ext wf ctx b ctx2 out hwf hch hle
    obtain ⟨new, hl, hr⟩ := loopExecute_logs ext wf ctx b ctx2 out hle
    rw [hl, List.filter_append]
    rw [show new.filter (fun rec => decide (rec.blockId = b.id)) = [] from by
      rw [List.filter_eq_nil_iff]
      intro rec hrec
      obtain ⟨_, cid, hcid, cb, hcb, hid⟩ := hr rec hrec
      have hkey : cb.id = cid := hwf (cid, cb) (lookupBlock_mem wf.blocks cid cb hcb)
      simp only [decide_eq_true_iff, hid, hkey]
      intro he
      exact hch (he ▸ hcid)]
    rw [List.append_nil]
  · intro ext wf inputs vars r h
    unfold runWf at h
    have h0 : (runBlocks ext wf (execOrder wf.edges (topLevelIds wf))
        { inputs := inputs, workflowVariables := vars } .null).bind
        (fun p => .ok ({ success := true, output := p.2, error := .null, logs := p.1.logs } : RunResult)) = .ok r := h
    rcases hrb : runBlocks ext wf (execOrder wf.edges (topLevelIds wf))
        { inputs := inputs, workflowVariables := vars } .null with e | ⟨ctxf, fin⟩
    · rw [hrb] at h0
      exact Except.noConfusion h0
    · rw [hrb] at h0
      have h1 : Except.ok ({ success := true, output := fin, error := .null, logs := ctxf.logs } : RunResult) = Except.ok r := h0
      injection h1 with h2
      obtain ⟨new, hl, hr⟩ := runBlocks_logs ext wf _ _ _ _ _ hrb
      intro rec hrec
      rw [← h2] at hrec
      have hrec2 : rec ∈ ctxf.logs := hrec
      rw [hl] at hrec2
      have hrec3 : rec ∈ new := by simpa using hrec2
      exact hr rec hrec3


/-- A workflow with a single top-level function block. -/
def wfOneFunc : WfExec :=
  ⟨[("F", { id := "F", name := "F", type := "function", parentId := Value.null,
            inputs := [], outputs := [] })], [], []⟩

/-- Witness for the amended C8 theorem: a concrete api block appends one
record with endedAt = startedAt + 1, and a completed concrete run has only
well-timed records. -/
theorem C8_block_logs_witness :
    (∃ succ out,
      (executeBlock extOk { inputs := [] }
        { id := "A", name := "A", type := "api", parentId := Value.null,
          inputs := [], outputs := [] }).1.logs =
        [] ++ [⟨"A", "A", "api", 0, succ, out, 0 + 1⟩] ∧ 0 ≤ 0 + 1) ∧
    (∃ r, runWf extOk wfOneFunc [] [] = .ok r ∧
      ∀ rec ∈ r.logs, rec.startedAt ≤ rec.endedAt) := by
  constructor
  · have h := C8_block_logs.1 extOk { inputs := [] }
      { id := "A", name := "A", type := "api", parentId := Value.null,
        inputs := [], outputs := [] } HKind.api rfl
    exact h
  · exact ⟨_, rfl, C8_block_logs.2.2.2 extOk wfOneFunc [] [] _ rfl⟩

theorem runBlocks_total (ext : ExtO) (wf : WfExec)
    (hnl : ∀ p ∈ wf.blocks, (p : String × Block).2.type ∉ loopTypes) :
    ∀ (order : List String) (ctx : Ctx) (fin : Value),
      ∃ p, runBlocks ext wf order ctx fin = .ok p := by
  intro order
  induction order with
  | nil => intro ctx fin; exact ⟨(ctx, fin), rfl⟩
  | cons bid rest ih =>
      intro ctx fin
      rcases hb : lookupBlock wf.blocks bid with _ | b
      · obtain ⟨p, hp⟩ := ih ctx fin
        refine ⟨p, ?_⟩
        show (match lookupBlock wf.blocks bid with
          | Option.none => runBlocks ext wf rest ctx fin
          | Option.some b =>
              if b.type ∈ loopTypes then do
                let d ← loopExecute ext wf ctx b
                runBlocks ext wf rest d.1 (if b.type ∈ responseTypes then d.2 else fin)
              else
                runBlocks ext wf rest (executeBlock ext ctx b).1
                  (if b.type ∈ responseTypes then (executeBlock ext ctx b).2 else fin)) = .ok p
        rw [hb]
        exact hp
      · have hbt : b.type ∉ loopTypes := hnl (bid, b) (lookupBlock_mem wf.blocks bid b hb)
        obtain ⟨p, hp⟩ := ih (executeBlock ext ctx b).1
          (if b.type ∈ responseTypes then (executeBlock ext ctx b).2 else fin)
        refine ⟨p, ?_⟩
        show (match lookupBlock wf.blocks bid with
          | Option.none => runBlocks ext wf rest ctx fin
          | Option.some b =>
              if b.type ∈ loopTypes then do
                let d ← loopExecute ext wf ctx b
                runBlocks ext wf rest d.1 (if b.type ∈ responseTypes then d.2 else fin)
              else
                runBlocks ext wf rest (executeBlock ext ctx b).1
                  (if b.type ∈ responseTypes then (executeBlock ext ctx b).2 else fin)) = .ok p
        rw [hb]
        show (if b.type ∈ loopTypes then
            (loopExecute ext wf ctx b).bind (fun d =>
              runBlocks ext wf rest d.1 (if b.type ∈ responseTypes then d.2 else fin))
          else
            runBlocks ext wf rest (executeBlock ext ctx b).1
              (if b.type ∈ responseTypes then (executeBlock ext ctx b).2 else fin)) = .ok p
        rw [if_neg hbt]
        exact hp

/-- A one-loop workflow whose iterations input is the string "ten". -/
def wfBadIter : WfExec :=
  ⟨[("L", { id := "L", name := "L", type := "loop", parentId := Value.null,
            inputs := [("loopType", Value.str "for"), ("iterations", Value.str "ten")],
            outputs := [] })],
   [], []⟩

/-- C9, counterexample: a workflow whose loop block carries a non-numeric
iterations value makes the whole run raise (min(iterations, 1000) is a
TypeError), so run does not return success: true for every workflow
document; the loop driver's exception aborts the run. -/
theorem C9_run_counterexample :
    runWf (fun _ _ _ _ => .ok (.str "ok")) wfBadIter [] [] =
      .error "TypeError: unsupported operand types for min" := by
  rfl

/-- C9, amended: (1) whenever run returns at all, the result carries
success true and error null (with the accumulated logs); (2) for a
workflow without loop blocks the run always completes — handler
exceptions and error outputs never abort it (they are absorbed into
block outputs by the retry wrapper); (3) after a leaf block, execution
always proceeds to the remaining blocks, whatever the handler outcome,
with the final output taken from response/output-typed blocks. -/
theorem C9_run_contract :
    (∀ (ext : ExtO) (wf : WfExec) (inputs vars : List (String × Value)) (r : RunResult),
      runWf ext wf inputs vars = .ok r → r.success = true ∧ r.error = .null) ∧
    (∀ (ext : ExtO) (wf : WfExec) (inputs vars : List (String × Value)),
      (∀ p ∈ wf.blocks, (p : String × Block).2.type ∉ loopTypes) →
      ∃ r, runWf ext wf inputs vars = .ok r ∧ r.success = true ∧ r.error = .null) ∧
    (∀ (ext : ExtO) (wf : WfExec) (bid : String) (rest : List String) (ctx : Ctx)
      (fin : Value) (b : Block),
      lookupBlock wf.blocks bid = Option.some b → b.type ∉ loopTypes →
      runBlocks ext wf (bid :: rest) ctx fin =
        runBlocks ext wf rest (executeBlock ext ctx b).1
          (if b.type ∈ responseTypes then (executeBlock ext ctx b).2 else fin)) := by
  refine ⟨?_, ?_, ?_⟩
  · intro ext wf inputs vars r h
    unfold runWf at h
    have h0 : (runBlocks ext wf (execOrder wf.edges (topLevelIds wf))
        { inputs := inputs, workflowVariables := vars } .null).bind
        (fun p => .ok ({ success := true, output := p.2, error := .null, logs := p.1.logs } : RunResult)) = .ok r := h
    rcases hrb : runBlocks ext wf (execOrder wf.edges (topLevelIds wf))
        { inputs := inputs, workflowVariables := vars } .null with e | ⟨ctxf, fin⟩
    · rw [hrb] at h0
      exact Except.noConfusion h0
    · rw [hrb] at h0
      have h1 : Except.ok ({ success := true, output := fin, error := .null, logs := ctxf.logs } : RunResult) = Except.ok r := h0
      injection h1 with h2
      rw [← h2]
      exact ⟨rfl, rfl⟩
  · intro ext wf inputs vars hnl
    obtain ⟨p, hp⟩ := runBlocks_total ext wf hnl
      (execOrder wf.edges (topLevelIds wf)) { inputs := inputs, workflowVariables := vars } .null
    have hrw : runWf ext wf inputs vars =
        (runBlocks ext wf (execOrder wf.edges (topLevelIds wf))
          { inputs := inputs, workflowVariables := vars } .null).bind
          (fun q => .ok ({ success := true, output := q.2, error := .null, logs := q.1.logs } : RunResult)) := rfl
    refine ⟨{ success := true, output := p.2, error := .null, logs := p.1.logs }, ?_, rfl, rfl⟩
    rw [hrw, hp]
    rfl
  · intro ext wf bid rest ctx fin b hb hbt
    show (match lookupBlock wf.blocks bid with
      | Option.none => runBlocks ext wf rest ctx fin
      | Option.some b =>
          if b.type ∈ loopTypes then do
            let d ← loopExecute ext wf ctx b
            runBlocks ext wf rest d.1 (if b.type ∈ responseTypes then d.2 else fin)
          else
            runBlocks ext wf rest (executeBlock ext ctx b).1
              (if b.type ∈ responseTypes then (executeBlock ext ctx b).2 else fin)) = _
    rw [hb]
    show (if b.type ∈ loopTypes then
        (loopExecute ext wf ctx b).bind (fun d =>
          runBlocks ext wf rest d.1 (if b.type ∈ responseTypes then d.2 else fin))
      else
        runBlocks ext wf rest (executeBlock ext ctx b).1
          (if b.type ∈ responseTypes then (executeBlock ext ctx b).2 else fin)) = _
    rw [if_neg hbt]

/-- Witness for the amended C9 theorem: with a handler that always raises
a non-transient error, the one-block workflow still completes with
success true and error null. -/
theorem C9_run_contract_witness :
    (∃ r, runWf (fun _ _ _ _ => .error "boom") wfOneFunc [] [] = .ok r ∧
      r.success = true ∧ r.error = .null) ∧
    (∀ p ∈ wfOneFunc.blocks, (p : String × Block).2.type ∉ loopTypes) := by
  refine ⟨C9_run_contract.2.1 (fun _ _ _ _ => .error "boom") wfOneFunc [] [] ?_, ?_⟩
  · intro p hp
    fin_cases hp
    decide
  · intro p hp
    fin_cases hp
    decide

end Sim
